import Mathlib

/-!
# CatFlap firmware: receive ring buffer, serial reads, mode switch, button decoder

A shallow embedding of `interrupts.c`, `serial.c` and the parts of `main.c`
that the verified properties are about.

* 8-bit and 16-bit machine integers are `Nat` with explicit `% 256` / `% 65536`.
  The code is for the XC8 compiler (`xc.h`, `__interrupt`, `__delay_ms`), where
  `int` has 16 bits: `uint16_t` operands are not promoted to a wider signed
  type, so `+` and `-` on them wrap modulo 65536.
* `ms_t`, `TMR1_H_PRES`, `TMR1_L_PRES` come from headers that are not in the
  tree; they are fields of `Platform`.
* An array access outside `buffer[SER_BUFFER]` has no defined result; functions
  that index the array return `Option` and give `none` there.
* The busy-wait loops of `serial.c` only make progress through interrupts. The
  interrupts serviced before each evaluation of a loop condition are given as a
  list of bursts; a loop that is still waiting when the list is exhausted gives
  `none`.
-/

namespace CatFlap

/-! ## Constants and state -/

/-- Constants and types of the headers that are not in the tree
(`interrupts.h`, `peripherials.h`): the bit width of the unsigned type `ms_t`,
the two timer-1 reload values, whether `FLAP_POT` is defined, and the three
configuration indices that main.c caches. -/
structure Platform where
  msBits : Nat
  TMR1_H_PRES : Nat
  TMR1_L_PRES : Nat
  FLAP_POT : Bool
  LIGHT_CFG : Nat
  FLAP_POS_IDLE : Nat
  FLAP_POS_MARGIN : Nat
deriving DecidableEq, Repr

/-- The constant `SER_BUFFER` of serial.h, the capacity of the receive array. -/
@[reducible] def SER_BUFFER : Nat := 16

/-- The constant `SERIAL_TIMEOUT` of serial.c, in milliseconds. -/
@[reducible] def SERIAL_TIMEOUT : Nat := 5

/-- `struct RingBuffer` (serial.h): `rIndex` is the write index advanced by the
receive interrupt, `uIndex` the read index advanced by the main loop. -/
structure RingBuffer where
  rIndex : Nat
  uIndex : Nat
  buffer : List Nat
deriving DecidableEq, Repr

/-- Special function registers and globals touched by `interrupts.c` and
`serial.c`. `tx` records the bytes written to `TXREG`, oldest first. -/
structure Machine where
  TMR1IF : Bool
  TMR1IE : Bool
  TMR1H : Nat
  TMR1L : Nat
  RCIF : Bool
  RCIE : Bool
  RCREG : Nat
  millisValue : Nat
  rxBuffer : RingBuffer
  tx : List Nat
deriving DecidableEq, Repr

/-- The idiom `if(++x == SER_BUFFER){ x = 0; }` on a `uint8_t` index. -/
def bump (x : Nat) : Nat :=
  if (x + 1) % 256 = SER_BUFFER then 0 else (x + 1) % 256

/-! ## interrupts.c -/

/-- The interrupt routine `isr`. The timer branch reloads timer 1, clears the
flag and increments `millisValue` (an `ms_t`); otherwise the receive branch
stores `RCREG` at the write index and advances it. -/
def isr (p : Platform) (m : Machine) : Option Machine :=
  if m.TMR1IF && m.TMR1IE then
    some { m with
      TMR1H := p.TMR1_H_PRES
      TMR1L := p.TMR1_L_PRES
      TMR1IF := false
      millisValue := (m.millisValue + 1) % 2 ^ p.msBits }
  else if m.RCIF then
    if m.rxBuffer.rIndex < m.rxBuffer.buffer.length then
      some { m with
        RCIF := false
        rxBuffer :=
          { m.rxBuffer with
            buffer := m.rxBuffer.buffer.set m.rxBuffer.rIndex (m.RCREG % 256)
            rIndex := bump m.rxBuffer.rIndex } }
    else none
  else some m

/-- The function `millis`. -/
def millis (m : Machine) : Nat := m.millisValue

/-- An interrupt source. -/
inductive Irq where
  | timer : Irq
  | rx (b : Nat) : Irq
deriving DecidableEq, Repr

/-- The hardware side of an interrupt: timer 1 overflows and sets `TMR1IF`, or
the UART latches a byte into `RCREG` and sets `RCIF`. -/
def raise : Irq → Machine → Machine
  | .timer, m => { m with TMR1IF := true }
  | .rx b, m => { m with RCIF := true, RCREG := b % 256 }

/-- One interrupt: the hardware raises the flag and `isr` runs to completion. -/
def service (p : Platform) (e : Irq) (m : Machine) : Option Machine :=
  isr p (raise e m)

/-- A burst of interrupts serviced one after the other. -/
def serviceAll (p : Platform) : List Irq → Machine → Option Machine
  | [], m => some m
  | e :: es, m =>
    match service p e m with
    | none => none
    | some m1 => serviceAll p es m1

/-- The receive branch of `isr` for an arriving byte `b`. -/
def push (p : Platform) (b : Nat) (m : Machine) : Option Machine :=
  service p (.rx b) m

/-- The receive branch of `isr` run once per byte of the list, in order. -/
def pushAll (p : Platform) (bs : List Nat) (m : Machine) : Option Machine :=
  serviceAll p (bs.map Irq.rx) m

/-! ## serial.c -/

/-- The part of `initSerial` that touches modelled state: receive interrupts
are enabled and both ring buffer indices are reset. -/
def initSerial (m : Machine) : Machine :=
  { m with
    RCIE := true
    rxBuffer := { m.rxBuffer with rIndex := 0, uIndex := 0 } }

/-- The function `putch`: once the transmitter is free, the byte goes to `TXREG`. -/
def putch (byte : Nat) (m : Machine) : Machine :=
  { m with tx := m.tx ++ [byte % 256] }

/-- The function `putShort`. -/
def putShort (v : Nat) (m : Machine) : Machine :=
  putch ((v >>> 8) &&& 0xFF) (putch (v &&& 0xFF) m)

/-- The function `byteAvail`. -/
def byteAvail (m : Machine) : Bool :=
  m.rxBuffer.rIndex != m.rxBuffer.uIndex

/-- The difference `a - b` of two `ms_t` values, an unsigned type of
`p.msBits` bits at least as wide as `int`. -/
def msSub (p : Platform) (a b : Nat) : Nat :=
  (a + (2 ^ p.msBits - b % 2 ^ p.msBits)) % 2 ^ p.msBits

/-- The loop `while(rxBuffer.rIndex == rxBuffer.uIndex){ if((millis()-start)>SERIAL_TIMEOUT) return 1; }`.
Before each evaluation of the condition the next burst of interrupts is
serviced. The result is `true` when the loop was left with a byte available,
`false` when it returned on timeout, together with the machine and the bursts
not yet used. -/
def waitByte (p : Platform) (start : Nat) :
    List (List Irq) → Machine → Option (Bool × Machine × List (List Irq))
  | [], _ => none
  | burst :: rest, m =>
    match serviceAll p burst m with
    | none => none
    | some m1 =>
      if m1.rxBuffer.rIndex = m1.rxBuffer.uIndex then
        if msSub p (millis m1) start > SERIAL_TIMEOUT then some (false, m1, rest)
        else waitByte p start rest m1
      else some (true, m1, rest)

/-- What a read returns: the return code, the value at `*v`, the machine, and
the interrupt bursts not yet used. -/
structure Rd where
  ret : Nat
  v : Nat
  m : Machine
  env : List (List Irq)
deriving DecidableEq, Repr

/-- The statements `x = rxBuffer.buffer[rxBuffer.uIndex]; if(++rxBuffer.uIndex == SER_BUFFER){ rxBuffer.uIndex = 0; }`:
the byte read and the machine afterwards. -/
def take (m : Machine) : Option (Nat × Machine) :=
  match m.rxBuffer.buffer[m.rxBuffer.uIndex]? with
  | none => none
  | some b =>
    some (b, { m with rxBuffer := { m.rxBuffer with uIndex := bump m.rxBuffer.uIndex } })

/-- The function `getByte`; `v` is the value of `*v` on entry. -/
def getByte (p : Platform) (env : List (List Irq)) (m : Machine) (v : Nat) : Option Rd :=
  let start := millis m
  match waitByte p start env m with
  | none => none
  | some (false, m1, env1) => some ⟨1, v, m1, env1⟩
  | some (true, m1, env1) =>
    match take m1 with
    | none => none
    | some (b, m2) => some ⟨0, b, m2, env1⟩

/-- The function `getShort`; `v` is the value of `*v` on entry. -/
def getShort (p : Platform) (env : List (List Irq)) (m : Machine) (v : Nat) : Option Rd :=
  let start := millis m
  match waitByte p start env m with
  | none => none
  | some (false, m1, env1) => some ⟨1, v, m1, env1⟩
  | some (true, m1, env1) =>
    match take m1 with
    | none => none
    | some (lo, m2) =>
      match waitByte p start env1 m2 with
      | none => none
      | some (false, m3, env3) => some ⟨1, lo, m3, env3⟩
      | some (true, m3, env3) =>
        match take m3 with
        | none => none
        | some (hi, m4) => some ⟨0, (lo ||| (hi <<< 8)) % 65536, m4, env3⟩

/-- Successive calls of `getByte`, `k` of them, each on the machine and bursts
left by the one before: the return codes and bytes in call order. -/
def getBytes (p : Platform) : Nat → List (List Irq) → Machine → Option (List (Nat × Nat) × Machine)
  | 0, _, m => some ([], m)
  | k + 1, env, m =>
    match getByte p env m 0 with
    | none => none
    | some r =>
      match getBytes p k r.env r.m with
      | none => none
      | some (out, m') => some ((r.ret, r.v) :: out, m')

/-- Interleaved receive-interrupt and main-loop activity on the ring buffer. -/
inductive Op where
  | push (b : Nat) : Op
  | pop : Op
deriving DecidableEq, Repr

/-- One step of an interleaving on the machine. A push is the receive branch of
`isr`. A pop is the caller pattern `if(byteAvail()){ getByte(&c) ... }` with no
interrupt serviced inside the call; it reports the return code and the byte. -/
def stepOp (p : Platform) (m : Machine) : Op → Option (Machine × List (Nat × Nat))
  | .push b =>
    match push p b m with
    | none => none
    | some m1 => some (m1, [])
  | .pop =>
    if byteAvail m then
      match getByte p [[]] m 0 with
      | none => none
      | some r => some (r.m, [(r.ret, r.v)])
    else some (m, [])

/-- A whole interleaving on the machine: the final machine and what the pops
returned, in order. -/
def runOps (p : Platform) : List Op → Machine → Option (Machine × List (Nat × Nat))
  | [], m => some (m, [])
  | op :: ops, m =>
    match stepOp p m op with
    | none => none
    | some (m1, o1) =>
      match runOps p ops m1 with
      | none => none
      | some (m2, o2) => some (m2, o1 ++ o2)

/-- The unread bytes, oldest first, by bookkeeping alone: a push appends the
byte that arrived, a pop removes the oldest byte if there is one. -/
def unread : List Nat → List Op → List Nat
  | q, [] => q
  | q, .push b :: ops => unread (q ++ [b % 256]) ops
  | q, .pop :: ops => unread q.tail ops

/-- What the pops of an interleaving should return by the same bookkeeping:
success and the oldest unread byte, for each pop made with a byte unread. -/
def expected : List Nat → List Op → List (Nat × Nat)
  | _, [] => []
  | q, .push b :: ops => expected (q ++ [b % 256]) ops
  | [], .pop :: ops => expected [] ops
  | x :: q, .pop :: ops => (0, x) :: expected q ops

/-- The producer never overruns the consumer: after every step the number of
unread bytes is at most `SER_BUFFER - 1`. -/
def NoOverrun : List Nat → List Op → Prop
  | q, [] => q.length ≤ SER_BUFFER - 1
  | q, op :: ops => q.length ≤ SER_BUFFER - 1 ∧ NoOverrun (unread q [op]) ops

/-- The discipline `NoOverrun` can be checked by running the bookkeeping. -/
def NoOverrun.decide : (q : List Nat) → (ops : List Op) → Decidable (NoOverrun q ops)
  | q, [] => Nat.decLe q.length (SER_BUFFER - 1)
  | q, op :: ops =>
    match Nat.decLe q.length (SER_BUFFER - 1), NoOverrun.decide (unread q [op]) ops with
    | isTrue h1, isTrue h2 => isTrue ⟨h1, h2⟩
    | isFalse h1, _ => isFalse fun h => h1 h.1
    | _, isFalse h2 => isFalse fun h => h2 h.2

instance (q : List Nat) (ops : List Op) : Decidable (NoOverrun q ops) :=
  NoOverrun.decide q ops

/-- No interrupt is pending: the timer flag is not both set and enabled, and
no received byte waits in `RCREG`. -/
def Quiet (m : Machine) : Prop :=
  (m.TMR1IF && m.TMR1IE) = false ∧ m.RCIF = false

instance (m : Machine) : Decidable (Quiet m) := by
  unfold Quiet
  infer_instance

/-- No byte arrives in any of the bursts. -/
def NoRx (env : List (List Irq)) : Prop :=
  ∀ burst ∈ env, ∀ e ∈ burst, e = Irq.timer

instance (env : List (List Irq)) : Decidable (NoRx env) := by
  unfold NoRx
  infer_instance

/-- The ring buffer holds exactly the bytes `q`, oldest first, between the read
index and the write index. -/
def Holds (rb : RingBuffer) (q : List Nat) : Prop :=
  rb.buffer.length = SER_BUFFER ∧ rb.uIndex < SER_BUFFER ∧ q.length < SER_BUFFER ∧
  rb.rIndex = (rb.uIndex + q.length) % SER_BUFFER ∧
  ∀ i, i < q.length → rb.buffer[(rb.uIndex + i) % SER_BUFFER]? = q[i]?

/-- A timeout measured from clock value `start` is seen: at some evaluation of
a wait loop condition, counted from 0 over the bursts of `env` and no earlier
than evaluation `first`, the clock read after the bursts serviced up to then
exceeds `start` by more than `SERIAL_TIMEOUT`. -/
def TimesOut (p : Platform) (start first : Nat) (env : List (List Irq)) (m : Machine) : Prop :=
  ∃ k, first ≤ k ∧ k < env.length ∧ ∃ mk,
    serviceAll p (env.take (k + 1)).flatten m = some mk ∧
    msSub p (millis mk) start > SERIAL_TIMEOUT

/-! ## main.c: operating mode -/

/-- The constant `MODE_NORMAL`. -/
@[reducible] def MODE_NORMAL : Nat := 0
/-- The constant `MODE_VET`. -/
@[reducible] def MODE_VET : Nat := 1
/-- The constant `MODE_CLOSED`. -/
@[reducible] def MODE_CLOSED : Nat := 2
/-- The constant `MODE_NIGHT`. -/
@[reducible] def MODE_NIGHT : Nat := 3
/-- The constant `MODE_LEARN`. -/
@[reducible] def MODE_LEARN : Nat := 4
/-- The constant `MODE_CLEAR`. -/
@[reducible] def MODE_CLEAR : Nat := 5
/-- The constant `MODE_OPEN`. -/
@[reducible] def MODE_OPEN : Nat := 6

/-- The constant `GREEN_PRESS`. -/
@[reducible] def GREEN_PRESS : Nat := 1
/-- The constant `RED_PRESS`. -/
@[reducible] def RED_PRESS : Nat := 2
/-- The constant `BOTH_PRESS`. -/
@[reducible] def BOTH_PRESS : Nat := 3

/-- The file-scope variables of main.c, with the flap potentiometer compiled in. -/
structure Globals where
  opMode : Nat
  outLocked : Bool
  inLocked : Bool
  light : Nat
  lightThd : Nat
  flapPos : Nat
  flapPosTol : Nat
  flapPosIdle : Nat
  flapInner : Bool
  flapOuter : Bool
deriving DecidableEq, Repr

/-- The values of the file-scope variables of main.c at reset. -/
def Globals.reset : Globals :=
  { opMode := MODE_NORMAL, outLocked := false, inLocked := false, light := 0, lightThd := 0,
    flapPos := 0, flapPosTol := 30, flapPosIdle := 512, flapInner := false, flapOuter := false }

/-- The latch actuators of `peripherials.h`, which is not in the tree: each is
asked for a lock state, acts on the latch hardware `σ`, and returns the state
the latch is then in. -/
structure Latches (σ : Type) where
  lockRedLatch : Bool → σ → Bool × σ
  lockGreenLatch : Bool → σ → Bool × σ

/-- The statements `outLocked = lockRedLatch(red); inLocked = lockGreenLatch(green);`. -/
def setLatches {σ : Type} (L : Latches σ) (red green : Bool) (g : Globals) (h : σ) :
    Globals × σ :=
  let o := L.lockRedLatch red h
  let i := L.lockGreenLatch green o.2
  ({ g with outLocked := o.1, inLocked := i.1 }, i.2)

/-- The function `switchMode`, `mode` a `uint8_t`. -/
def switchMode {σ : Type} (L : Latches σ) (mode : Nat) (g : Globals) (h : σ) : Globals × σ :=
  if mode = MODE_NIGHT ∨ mode = MODE_NORMAL ∨ mode = MODE_LEARN ∨ mode = MODE_CLEAR then
    let r := setLatches L false true g h
    ({ r.1 with opMode := mode }, r.2)
  else if mode = MODE_VET ∨ mode = MODE_CLOSED then
    let r := setLatches L true true g h
    ({ r.1 with opMode := mode }, r.2)
  else if mode = MODE_OPEN then
    let r := setLatches L false false g h
    ({ r.1 with opMode := mode }, r.2)
  else
    let r := setLatches L false true g h
    ({ r.1 with opMode := MODE_NORMAL }, r.2)

/-! ## main.c: button decoder -/

/-- The `static` locals of `handleButtons`. -/
structure Buttons where
  greenPrev : Bool
  redPrev : Bool
  start : Nat
  bothPressed : Bool
deriving DecidableEq, Repr

/-- The initial values of the `static` locals of `handleButtons`. -/
def Buttons.reset : Buttons :=
  { greenPrev := true, redPrev := true, start := 0, bothPressed := false }

/-- What one call of `handleButtons` reads: the two button pins (low when
pressed), the clock at `ms_t now = millis()`, and the clock at `start = millis()`
should that statement run. -/
structure Sample where
  green : Bool
  red : Bool
  now : Nat
  now2 : Nat
deriving DecidableEq, Repr

/-- The function `handleButtons`: the return value, the value stored to `*time`,
and the `static` locals afterwards. -/
def handleButtons (p : Platform) (s : Buttons) (i : Sample) : Nat × Nat × Buttons :=
  let elapsed := msSub p i.now s.start
  let r : Nat × Nat × Bool :=
    if !i.green && s.greenPrev then (0, i.now2, false)
    else if i.green && !s.greenPrev then
      (if s.bothPressed then BOTH_PRESS else GREEN_PRESS, s.start, s.bothPressed)
    else if !i.green && !s.greenPrev then
      (0, s.start, if !i.red then true else s.bothPressed)
    else if !i.red && s.redPrev then (0, i.now2, false)
    else if i.red && !s.redPrev then
      (if !i.green then BOTH_PRESS else RED_PRESS, s.start, s.bothPressed)
    else if !i.red && !s.redPrev then
      (0, s.start, if !i.green then true else s.bothPressed)
    else (0, s.start, s.bothPressed)
  (r.1, elapsed, { greenPrev := i.green, redPrev := i.red, start := r.2.1, bothPressed := r.2.2 })

/-- Successive calls of `handleButtons`, one per sample: the decoder state at
the end and the `(return value, *time)` of each call in order. -/
def polls (p : Platform) : Buttons → List Sample → Buttons × List (Nat × Nat)
  | s, [] => (s, [])
  | s, i :: rest =>
    let r := handleButtons p s i
    let t := polls p r.2.2 rest
    (t.1, (r.1, r.2.1) :: t.2)


/-- The three variables a mode switch is judged by: `(opMode, outLocked, inLocked)`. -/
def Globals.status (g : Globals) : Nat × Bool × Bool :=
  (g.opMode, g.outLocked, g.inLocked)

/-! ## Concrete inputs for worked examples -/

/-- Latches that always reach the requested state; the hardware state is the
pair (red latch locked, green latch locked). -/
def Latches.ideal : Latches (Bool × Bool) :=
  { lockRedLatch := fun b s => (b, (b, s.2))
    lockGreenLatch := fun b s => (b, (s.1, b)) }

/-- Latches that are jammed: they stay as they are and report that. -/
def Latches.jammed : Latches (Bool × Bool) :=
  { lockRedLatch := fun _ s => (s.1, s)
    lockGreenLatch := fun _ s => (s.2, s) }


/-- A platform with a 32-bit `ms_t` and a timer reload of `0xFC18`. -/
def Platform.demo : Platform :=
  { msBits := 32, TMR1_H_PRES := 0xFC, TMR1_L_PRES := 0x18, FLAP_POT := true,
    LIGHT_CFG := 0, FLAP_POS_IDLE := 1, FLAP_POS_MARGIN := 2 }

/-- A machine with nothing pending, the timer interrupt enabled, the clock at
zero and a zeroed receive array. -/
def Machine.demo : Machine :=
  { TMR1IF := false, TMR1IE := true, TMR1H := 0, TMR1L := 0, RCIF := false, RCIE := false,
    RCREG := 0, millisValue := 0,
    rxBuffer := { rIndex := 0, uIndex := 0, buffer := List.replicate 16 0 }, tx := [] }

/-- The machine `Machine.demo` after the byte `0x41` has been received. -/
def Machine.oneByte : Machine :=
  { Machine.demo with
    rxBuffer := { rIndex := 1, uIndex := 0, buffer := 0x41 :: List.replicate 15 0 } }

/-- Twenty rounds of two pushes and two pops: the indices wrap around twice. -/
def Op.demo : List Op :=
  ((List.range 20).map fun i => [Op.push i, Op.push (i + 100), Op.pop, Op.pop]).flatten

/-! ## main.c: status report -/

/-- The sum of two `uint16_t` values as the code computes it. -/
def u16add (a b : Nat) : Nat := (a + b) % 65536

/-- The difference `a - b` of two `uint16_t` values as the code computes it. -/
def u16sub (a b : Nat) : Nat := (a + (65536 - b % 65536)) % 65536

/-- The function `buildStatusBits`, a `uint16_t`. -/
def buildStatusBits (p : Platform) (g : Globals) : Nat :=
  let ret0 : Nat := if g.inLocked then 0x1 else 0
  let ret1 : Nat := if g.outLocked then ret0 ||| 0x2 else ret0
  if p.FLAP_POT then
    if g.flapInner then ret1 ||| 0x4
    else if g.flapOuter then ret1 ||| 0x8
    else ret1
  else ret1

/-- The function `printStatus`. -/
def printStatus (p : Platform) (g : Globals) (m : Machine) : Machine :=
  let m1 := putch 'A'.toNat m
  let m2 := putch 'M'.toNat m1
  let m3 := putch g.opMode m2
  let m4 := putch 'L'.toNat m3
  let m5 := putShort g.light m4
  let m6 := putch 'P'.toNat m5
  let m7 := if p.FLAP_POT then putShort g.flapPos m6 else putShort 0 m6
  let m8 := putch 'S'.toNat m7
  let m9 := putShort (buildStatusBits p g) m8
  putch '\n'.toNat m9

/-! ## main.c: button dispatch -/

/-- The statement `switch(handleButtons(&btnPress)){ ... }` of `main`, given the
value `ev` returned by `handleButtons` and the duration `d` it stored to
`btnPress`. -/
def dispatchButtons {σ : Type} (L : Latches σ) (ev d : Nat) (g : Globals) (h : σ) :
    Globals × σ :=
  if ev = GREEN_PRESS then
    if d > 10000 then switchMode L MODE_LEARN g h else (g, h)
  else if ev = RED_PRESS then
    if d > 5000 then
      if g.opMode = MODE_VET then switchMode L MODE_NORMAL g h
      else switchMode L MODE_VET g h
    else if d < 2000 then
      if g.opMode = MODE_NIGHT then switchMode L MODE_NORMAL g h
      else switchMode L MODE_NIGHT g h
    else (g, h)
  else if ev = BOTH_PRESS then
    if d > 30000 then switchMode L MODE_CLEAR g h else (g, h)
  else (g, h)

/-- One pass over the button part of the control loop: `handleButtons` on the
sample, then the dispatch on its result. -/
def buttonStep {σ : Type} (p : Platform) (L : Latches σ) (s : Buttons × Globals × σ)
    (i : Sample) : Buttons × Globals × σ :=
  let r := handleButtons p s.1 i
  let t := dispatchButtons L r.1 r.2.1 s.2.1 s.2.2
  (r.2.2, t.1, t.2)

/-- Successive passes of `buttonStep`, one per sample. -/
def buttonSteps {σ : Type} (p : Platform) (L : Latches σ) :
    Buttons × Globals × σ → List Sample → Buttons × Globals × σ
  | s, [] => s
  | s, i :: rest => buttonSteps p L (buttonStep p L s i) rest

/-! ## main.c: night mode and flap position -/

/-- The hysteresis statement of `case MODE_NIGHT` in `main`: the `if` / `else if`
on `light`, `lightThd` and `outLocked`. -/
def nightTick {σ : Type} (L : Latches σ) (g : Globals) (h : σ) : Globals × σ :=
  if g.light > g.lightThd && !g.outLocked then
    let o := L.lockRedLatch true h
    let i := L.lockGreenLatch true o.2
    ({ g with outLocked := o.1 }, i.2)
  else if g.light < u16sub g.lightThd 5 && g.outLocked then
    let o := L.lockRedLatch false h
    let i := L.lockGreenLatch true o.2
    ({ g with outLocked := o.1 }, i.2)
  else (g, h)

/-- The body of `if((ms-lastFlapRead)>FLAP_POT_READ_PERIOD){ ... }` in `main` up
to and including `printStatus`, given the value `pos` returned by
`getFlapPosition`: the globals, the machine, and whether a status report was
sent (`doUpdate`). -/
def flapStep (p : Platform) (pos : Nat) (g : Globals) (m : Machine) :
    Globals × Machine × Bool :=
  let g0 := { g with flapPos := pos % 65536 }
  let r : Globals × Bool :=
    if g0.flapPos > u16add g0.flapPosIdle g0.flapPosTol then
      if !g0.flapInner then ({ g0 with flapInner := true, flapOuter := false }, true)
      else (g0, false)
    else if g0.flapPos < u16sub g0.flapPosIdle g0.flapPosTol then
      if !g0.flapOuter then ({ g0 with flapOuter := true, flapInner := false }, true)
      else (g0, false)
    else ({ g0 with flapOuter := false, flapInner := false }, g0.flapInner || g0.flapOuter)
  (r.1, if r.2 then printStatus p r.1 m else m, r.2)

/-- A platform like `Platform.demo` but built without `FLAP_POT`. -/
def Platform.noFlap : Platform :=
  { Platform.demo with FLAP_POT := false }

/-! ## main.c: serial commands -/

/-- The record `Cat` of `cat.h`, which is not in the tree: main.c uses its six
`id` bytes and its `crc`. -/
structure Cat where
  id : List Nat
  crc : Nat
deriving DecidableEq, Repr

/-- The functions of `peripherials.h`, `cat.h` and `rfid.h`, none of which is
in the tree, acting on the state `σ` of everything outside the modelled code
(latches, sensors, EEPROM, reader, buzzer, button pins). `readRFID` is given
the current contents behind its three pointers and returns its result with the
new contents; `buttons` samples `GREEN_BTN` and `RED_BTN`. -/
structure Periph (σ : Type) extends Latches σ where
  initPeripherials : σ → σ
  getLightSensor : σ → Nat × σ
  getFlapPosition : σ → Nat × σ
  getConfiguration : Nat → σ → Nat × σ
  setConfiguration : Nat → Nat → σ → σ
  readRFID : Cat → Nat → σ → (Nat × Cat × Nat) × σ
  catExists : Cat → Nat → σ → Bool × σ
  saveCat : Cat → σ → Nat × σ
  clearCats : σ → σ
  beep : σ → σ
  buttons : σ → (Bool × Bool) × σ

/-- What `handleSerial` leaves behind: the globals, the machine, the outside
state and the interrupt bursts not yet used. -/
structure Served (σ : Type) where
  g : Globals
  m : Machine
  hw : σ
  env : List (List Irq)

/-- The reply `'A' 'C' index 'V' value '\n'` of both configuration commands. -/
def replyConfig (index value : Nat) (m : Machine) : Machine :=
  putch '\n'.toNat (putShort value (putch 'V'.toNat (putch index
    (putch 'C'.toNat (putch 'A'.toNat m)))))

/-- The inner `switch(index)` of a configuration write. -/
def cacheConfig (p : Platform) (index value : Nat) (g : Globals) : Globals :=
  if index = p.LIGHT_CFG then { g with lightThd := value }
  else if index = p.FLAP_POS_IDLE then { g with flapPosIdle := value }
  else if index = p.FLAP_POS_MARGIN then { g with flapPosTol := value }
  else g

/-- The function `handleSerial`. -/
def handleSerial {σ : Type} (p : Platform) (W : Periph σ) (g : Globals) (m : Machine)
    (h : σ) (env : List (List Irq)) : Option (Served σ) :=
  if byteAvail m then
    match getByte p env m 0 with
    | none => none
    | some rc =>
      if rc.ret = 0 then
        if rc.v = 'S'.toNat then
          some ⟨g, printStatus p g rc.m, h, rc.env⟩
        else if rc.v = 'C'.toNat then
          match getByte p rc.env rc.m 0 with
          | none => none
          | some rb =>
            if rb.ret = 0 then
              match getByte p rb.env rb.m 0 with
              | none => none
              | some ri =>
                if ri.ret = 0 then
                  if rb.v = 'S'.toNat then
                    match getShort p ri.env ri.m 0 with
                    | none => none
                    | some rv =>
                      if rv.ret = 0 then
                        some ⟨cacheConfig p ri.v rv.v g, replyConfig ri.v rv.v rv.m,
                          W.setConfiguration ri.v rv.v h, rv.env⟩
                      else some ⟨g, rv.m, h, rv.env⟩
                  else
                    let c := W.getConfiguration ri.v h
                    some ⟨g, replyConfig ri.v (c.1 % 65536) ri.m, c.2, ri.env⟩
                else
                  some ⟨g, putch '\n'.toNat (putch 'E'.toNat (putch 'A'.toNat ri.m)), h, ri.env⟩
            else some ⟨g, rb.m, h, rb.env⟩
        else if rc.v = 'M'.toNat then
          match getByte p rc.env rc.m 0 with
          | none => none
          | some rb =>
            if rb.ret = 0 then
              if rb.v ≤ MODE_OPEN then
                let s := switchMode W.toLatches rb.v g h
                some ⟨s.1, putch '\n'.toNat (putch s.1.opMode (putch 'M'.toNat
                  (putch 'A'.toNat rb.m))), s.2, rb.env⟩
              else some ⟨g, rb.m, h, rb.env⟩
            else some ⟨g, rb.m, h, rb.env⟩
        else some ⟨g, rc.m, h, rc.env⟩
      else some ⟨g, rc.m, h, rc.env⟩
  else some ⟨g, m, h, env⟩

/-- The timeout of a wait that starts after the first `n` bursts of `env` have
been serviced is seen: see `TimesOut`, with `start` the clock at that point. -/
def TimesOutAfter (p : Platform) (n first : Nat) (env : List (List Irq)) (m : Machine) : Prop :=
  ∃ m1, serviceAll p (env.take n).flatten m = some m1 ∧
    TimesOut p (millis m1) first (env.drop n) m1

/-- A world for worked examples: the outside state is the ideal latch pair
together with the list of `setConfiguration` calls made, latest first. Sensors
read 0, no tag is ever seen, both buttons are released. -/
def Periph.demo : Periph ((Bool × Bool) × List (Nat × Nat)) :=
  { lockRedLatch := fun b s => (b, ((b, s.1.2), s.2))
    lockGreenLatch := fun b s => (b, ((s.1.1, b), s.2))
    initPeripherials := fun s => s
    getLightSensor := fun s => (0, s)
    getFlapPosition := fun s => (0, s)
    getConfiguration := fun i s =>
      (match s.2.find? (fun e => e.1 == i) with
        | some e => e.2
        | none => 0xFFFF, s)
    setConfiguration := fun i v s => (s.1, (i, v) :: s.2)
    readRFID := fun c crc s => ((1, c, crc), s)
    catExists := fun _ _ s => (false, s)
    saveCat := fun _ s => (0, s)
    clearCats := fun s => s
    beep := fun s => s
    buttons := fun s => ((true, true), s) }
instance (rb : RingBuffer) (q : List Nat) : Decidable (Holds rb q) := by
  unfold Holds
  infer_instance

/-- The machine `Machine.demo` with the bytes `bs` (at most 15) received and unread. -/
def Machine.holding (bs : List Nat) : Machine :=
  { Machine.demo with
    rxBuffer :=
      { rIndex := bs.length % 16, uIndex := 0
        buffer := bs ++ List.replicate (16 - bs.length) 0 } }

/-- The machine `a` differs from `s` at most in the receive buffer. -/
def SameBut (a s : Machine) : Prop :=
  ∃ rb, a = { s with rxBuffer := rb }

/-! ## main.c: the control loop -/

/-- The constant `OPEN_TIME`, in milliseconds. -/
@[reducible] def OPEN_TIME : Nat := 5000

/-- The constant `LIGHT_READ_PERIOD`, in milliseconds. -/
@[reducible] def LIGHT_READ_PERIOD : Nat := 5000

/-- The constant `FLAP_POT_READ_PERIOD`, in milliseconds. -/
@[reducible] def FLAP_POT_READ_PERIOD : Nat := 200

/-- Everything the control loop carries from one iteration to the next: the
globals, the statics of `handleButtons`, the machine, the outside world, the two
LED pins, and the locals of `main`. -/
structure Loop (σ : Type) where
  g : Globals
  btn : Buttons
  m : Machine
  hw : σ
  RED_LED : Bool
  GREEN_LED : Bool
  r : Nat
  c : Cat
  crcRead : Nat
  btnPress : Nat
  lastLightRead : Nat
  lastFlapRead : Nat

/-- Interrupts serviced at one point of straight-line code: the next burst, or
none when no burst is left. -/
def sync (p : Platform) (m : Machine) : List (List Irq) → Option (Machine × List (List Irq))
  | [] => some (m, [])
  | b :: rest =>
    match serviceAll p b m with
    | none => none
    | some m1 => some (m1, rest)

/-- The function `printCat`. -/
def printCat (c : Cat) (m : Machine) : Machine :=
  putch '\n'.toNat ((List.range 6).foldl (fun m1 i => putch (c.id.getD i 0) m1)
    (putch 'E'.toNat m))

/-- The locals of `learnCat` together with what it acts on. -/
structure LearnSt (σ : Type) where
  hw : σ
  m : Machine
  GREEN_LED : Bool
  i : Nat
  cat : Cat
  crcRead : Nat

/-- The `do { ... } while((now-t)<30000)` loop of `learnCat`; the burst of each
round is what is serviced during `__delay_ms(20)`. -/
def learnLoop {σ : Type} (p : Platform) (W : Periph σ) (t : Nat) :
    List (List Irq) → LearnSt σ → Option (LearnSt σ × List (List Irq))
  | env, st =>
    let rr := W.readRFID st.cat st.crcRead st.hw
    let r := rr.1.1 % 256
    let cat := rr.1.2.1
    let crcRead := rr.1.2.2 % 65536
    let tried : Bool × σ :=
      if r = 0 ∧ cat.crc = crcRead ∧ crcRead ≠ 0 then
        let sv := W.saveCat cat rr.2
        if sv.1 % 256 > 0 then (true, W.beep sv.2) else (false, sv.2)
      else (false, rr.2)
    if tried.1 then
      some ({ st with hw := tried.2, cat := cat, crcRead := crcRead }, env)
    else
      match env with
      | [] => none
      | burst :: rest =>
        match serviceAll p burst st.m with
        | none => none
        | some m1 =>
          let i1 := (st.i + 1) % 65536
          let st1 : LearnSt σ :=
            { hw := tried.2, m := m1
              GREEN_LED := if i1 > 9 then !st.GREEN_LED else st.GREEN_LED
              i := if i1 > 9 then 0 else i1
              cat := cat, crcRead := crcRead }
          if msSub p (millis m1) t < 30000 then learnLoop p W t rest st1
          else some (st1, rest)

/-- The function `learnCat`; `junk` is what its uninitialised locals `cat` and
`crcRead` happen to hold. It returns the outside world, the machine, the state
of `GREEN_LED`, and the bursts not yet used. -/
def learnCat {σ : Type} (p : Platform) (W : Periph σ) (junk : Cat × Nat) (h : σ) (m : Machine)
    (led : Bool) (env : List (List Irq)) : Option (σ × Machine × Bool × List (List Irq)) :=
  match learnLoop p W (millis m) env
      { hw := h, m := m, GREEN_LED := led, i := 0, cat := junk.1, crcRead := junk.2 } with
  | none => none
  | some (st, env1) => some (st.hw, st.m, false, env1)

/-- The value `(ms>>9) & 0x1` written to a LED pin. -/
def blink (ms : Nat) : Bool := (ms >>> 9) &&& 0x1 != 0

/-- The statement `switch(opMode){ ... }` of the loop body: the state afterwards,
the flag `doOpen`, and the bursts not yet used. -/
def modeStep {σ : Type} (p : Platform) (W : Periph σ) (junk : Cat × Nat) (ms : Nat)
    (s : Loop σ) (env : List (List Irq)) : Option (Loop σ × Bool × List (List Irq)) :=
  if s.g.opMode = MODE_NORMAL then
    some ({ s with RED_LED := false, GREEN_LED := false }, true, env)
  else if s.g.opMode = MODE_VET then
    some ({ s with GREEN_LED := false, RED_LED := blink ms }, true, env)
  else if s.g.opMode = MODE_CLOSED then
    some ({ s with RED_LED := blink ms, GREEN_LED := blink ms }, false, env)
  else if s.g.opMode = MODE_LEARN then
    match learnCat p W junk s.hw s.m s.GREEN_LED env with
    | none => none
    | some (h1, m1, led, env1) =>
      let t := switchMode W.toLatches MODE_NORMAL s.g h1
      some ({ s with g := t.1, hw := t.2, m := m1, GREEN_LED := led }, false, env1)
  else if s.g.opMode = MODE_CLEAR then
    let t := switchMode W.toLatches MODE_NORMAL s.g (W.clearCats s.hw)
    some ({ s with g := t.1, hw := t.2 }, false, env)
  else if s.g.opMode = MODE_OPEN then
    some ({ s with RED_LED := true, GREEN_LED := true }, false, env)
  else if s.g.opMode = MODE_NIGHT then
    let t := nightTick W.toLatches s.g s.hw
    some ({ s with g := t.1, hw := t.2, GREEN_LED := t.1.outLocked, RED_LED := true }, true, env)
  else
    let t := switchMode W.toLatches MODE_NORMAL s.g s.hw
    some ({ s with g := t.1, hw := t.2 }, false, env)

/-- The end of the body of `if(doOpen){ ... }`: `c.crc = 0x0; __delay_ms(20);`. -/
def relax {σ : Type} (p : Platform) (s : Loop σ) (env : List (List Irq)) :
    Option (Loop σ × List (List Irq)) :=
  match sync p s.m env with
  | none => none
  | some (m1, env1) => some ({ s with c := { s.c with crc := 0 }, m := m1 }, env1)

/-- The door-open sequence: `beep(); inLocked = lockGreenLatch(false); printCat(&c);
__delay_ms(OPEN_TIME); inLocked = lockGreenLatch(true);`, started in outside
state `h`. -/
def openDoor {σ : Type} (p : Platform) (W : Periph σ) (s : Loop σ) (h : σ)
    (env : List (List Irq)) : Option (Loop σ × List (List Irq)) :=
  let o := W.lockGreenLatch false (W.beep h)
  match sync p (printCat s.c s.m) env with
  | none => none
  | some (m1, env1) =>
    let c := W.lockGreenLatch true o.2
    some ({ s with g := { s.g with inLocked := c.1 }, m := m1, hw := c.2 }, env1)

/-- The part of the body of `if(doOpen){ ... }` after the condition
`r == 0 && catExists(&c, &crcRead)` has been evaluated to `known.1`, leaving
the outside world in `known.2`. -/
def doorAct {σ : Type} (p : Platform) (W : Periph σ) (s : Loop σ) (known : Bool × σ)
    (env : List (List Irq)) : Option (Loop σ × List (List Irq)) :=
  if known.1 then
    match openDoor p W s known.2 env with
    | none => none
    | some (s2, env2) => relax p s2 env2
  else relax p { s with hw := known.2 } env

/-- The body of `if(doOpen){ ... }`: the tag read, the door-open sequence when
the tag is read (`r == 0`) and known (`catExists`), and the closing statements. -/
def doorStep {σ : Type} (p : Platform) (W : Periph σ) (s : Loop σ) (env : List (List Irq)) :
    Option (Loop σ × List (List Irq)) :=
  let rr := W.readRFID s.c s.crcRead s.hw
  let r := rr.1.1 % 256
  let s1 : Loop σ := { s with r := r, c := rr.1.2.1, crcRead := rr.1.2.2 % 65536, hw := rr.2 }
  let known : Bool × σ := if r = 0 then W.catExists s1.c s1.crcRead s1.hw else (false, s1.hw)
  doorAct p W s1 known env

/-- The statement `if(doOpen){ ... }` of the loop body. -/
def doorPhase {σ : Type} (p : Platform) (W : Periph σ) (doOpen : Bool) (s : Loop σ)
    (env : List (List Irq)) : Option (Loop σ × List (List Irq)) :=
  if doOpen then doorStep p W s env else some (s, env)

/-- The button part of the loop body: the pins and the clock are sampled,
`handleButtons` runs, and its result is dispatched. -/
def buttonsStep {σ : Type} (p : Platform) (W : Periph σ) (s : Loop σ)
    (env : List (List Irq)) : Option (Loop σ × List (List Irq)) :=
  let pins := W.buttons s.hw
  match sync p s.m env with
  | none => none
  | some (m1, env1) =>
    match sync p m1 env1 with
    | none => none
    | some (m2, env2) =>
      let r := handleButtons p s.btn ⟨pins.1.1, pins.1.2, millis m1, millis m2⟩
      let t := dispatchButtons W.toLatches r.1 r.2.1 s.g pins.2
      some ({ s with g := t.1, hw := t.2, btn := r.2.2, btnPress := r.2.1, m := m2 }, env2)

/-- The periodic light read at the top of the loop body. -/
def lightStep {σ : Type} (p : Platform) (W : Periph σ) (ms : Nat) (s : Loop σ) : Loop σ :=
  if msSub p ms s.lastLightRead > LIGHT_READ_PERIOD then
    let l := W.getLightSensor s.hw
    { s with g := { s.g with light := l.1 % 65536 }, hw := l.2, lastLightRead := ms }
  else s

/-- The periodic flap position read of the loop body, compiled in when
`FLAP_POT` is defined. -/
def flapRead {σ : Type} (p : Platform) (W : Periph σ) (ms : Nat) (s : Loop σ) : Loop σ :=
  if p.FLAP_POT && decide (msSub p ms s.lastFlapRead > FLAP_POT_READ_PERIOD) then
    let f := W.getFlapPosition s.hw
    let t := flapStep p f.1 s.g s.m
    { s with g := t.1, m := t.2.1, hw := f.2, lastFlapRead := ms }
  else s

/-- The two periodic sensor reads at the top of the loop body. -/
def sensorStep {σ : Type} (p : Platform) (W : Periph σ) (ms : Nat) (s : Loop σ) : Loop σ :=
  flapRead p W ms (lightStep p W ms s)

/-- One iteration of `while(1){ ... }` in `main`. -/
def loopIter {σ : Type} (p : Platform) (W : Periph σ) (junk : Cat × Nat) (s : Loop σ)
    (env : List (List Irq)) : Option (Loop σ × List (List Irq)) :=
  match sync p s.m env with
  | none => none
  | some (m0, env0) =>
    let ms := millis m0
    let s1 := sensorStep p W ms { s with m := m0 }
    match modeStep p W junk ms s1 env0 with
    | none => none
    | some (s2, doOpen, env2) =>
      match doorPhase p W doOpen s2 env2 with
      | none => none
      | some (s3, env3) =>
        match buttonsStep p W s3 env3 with
        | none => none
        | some (s4, env4) =>
          match handleSerial p W s4.g s4.m s4.hw env4 with
          | none => none
          | some r => some ({ s4 with g := r.g, m := r.m, hw := r.hw }, r.env)

/-- What `main` finds when it starts: the machine, the outside world, the LED
pins, and the contents of its uninitialised locals `c` and `crcRead`. -/
structure Boot (σ : Type) where
  m : Machine
  hw : σ
  RED_LED : Bool
  GREEN_LED : Bool
  c : Cat
  crcRead : Nat

/-- The statements of `main` before `while(1)`, `InitApp` included. -/
def mainInit {σ : Type} (p : Platform) (W : Periph σ) (b : Boot σ) : Loop σ :=
  let h1 := W.initPeripherials b.hw
  let m1 := initSerial b.m
  let l := W.getConfiguration p.LIGHT_CFG h1
  let thd := if l.1 % 65536 > 1023 then 512 else l.1 % 65536
  let t := switchMode W.toLatches MODE_NORMAL { Globals.reset with lightThd := thd } l.2
  let idle := W.getConfiguration p.FLAP_POS_IDLE t.2
  let tol := W.getConfiguration p.FLAP_POS_MARGIN idle.2
  { g := if p.FLAP_POT then
           { t.1 with flapPosIdle := idle.1 % 65536, flapPosTol := tol.1 % 65536 }
         else t.1
    btn := Buttons.reset
    m := m1
    hw := if p.FLAP_POT then tol.2 else t.2
    RED_LED := b.RED_LED
    GREEN_LED := b.GREEN_LED
    r := 0
    c := b.c
    crcRead := b.crcRead
    btnPress := 0
    lastLightRead := millis m1
    lastFlapRead := millis m1 }

/-- The states the control loop can be in at the top of an iteration: the one
`main` enters the loop with, and every state an iteration leads to. -/
inductive Reachable {σ : Type} (p : Platform) (W : Periph σ) : Loop σ → Prop where
  | boot (b : Boot σ) : Reachable p W (mainInit p W b)
  | iter (s s1 : Loop σ) (junk : Cat × Nat) (env env1 : List (List Irq)) :
      Reachable p W s → loopIter p W junk s env = some (s1, env1) → Reachable p W s1

/-- A start of `main` for worked examples. -/
def Boot.demo : Boot ((Bool × Bool) × List (Nat × Nat)) :=
  { m := Machine.demo, hw := ((false, false), []), RED_LED := false, GREEN_LED := false,
    c := { id := List.replicate 6 0, crc := 0 }, crcRead := 0 }

/-- The two flap flags `(flapInner, flapOuter)`. -/
def Globals.flags (g : Globals) : Bool × Bool :=
  (g.flapInner, g.flapOuter)

/-! ## main.c: tag admission -/

/-- The two statements `switch(opMode){ ... }` and `if(doOpen){ ... }` of the loop
body, one after the other. -/
def modeAndDoor {σ : Type} (p : Platform) (W : Periph σ) (junk : Cat × Nat) (ms : Nat)
    (s : Loop σ) (env : List (List Irq)) : Option (Loop σ × List (List Irq)) :=
  match modeStep p W junk ms s env with
  | none => none
  | some (s2, doOpen, env2) => doorPhase p W doOpen s2 env2

/-- The statements of the loop body after `if(doOpen){ ... }`: the buttons and
the serial commands. -/
def buttonsAndSerial {σ : Type} (p : Platform) (W : Periph σ) (s : Loop σ)
    (env : List (List Irq)) : Option (Loop σ × List (List Irq)) :=
  match buttonsStep p W s env with
  | none => none
  | some (s4, env4) =>
    match handleSerial p W s4.g s4.m s4.hw env4 with
    | none => none
    | some r => some ({ s4 with g := r.g, m := r.m, hw := r.hw }, r.env)

/-- The receive array has `SER_BUFFER` cells and the write index is within it,
so that `isr` never writes outside the array. -/
def Sound (m : Machine) : Prop :=
  m.rxBuffer.buffer.length = SER_BUFFER ∧ m.rxBuffer.rIndex < SER_BUFFER

instance (m : Machine) : Decidable (Sound m) := by
  unfold Sound
  infer_instance

/-- The bytes `printCat` transmits for the tag `c`: `'E'`, the six id bytes,
`'\n'`. -/
def catBytes (c : Cat) : List Nat :=
  'E'.toNat :: ((List.range 6).map fun i => c.id.getD i 0 % 256) ++ ['\n'.toNat]

/-- A call made to the outside world. -/
inductive Call where
  | lockRedLatch (b : Bool) : Call
  | lockGreenLatch (b : Bool) : Call
  | initPeripherials : Call
  | getLightSensor : Call
  | getFlapPosition : Call
  | getConfiguration (i : Nat) : Call
  | setConfiguration (i v : Nat) : Call
  | readRFID : Call
  | catExists : Call
  | saveCat : Call
  | clearCats : Call
  | beep : Call
deriving DecidableEq, Repr

/-- A world for worked examples that records every call made to it, earliest
first. Each latch reports the state it was asked for, the sensors read 0, every
tag read succeeds with the tag `01 02 03 04 05 06` and matching checksum
`0x1234`, that tag is known, `saveCat` stores it in slot 1, and both buttons are
released. -/
def Periph.logging : Periph (List Call) :=
  { lockRedLatch := fun b h => (b, h ++ [Call.lockRedLatch b])
    lockGreenLatch := fun b h => (b, h ++ [Call.lockGreenLatch b])
    initPeripherials := fun h => h ++ [Call.initPeripherials]
    getLightSensor := fun h => (0, h ++ [Call.getLightSensor])
    getFlapPosition := fun h => (0, h ++ [Call.getFlapPosition])
    getConfiguration := fun i h => (0, h ++ [Call.getConfiguration i])
    setConfiguration := fun i v h => h ++ [Call.setConfiguration i v]
    readRFID := fun _ _ h => ((0, ⟨[1, 2, 3, 4, 5, 6], 0x1234⟩, 0x1234), h ++ [Call.readRFID])
    catExists := fun _ _ h => (true, h ++ [Call.catExists])
    saveCat := fun _ h => (1, h ++ [Call.saveCat])
    clearCats := fun h => h ++ [Call.clearCats]
    beep := fun h => h ++ [Call.beep]
    buttons := fun h => ((true, true), h) }

/-- The loop state of worked examples: operating mode `mode`, both latches as
`switchMode(MODE_NORMAL)` leaves them, nothing received or sent, no call made
to the outside world yet. -/
def Loop.inMode (mode : Nat) : Loop (List Call) :=
  { g := { Globals.reset with opMode := mode, inLocked := true }
    btn := Buttons.reset
    m := Machine.demo
    hw := []
    RED_LED := false
    GREEN_LED := false
    r := 0
    c := { id := List.replicate 6 0, crc := 0 }
    crcRead := 0
    btnPress := 0
    lastLightRead := 0
    lastFlapRead := 0 }

/-! ## main.c: the states the loop passes through -/

/-- The states `main` is in between two statements once it has entered
`while(1)`: the states at the top of an iteration, and from any state passed
through the state after `ms = millis()`, after the light read, at
`if(doUpdate){ printStatus(); }` in the flap read, after the flap read, after
`switch(opMode)`, after `if(doOpen)`, after the button part, and after
`handleSerial`. `handleSerial` calls `printStatus` with the globals it is
entered with. The statements are closed over in any order and for any clock
value and interrupts, which only adds states. -/
inductive Visited {σ : Type} (p : Platform) (W : Periph σ) : Loop σ → Prop where
  | head (s : Loop σ) : Reachable p W s → Visited p W s
  | clock (s : Loop σ) (env env0 : List (List Irq)) (m0 : Machine) :
      Visited p W s → sync p s.m env = some (m0, env0) → Visited p W { s with m := m0 }
  | light (s : Loop σ) (ms : Nat) : Visited p W s → Visited p W (lightStep p W ms s)
  | flapCall (s : Loop σ) :
      Visited p W s →
      Visited p W { s with
        g := (flapStep p (W.getFlapPosition s.hw).1 s.g s.m).1
        hw := (W.getFlapPosition s.hw).2 }
  | flap (s : Loop σ) (ms : Nat) : Visited p W s → Visited p W (flapRead p W ms s)
  | mode (s s2 : Loop σ) (junk : Cat × Nat) (ms : Nat) (d : Bool) (env env2 : List (List Irq)) :
      Visited p W s → modeStep p W junk ms s env = some (s2, d, env2) → Visited p W s2
  | door (s s3 : Loop σ) (d : Bool) (env env3 : List (List Irq)) :
      Visited p W s → doorPhase p W d s env = some (s3, env3) → Visited p W s3
  | buttons (s s4 : Loop σ) (env env4 : List (List Irq)) :
      Visited p W s → buttonsStep p W s env = some (s4, env4) → Visited p W s4
  | serial (s : Loop σ) (env : List (List Irq)) (r : Served σ) :
      Visited p W s → handleSerial p W s.g s.m s.hw env = some r →
      Visited p W { s with g := r.g, m := r.m, hw := r.hw }

/-- A world like `Periph.logging` in which the flap swings: the stored idle
position is 512 and the margin 30, the first flap position read gives 900
(pushed inwards) and every later one 100 (pushed outwards). No tag is in
range. -/
def Periph.swinging : Periph (List Call) :=
  { Periph.logging with
    getConfiguration := fun i h =>
      (if i = 1 then 512 else if i = 2 then 30 else 0, h ++ [Call.getConfiguration i])
    getFlapPosition := fun h =>
      (if Call.getFlapPosition ∈ h then 100 else 900, h ++ [Call.getFlapPosition])
    readRFID := fun c crc h => ((1, c, crc), h ++ [Call.readRFID]) }

/-- A start of `main` in a world that records calls. -/
def Boot.quiet : Boot (List Call) :=
  { m := Machine.demo, hw := [], RED_LED := false, GREEN_LED := false,
    c := { id := List.replicate 6 0, crc := 0 }, crcRead := 0 }

/-- Interrupts for two loop iterations without a tag: 201 ms pass before each
iteration reads the clock, and nothing arrives during the delay and the two
clock reads of the button part. -/
def Irq.twoRounds : List (List Irq) :=
  [List.replicate 201 Irq.timer, [], [], [], List.replicate 201 Irq.timer]

/-! ## Properties -/

/-! ### Interrupt service and the ring buffer invariant -/

theorem bump_of_lt {x : Nat} (h : x < SER_BUFFER) : bump x = (x + 1) % SER_BUFFER := by
  unfold bump SER_BUFFER at *
  split <;> omega

theorem push_eq (p : Platform) (b : Nat) (m : Machine)
    (ht : (m.TMR1IF && m.TMR1IE) = false) (hr : m.rxBuffer.rIndex < m.rxBuffer.buffer.length) :
    push p b m = some { m with
      RCIF := false
      RCREG := b % 256
      rxBuffer := { m.rxBuffer with
        buffer := m.rxBuffer.buffer.set m.rxBuffer.rIndex (b % 256)
        rIndex := bump m.rxBuffer.rIndex } } := by
  simp [push, service, isr, raise, ht, hr]

theorem service_timer_rxBuffer (p : Platform) (m : Machine) (hrc : m.RCIF = false) :
    ∃ m1, service p Irq.timer m = some m1 ∧ m1.rxBuffer = m.rxBuffer ∧ Quiet m1 := by
  unfold service isr raise Quiet
  by_cases h : m.TMR1IE = true <;> simp [h, hrc]

theorem serviceAll_append (p : Platform) (a b : List Irq) (m : Machine) :
    serviceAll p (a ++ b) m = (serviceAll p a m).bind (serviceAll p b) := by
  induction a generalizing m with
  | nil => simp [serviceAll]
  | cons e es ih =>
    simp only [List.cons_append, serviceAll]
    cases service p e m with
    | none => simp
    | some m1 => simpa using ih m1

theorem serviceAll_timers (p : Platform) (burst : List Irq) (m : Machine)
    (hb : ∀ e ∈ burst, e = Irq.timer) (hrc : m.RCIF = false) :
    ∃ m1, serviceAll p burst m = some m1 ∧ m1.rxBuffer = m.rxBuffer ∧ m1.RCIF = false ∧
      (Quiet m → Quiet m1) := by
  induction burst generalizing m with
  | nil => exact ⟨m, rfl, rfl, hrc, id⟩
  | cons e es ih =>
    have he : e = Irq.timer := hb e (by simp)
    subst he
    obtain ⟨m1, h1, h2, h3⟩ := service_timer_rxBuffer p m hrc
    obtain ⟨m2, h4, h5, h6, h7⟩ := ih m1 (fun e he => hb e (by simp [he])) h3.2
    exact ⟨m2, by simp [serviceAll, h1, h4], by rw [h5, h2], h6, fun _ => h7 h3⟩

theorem holds_nil_iff_eq {rb : RingBuffer} {q : List Nat} (h : Holds rb q) :
    rb.rIndex = rb.uIndex ↔ q = [] := by
  obtain ⟨_, hu, hq, hr, _⟩ := h
  unfold SER_BUFFER at *
  constructor
  · intro he
    have : q.length = 0 := by omega
    exact List.length_eq_zero.mp this
  · intro he
    subst he
    simp at hr
    omega

theorem push_holds (p : Platform) (b : Nat) (m : Machine) (q : List Nat)
    (h : Holds m.rxBuffer q) (hq : q.length + 1 < SER_BUFFER)
    (ht : (m.TMR1IF && m.TMR1IE) = false) :
    ∃ m1, push p b m = some m1 ∧ Holds m1.rxBuffer (q ++ [b % 256]) ∧ Quiet m1 := by
  obtain ⟨hl, hu, _, hr, hc⟩ := h
  have hrlt : m.rxBuffer.rIndex < m.rxBuffer.buffer.length := by
    rw [hl, hr]; exact Nat.mod_lt _ (by decide)
  refine ⟨_, push_eq p b m ht hrlt, ?_, ?_⟩
  · refine ⟨by simpa using hl, hu, by simpa using hq, ?_, ?_⟩
    · have hb := bump_of_lt (x := m.rxBuffer.rIndex) (by rw [hr]; exact Nat.mod_lt _ (by decide))
      simp only [hb, List.length_append, List.length_singleton]
      unfold SER_BUFFER at *
      omega
    · intro i hi
      simp only [List.length_append, List.length_singleton] at hi
      unfold SER_BUFFER at *
      by_cases hiq : i < q.length
      · have hne : m.rxBuffer.rIndex ≠ (m.rxBuffer.uIndex + i) % 16 := by omega
        simp only [List.getElem?_set_ne hne]
        rw [hc i hiq, List.getElem?_append_left hiq]
      · have hie : i = q.length := by omega
        subst hie
        rw [← hr]
        simp [List.getElem?_set_self hrlt]
  · exact ⟨ht, rfl⟩

theorem take_holds (m : Machine) (x : Nat) (q : List Nat) (h : Holds m.rxBuffer (x :: q)) :
    take m = some (x, { m with rxBuffer := { m.rxBuffer with uIndex := bump m.rxBuffer.uIndex } }) ∧
      Holds { m.rxBuffer with uIndex := bump m.rxBuffer.uIndex } q := by
  obtain ⟨hl, hu, hq, hr, hc⟩ := h
  have h0 := hc 0 (by simp)
  have hb := bump_of_lt hu
  simp only [SER_BUFFER] at *
  simp only [Nat.add_zero, Nat.mod_eq_of_lt hu, List.getElem?_cons_zero] at h0
  constructor
  · simp [take, h0]
  · simp only [List.length_cons] at hq hr
    refine ⟨hl, ?_, ?_, ?_, ?_⟩
    · show bump m.rxBuffer.uIndex < 16
      omega
    · show q.length < 16
      omega
    · show m.rxBuffer.rIndex = (bump m.rxBuffer.uIndex + q.length) % 16
      omega
    · intro i hi
      show m.rxBuffer.buffer[(bump m.rxBuffer.uIndex + i) % 16]? = q[i]?
      have := hc (i + 1) (by simp; omega)
      simp only [List.getElem?_cons_succ] at this
      rw [← this, hb]
      congr 1
      omega

/-! ### C1: first in, first out -/

theorem waitByte_avail (p : Platform) (start : Nat) (burst : List Irq) (rest : List (List Irq))
    (m : Machine) (hb : ∀ e ∈ burst, e = Irq.timer) (hrc : m.RCIF = false)
    (hne : m.rxBuffer.rIndex ≠ m.rxBuffer.uIndex) :
    ∃ m1, waitByte p start (burst :: rest) m = some (true, m1, rest) ∧
      m1.rxBuffer = m.rxBuffer ∧ m1.RCIF = false ∧ (Quiet m → Quiet m1) := by
  obtain ⟨m1, h1, h2, h3, h4⟩ := serviceAll_timers p burst m hb hrc
  refine ⟨m1, ?_, h2, h3, h4⟩
  simp [waitByte, h1, h2, hne]

theorem getByte_holds (p : Platform) (burst : List Irq) (rest : List (List Irq)) (m : Machine)
    (v x : Nat) (q : List Nat) (h : Holds m.rxBuffer (x :: q))
    (hb : ∀ e ∈ burst, e = Irq.timer) (hrc : m.RCIF = false) :
    ∃ r, getByte p (burst :: rest) m v = some r ∧ r.ret = 0 ∧ r.v = x ∧ r.env = rest ∧
      Holds r.m.rxBuffer q ∧ r.m.RCIF = false ∧
      r.m.rxBuffer = { m.rxBuffer with uIndex := bump m.rxBuffer.uIndex } ∧
      (Quiet m → Quiet r.m) := by
  have hne : m.rxBuffer.rIndex ≠ m.rxBuffer.uIndex := by
    intro he
    have := (holds_nil_iff_eq h).mp he
    simp at this
  obtain ⟨m1, h1, h2, h3, h4⟩ := waitByte_avail p (millis m) burst rest m hb hrc hne
  have h' : Holds m1.rxBuffer (x :: q) := by rw [h2]; exact h
  obtain ⟨ht, hh⟩ := take_holds m1 x q h'
  have hg : getByte p (burst :: rest) m v = some ⟨0, x,
      { m1 with rxBuffer := { m1.rxBuffer with uIndex := bump m1.rxBuffer.uIndex } }, rest⟩ := by
    simp only [getByte, h1, ht]
  refine ⟨_, hg, rfl, rfl, rfl, hh, h3, ?_, fun hq => h4 hq⟩
  simp [h2]

theorem getBytes_holds (p : Platform) (q : List Nat) (env : List (List Irq)) (m : Machine)
    (h : Holds m.rxBuffer q) (he : NoRx env) (hlen : q.length ≤ env.length)
    (hrc : m.RCIF = false) :
    ∃ m2, getBytes p q.length env m = some (q.map (fun b => (0, b)), m2) ∧
      Holds m2.rxBuffer [] := by
  induction q generalizing env m with
  | nil => exact ⟨m, rfl, h⟩
  | cons x q ih =>
    cases env with
    | nil => simp at hlen
    | cons burst rest =>
      obtain ⟨r, h1, h2, h3, h4, h5, h6, _⟩ :=
        getByte_holds p burst rest m 0 x q h (he burst (by simp)) hrc
      have he' : NoRx rest := fun b hb => he b (by simp [hb])
      obtain ⟨m2, h7, h8⟩ := ih rest r.m h5 he' (by simpa using hlen) h6
      refine ⟨m2, ?_, h8⟩
      simp only [List.length_cons, getBytes, h1, h4, h7, h2, h3, List.map_cons]

theorem pushAll_cons (p : Platform) (b : Nat) (bs : List Nat) (m : Machine) :
    pushAll p (b :: bs) m = (push p b m).bind (pushAll p bs) := by
  simp only [pushAll, List.map_cons, serviceAll, push]
  cases service p (Irq.rx b) m <;> rfl

theorem pushAll_holds (p : Platform) (bs : List Nat) (m : Machine) (q : List Nat)
    (h : Holds m.rxBuffer q) (hq : q.length + bs.length < SER_BUFFER) (hm : Quiet m) :
    ∃ m1, pushAll p bs m = some m1 ∧ Holds m1.rxBuffer (q ++ bs.map (· % 256)) ∧ Quiet m1 := by
  induction bs generalizing m q with
  | nil => exact ⟨m, rfl, by simpa using h, hm⟩
  | cons b bs ih =>
    simp only [List.length_cons] at hq
    obtain ⟨m1, h1, h2, h3⟩ := push_holds p b m q h (by omega) hm.1
    obtain ⟨m2, h4, h5, h6⟩ := ih m1 (q ++ [b % 256]) h2 (by simp; omega) h3
    exact ⟨m2, by simp [pushAll_cons, h1, h4], by simpa using h5, h6⟩

theorem initSerial_holds (m : Machine) (hl : m.rxBuffer.buffer.length = SER_BUFFER) :
    Holds (initSerial m).rxBuffer [] := by
  refine ⟨hl, ?_, ?_, ?_, ?_⟩ <;> simp [initSerial]

theorem map_mod_of_bytes (bs : List Nat) (hb : ∀ b ∈ bs, b < 256) : bs.map (· % 256) = bs := by
  induction bs with
  | nil => rfl
  | cons b bs ih =>
    simp only [List.map_cons]
    rw [ih (fun x hx => hb x (by simp [hx])), Nat.mod_eq_of_lt (hb b (by simp))]

/-- C1 (amended): From the state left by `initSerial`, with no interrupt pending,
pushing `K ≤ SER_BUFFER - 1 = 15` bytes through the receive branch of `isr` and
then calling `getByte` `K` times, with no further byte arriving, returns
success `K` times and yields exactly the pushed bytes in push order. -/
theorem fifo_up_to_fifteen (p : Platform) (m0 : Machine) (bytes : List Nat)
    (env : List (List Irq)) (hm : Quiet m0) (hl : m0.rxBuffer.buffer.length = SER_BUFFER)
    (hK : bytes.length ≤ SER_BUFFER - 1) (hb : ∀ b ∈ bytes, b < 256)
    (he : NoRx env) (hlen : bytes.length ≤ env.length) :
    ∃ m1 m2, pushAll p bytes (initSerial m0) = some m1 ∧
      getBytes p bytes.length env m1 = some (bytes.map (fun b => (0, b)), m2) := by
  have h0 := initSerial_holds m0 hl
  have hm' : Quiet (initSerial m0) := hm
  obtain ⟨m1, h1, h2, h3⟩ := pushAll_holds p bytes (initSerial m0) [] h0
    (by simp only [List.length_nil, SER_BUFFER] at *; omega) hm'
  rw [List.nil_append, map_mod_of_bytes bytes hb] at h2
  obtain ⟨m2, h4, _⟩ := getBytes_holds p bytes env m1 h2 he hlen h3.2
  exact ⟨m1, m2, h1, h4⟩

/-- Three bytes pushed and read back, with a timer tick during the second read. -/
theorem fifo_up_to_fifteen_witness :
    ∃ m1 m2, pushAll Platform.demo [0x41, 0x42, 0x43] (initSerial Machine.demo) = some m1 ∧
      getBytes Platform.demo 3 [[], [Irq.timer], []] m1 = some ([(0, 0x41), (0, 0x42), (0, 0x43)], m2) :=
  fifo_up_to_fifteen Platform.demo Machine.demo [0x41, 0x42, 0x43] [[], [Irq.timer], []]
    (by decide) (by decide) (by decide) (by decide) (by decide) (by decide)

/-- C1 as stated fails at `K = SER_BUFFER = 16`: after sixteen pushes from the
`initSerial` state the write index has wrapped onto the read index, `byteAvail`
is false, and every one of the sixteen `getByte` calls times out with code 1. -/
theorem fifo_sixteen_fails :
    ∃ m1, pushAll Platform.demo (List.range 16) (initSerial Machine.demo) = some m1 ∧
      m1.rxBuffer.rIndex = m1.rxBuffer.uIndex ∧ byteAvail m1 = false ∧
      (getBytes Platform.demo 16 (List.replicate 16 (List.replicate 6 Irq.timer)) m1).map Prod.fst
        = some (List.replicate 16 (1, 0)) := by
  refine ⟨_, rfl, ?_⟩
  decide

/-! ### C2: empty exactly when the indices are equal -/

theorem noOverrun_length {q : List Nat} {ops : List Op} (h : NoOverrun q ops) :
    q.length ≤ SER_BUFFER - 1 := by
  cases ops with
  | nil => exact h
  | cons op ops => exact h.1

theorem noOverrun_take {q : List Nat} {ops : List Op} (h : NoOverrun q ops) (n : Nat) :
    NoOverrun q (ops.take n) := by
  induction ops generalizing q n with
  | nil => simpa using h
  | cons op ops ih =>
    cases n with
    | zero => exact h.1
    | succ n => exact ⟨h.1, ih h.2 n⟩

theorem byteAvail_iff (m : Machine) :
    byteAvail m = true ↔ m.rxBuffer.rIndex ≠ m.rxBuffer.uIndex := by
  simp [byteAvail]

theorem runOps_holds (p : Platform) (ops : List Op) (m : Machine) (q : List Nat)
    (h : Holds m.rxBuffer q) (hm : Quiet m) (hno : NoOverrun q ops) :
    ∃ m1 outs, runOps p ops m = some (m1, outs) ∧ Holds m1.rxBuffer (unread q ops) ∧
      outs = expected q ops := by
  induction ops generalizing m q with
  | nil => exact ⟨m, [], rfl, h, by simp [expected]⟩
  | cons op ops ih =>
    obtain ⟨_, hrest⟩ := hno
    cases op with
    | push b =>
      have hrest' : NoOverrun (q ++ [b % 256]) ops := hrest
      have hlen := noOverrun_length hrest'
      simp only [List.length_append, List.length_singleton, SER_BUFFER] at hlen
      obtain ⟨m1, h1, h2, h3⟩ := push_holds p b m q h (by simp only [SER_BUFFER]; omega) hm.1
      obtain ⟨m2, outs, h4, h5, h6⟩ := ih m1 (q ++ [b % 256]) h2 h3 hrest'
      exact ⟨m2, outs, by simp [runOps, stepOp, h1, h4], h5, by simp [expected, h6]⟩
    | pop =>
      cases q with
      | nil =>
        have he : m.rxBuffer.rIndex = m.rxBuffer.uIndex := (holds_nil_iff_eq h).mpr rfl
        have hrest' : NoOverrun [] ops := hrest
        obtain ⟨m2, outs, h4, h5, h6⟩ := ih m [] h hm hrest'
        exact ⟨m2, outs, by simp [runOps, stepOp, byteAvail, he, h4], h5, by simp [expected, h6]⟩
      | cons x t =>
        have hne : m.rxBuffer.rIndex ≠ m.rxBuffer.uIndex := by
          intro he
          have := (holds_nil_iff_eq h).mp he
          simp at this
        have hrest' : NoOverrun t ops := hrest
        obtain ⟨r, h1, h2, h3, _, h5, h6, _, h7⟩ :=
          getByte_holds p [] [] m 0 x t h (by simp) hm.2
        have hq : Quiet r.m := h7 hm
        obtain ⟨m2, outs, h4, h5', h6'⟩ := ih r.m t h5 hq hrest'
        refine ⟨m2, (0, x) :: outs, ?_, h5', ?_⟩
        · simp [runOps, stepOp, byteAvail, hne, h1, h4, h2, h3]
        · simp [expected, h6']

/-- C2: From the `initSerial` state with no interrupt pending, along every
interleaving of pushes (receive branch of `isr`) and pops (`getByte` called only
when `byteAvail` is true) in which the unread count never exceeds
`SER_BUFFER - 1`, after every prefix of the interleaving the run is defined,
`rIndex == uIndex` holds exactly when no byte is unread, `byteAvail` is true
exactly when a byte is unread, and every pop made so far returned success with
the oldest unread byte. -/
theorem empty_iff_equal_under_discipline (p : Platform) (m0 : Machine) (ops : List Op)
    (hm : Quiet m0) (hl : m0.rxBuffer.buffer.length = SER_BUFFER) (hno : NoOverrun [] ops)
    (n : Nat) :
    ∃ m outs, runOps p (ops.take n) (initSerial m0) = some (m, outs) ∧
      (m.rxBuffer.rIndex = m.rxBuffer.uIndex ↔ unread [] (ops.take n) = []) ∧
      (byteAvail m = true ↔ unread [] (ops.take n) ≠ []) ∧
      outs = expected [] (ops.take n) := by
  obtain ⟨m, outs, h1, h2, h3⟩ :=
    runOps_holds p (ops.take n) (initSerial m0) [] (initSerial_holds m0 hl) hm
      (noOverrun_take hno n)
  refine ⟨m, outs, h1, holds_nil_iff_eq h2, ?_, h3⟩
  rw [byteAvail_iff, Ne, holds_nil_iff_eq h2]

/-- The first 78 steps of `Op.demo`: the indices have wrapped and a byte is unread. -/
theorem empty_iff_equal_under_discipline_witness :
    ∃ m outs, runOps Platform.demo (Op.demo.take 78) (initSerial Machine.demo) = some (m, outs) ∧
      (m.rxBuffer.rIndex = m.rxBuffer.uIndex ↔ unread [] (Op.demo.take 78) = []) ∧
      (byteAvail m = true ↔ unread [] (Op.demo.take 78) ≠ []) ∧
      outs = expected [] (Op.demo.take 78) :=
  empty_iff_equal_under_discipline Platform.demo Machine.demo Op.demo
    (by decide) (by decide) (by decide) 78

/-! ### C3: overrun overwrites, nothing else -/

theorem pushAll_spec (p : Platform) (bytes : List Nat) (m : Machine)
    (ht : (m.TMR1IF && m.TMR1IE) = false) (hl : m.rxBuffer.buffer.length = SER_BUFFER)
    (hr : m.rxBuffer.rIndex < SER_BUFFER) :
    ∃ m1, pushAll p bytes m = some m1 ∧
      m1.rxBuffer.rIndex = (m.rxBuffer.rIndex + bytes.length) % SER_BUFFER ∧
      m1.rxBuffer.uIndex = m.rxBuffer.uIndex ∧
      m1.rxBuffer.buffer.length = SER_BUFFER ∧
      (∀ k, k < bytes.length → bytes.length ≤ k + SER_BUFFER →
        m1.rxBuffer.buffer[(m.rxBuffer.rIndex + k) % SER_BUFFER]? = bytes[k]?.map (· % 256)) ∧
      (∀ j, (∀ k, k < bytes.length → (m.rxBuffer.rIndex + k) % SER_BUFFER ≠ j) →
        m1.rxBuffer.buffer[j]? = m.rxBuffer.buffer[j]?) := by
  induction bytes generalizing m with
  | nil =>
    refine ⟨m, rfl, ?_, rfl, hl, ?_, ?_⟩
    · simp only [List.length_nil, Nat.add_zero]
      exact (Nat.mod_eq_of_lt hr).symm
    · intro k hk; simp at hk
    · intro j _; rfl
  | cons b bs ih =>
    have hrl : m.rxBuffer.rIndex < m.rxBuffer.buffer.length := by rw [hl]; exact hr
    have hp := push_eq p b m ht hrl
    have hb := bump_of_lt hr
    obtain ⟨m2, h1, h2, h3, h4, h5, h6⟩ := ih ({ m with
      RCIF := false
      RCREG := b % 256
      rxBuffer := { m.rxBuffer with
        buffer := m.rxBuffer.buffer.set m.rxBuffer.rIndex (b % 256)
        rIndex := bump m.rxBuffer.rIndex } }) ht (by simpa using hl)
        (by show bump m.rxBuffer.rIndex < SER_BUFFER
            rw [hb]; exact Nat.mod_lt _ (by decide))
    simp only [SER_BUFFER] at *
    simp only [hb] at h2 h5 h6
    refine ⟨m2, by simp [pushAll_cons, hp, h1], ?_, h3, h4, ?_, ?_⟩
    · rw [h2, List.length_cons]; omega
    · intro k hk hn
      simp only [List.length_cons] at hk hn
      cases k with
      | zero =>
        have h := h6 m.rxBuffer.rIndex (by intro k hk'; omega)
        simp only [Nat.add_zero, Nat.mod_eq_of_lt hr, List.getElem?_cons_zero, Option.map_some',
          h, List.getElem?_set_self hrl]
      | succ k =>
        have h := h5 k (by omega) (by omega)
        have he : ((m.rxBuffer.rIndex + 1) % 16 + k) % 16 = (m.rxBuffer.rIndex + (k + 1)) % 16 := by
          omega
        rw [he] at h
        simpa using h
    · intro j hj
      have hj0 := hj 0 (by simp)
      simp only [Nat.add_zero, Nat.mod_eq_of_lt hr] at hj0
      have h := h6 j (by
        intro k hk
        have := hj (k + 1) (by simpa using hk)
        omega)
      rw [h]
      exact List.getElem?_set_ne hj0

/-- C3: From any state whose write index is inside the array, with no timer
interrupt pending, every sequence of pushes of any length is total; after
every prefix the write index is within `0..SER_BUFFER-1` and the read index is
unchanged; and afterwards each slot written holds the most recent byte written
to it (older bytes in that slot are overwritten), while slots never written keep
their content. -/
theorem overrun_is_data_loss (p : Platform) (m : Machine) (bytes : List Nat)
    (ht : (m.TMR1IF && m.TMR1IE) = false) (hl : m.rxBuffer.buffer.length = SER_BUFFER)
    (hr : m.rxBuffer.rIndex < SER_BUFFER) :
    (∀ n, ∃ mn, pushAll p (bytes.take n) m = some mn ∧ mn.rxBuffer.rIndex < SER_BUFFER ∧
      mn.rxBuffer.rIndex < mn.rxBuffer.buffer.length ∧
      mn.rxBuffer.uIndex = m.rxBuffer.uIndex) ∧
    ∃ m1, pushAll p bytes m = some m1 ∧
      m1.rxBuffer.rIndex = (m.rxBuffer.rIndex + bytes.length) % SER_BUFFER ∧
      (∀ k, k < bytes.length → bytes.length ≤ k + SER_BUFFER →
        m1.rxBuffer.buffer[(m.rxBuffer.rIndex + k) % SER_BUFFER]? = bytes[k]?.map (· % 256)) ∧
      (∀ j, (∀ k, k < bytes.length → (m.rxBuffer.rIndex + k) % SER_BUFFER ≠ j) →
        m1.rxBuffer.buffer[j]? = m.rxBuffer.buffer[j]?) := by
  constructor
  · intro n
    obtain ⟨mn, h1, h2, h3, h4, _⟩ := pushAll_spec p (bytes.take n) m ht hl hr
    have hlt : mn.rxBuffer.rIndex < SER_BUFFER := by rw [h2]; exact Nat.mod_lt _ (by decide)
    exact ⟨mn, h1, hlt, by rw [h4]; exact hlt, h3⟩
  · obtain ⟨m1, h1, h2, _, _, h5, h6⟩ := pushAll_spec p bytes m ht hl hr
    exact ⟨m1, h1, h2, h5, h6⟩

/-- Forty pushes with no pop: the write index laps the read index twice. -/
theorem overrun_is_data_loss_witness :
    (∀ n, ∃ mn, pushAll Platform.demo ((List.range 40).take n) Machine.demo = some mn ∧
      mn.rxBuffer.rIndex < SER_BUFFER ∧ mn.rxBuffer.rIndex < mn.rxBuffer.buffer.length ∧
      mn.rxBuffer.uIndex = Machine.demo.rxBuffer.uIndex) ∧
    ∃ m1, pushAll Platform.demo (List.range 40) Machine.demo = some m1 ∧
      m1.rxBuffer.rIndex = (Machine.demo.rxBuffer.rIndex + (List.range 40).length) % SER_BUFFER ∧
      (∀ k, k < (List.range 40).length → (List.range 40).length ≤ k + SER_BUFFER →
        m1.rxBuffer.buffer[(Machine.demo.rxBuffer.rIndex + k) % SER_BUFFER]?
          = (List.range 40)[k]?.map (· % 256)) ∧
      (∀ j, (∀ k, k < (List.range 40).length →
          (Machine.demo.rxBuffer.rIndex + k) % SER_BUFFER ≠ j) →
        m1.rxBuffer.buffer[j]? = Machine.demo.rxBuffer.buffer[j]?) :=
  overrun_is_data_loss Platform.demo Machine.demo (List.range 40)
    (by decide) (by decide) (by decide)

/-! ### C4: short round trip -/

theorem and_ff (v : Nat) : v &&& 0xFF = v % 256 :=
  Nat.and_pow_two_sub_one_eq_mod v 8

theorem short_bits (v : Nat) (hv : v < 65536) :
    (v % 256 ||| ((v / 256 % 256) <<< 8)) % 65536 = v := by
  have h1 : v / 256 % 256 = v / 256 := Nat.mod_eq_of_lt (by omega)
  have h2 : 2 ^ 8 * (v / 256) + v % 256 = 2 ^ 8 * (v / 256) ||| v % 256 :=
    Nat.mul_add_lt_is_or (i := 8) (Nat.mod_lt v (by decide)) (v / 256)
  rw [h1, Nat.shiftLeft_eq, Nat.or_comm, Nat.mul_comm, ← h2]
  omega

theorem holds_empty (rb : RingBuffer) (hl : rb.buffer.length = SER_BUFFER)
    (hu : rb.uIndex < SER_BUFFER) (he : rb.rIndex = rb.uIndex) : Holds rb [] := by
  refine ⟨hl, hu, by decide, ?_, ?_⟩
  · simp only [List.length_nil, Nat.add_zero, Nat.mod_eq_of_lt hu, he]
  · intro i hi; simp at hi

theorem getShort_holds (p : Platform) (b0 b1 : List Irq) (rest : List (List Irq)) (m : Machine)
    (v lo hi : Nat) (q : List Nat) (h : Holds m.rxBuffer (lo :: hi :: q))
    (hb0 : ∀ e ∈ b0, e = Irq.timer) (hb1 : ∀ e ∈ b1, e = Irq.timer) (hrc : m.RCIF = false) :
    ∃ r, getShort p (b0 :: b1 :: rest) m v = some r ∧ r.ret = 0 ∧
      r.v = (lo ||| (hi <<< 8)) % 65536 ∧ r.env = rest ∧ Holds r.m.rxBuffer q ∧
      r.m.rxBuffer = { m.rxBuffer with uIndex := bump (bump m.rxBuffer.uIndex) } := by
  have hne : m.rxBuffer.rIndex ≠ m.rxBuffer.uIndex := by
    intro he
    have := (holds_nil_iff_eq h).mp he
    simp at this
  obtain ⟨m1, h1, h2, h3, _⟩ := waitByte_avail p (millis m) b0 (b1 :: rest) m hb0 hrc hne
  have h' : Holds m1.rxBuffer (lo :: hi :: q) := by rw [h2]; exact h
  obtain ⟨ht, hh⟩ := take_holds m1 lo (hi :: q) h'
  have hne2 : ({ m1 with rxBuffer := { m1.rxBuffer with uIndex := bump m1.rxBuffer.uIndex } }
      : Machine).rxBuffer.rIndex ≠ ({ m1 with rxBuffer := { m1.rxBuffer with
        uIndex := bump m1.rxBuffer.uIndex } } : Machine).rxBuffer.uIndex := by
    intro he
    have := (holds_nil_iff_eq hh).mp he
    simp at this
  obtain ⟨m3, h4, h5, h6, _⟩ := waitByte_avail p (millis m) b1 rest
    { m1 with rxBuffer := { m1.rxBuffer with uIndex := bump m1.rxBuffer.uIndex } } hb1 h3 hne2
  have h'' : Holds m3.rxBuffer (hi :: q) := by rw [h5]; exact hh
  obtain ⟨ht2, hh2⟩ := take_holds m3 hi q h''
  have hg : getShort p (b0 :: b1 :: rest) m v = some ⟨0, (lo ||| (hi <<< 8)) % 65536,
      { m3 with rxBuffer := { m3.rxBuffer with uIndex := bump m3.rxBuffer.uIndex } }, rest⟩ := by
    simp only [getShort, h1, ht, h4, ht2]
  refine ⟨_, hg, rfl, rfl, rfl, hh2, ?_⟩
  simp [h5, h2]

/-- C4: For every 16-bit `v`, `putShort(v)` transmits the two bytes `v & 0xFF`
then `(v >> 8) & 0xFF`; pushed in that order into an empty receive buffer they
are decoded by `getShort` as success (return 0) with `*v` equal to `v`, and
exactly two bytes are consumed: the read index has advanced twice and the
buffer is empty again. -/
theorem short_round_trip (p : Platform) (v : Nat) (hv : v < 65536) (mt m : Machine)
    (env : List (List Irq)) (v0 : Nat) (hm : Quiet m)
    (hl : m.rxBuffer.buffer.length = SER_BUFFER) (hu : m.rxBuffer.uIndex < SER_BUFFER)
    (hempty : m.rxBuffer.rIndex = m.rxBuffer.uIndex) (he : NoRx env) (hlen : 2 ≤ env.length) :
    (putShort v mt).tx = mt.tx ++ [v &&& 0xFF, (v >>> 8) &&& 0xFF] ∧
    ∃ m1 r, pushAll p [v &&& 0xFF, (v >>> 8) &&& 0xFF] m = some m1 ∧
      getShort p env m1 v0 = some r ∧ r.ret = 0 ∧ r.v = v ∧
      r.m.rxBuffer.uIndex = bump (bump m.rxBuffer.uIndex) ∧
      r.m.rxBuffer.uIndex = (m.rxBuffer.uIndex + 2) % SER_BUFFER ∧
      r.m.rxBuffer.rIndex = r.m.rxBuffer.uIndex := by
  have hlo : v % 256 % 256 = v % 256 := Nat.mod_mod _ _
  have hhi : v / 256 % 256 % 256 = v / 256 % 256 := Nat.mod_mod _ _
  constructor
  · simp [putShort, putch, and_ff, Nat.shiftRight_eq_div_pow]
  · obtain ⟨m1, h1, h2, h3⟩ := pushAll_holds p [v &&& 0xFF, (v >>> 8) &&& 0xFF] m []
      (holds_empty m.rxBuffer hl hu hempty) (by simp [SER_BUFFER]) hm
    simp only [List.nil_append, List.map_cons, List.map_nil, and_ff,
      Nat.shiftRight_eq_div_pow, Nat.reducePow, hlo, hhi] at h2
    have hu1 : m1.rxBuffer.uIndex = m.rxBuffer.uIndex := by
      obtain ⟨w, hw, _, h5, _⟩ := pushAll_spec p [v &&& 0xFF, (v >>> 8) &&& 0xFF] m hm.1 hl
        (by rw [hempty]; exact hu)
      rw [h1] at hw
      cases hw
      exact h5
    match env, hlen, he with
    | b0 :: b1 :: rest, _, he =>
      obtain ⟨r, h4, h5, h6, _, h8, h9⟩ := getShort_holds p b0 b1 rest m1 v0 _ _ [] h2
        (he b0 (by simp)) (he b1 (by simp)) h3.2
      refine ⟨m1, r, h1, h4, h5, ?_, ?_, ?_, ?_⟩
      · rw [h6]; exact short_bits v hv
      · rw [h9, hu1]
      · rw [h9, hu1]
        show bump (bump m.rxBuffer.uIndex) = _
        rw [bump_of_lt hu, bump_of_lt (Nat.mod_lt _ (by decide))]
        simp only [SER_BUFFER]; omega
      · exact (holds_nil_iff_eq h8).mpr rfl

/-- The value `0xBEEF` sent by `putShort` and read back by `getShort`. -/
theorem short_round_trip_witness :
    (putShort 0xBEEF Machine.demo).tx
        = Machine.demo.tx ++ [0xBEEF &&& 0xFF, (0xBEEF >>> 8) &&& 0xFF] ∧
    ∃ m1 r, pushAll Platform.demo [0xBEEF &&& 0xFF, (0xBEEF >>> 8) &&& 0xFF] Machine.demo = some m1 ∧
      getShort Platform.demo [[], []] m1 7 = some r ∧ r.ret = 0 ∧ r.v = 0xBEEF ∧
      r.m.rxBuffer.uIndex = bump (bump Machine.demo.rxBuffer.uIndex) ∧
      r.m.rxBuffer.uIndex = (Machine.demo.rxBuffer.uIndex + 2) % SER_BUFFER ∧
      r.m.rxBuffer.rIndex = r.m.rxBuffer.uIndex :=
  short_round_trip Platform.demo 0xBEEF (by decide) Machine.demo Machine.demo [[], []] 7
    (by decide) (by decide) (by decide) (by decide) (by decide) (by decide)

/-! ### C5: a timed-out byte read consumes nothing -/

theorem service_uIndex (p : Platform) (e : Irq) (m m1 : Machine) (h : service p e m = some m1) :
    m1.rxBuffer.uIndex = m.rxBuffer.uIndex := by
  unfold service isr at h
  split at h
  · cases h; cases e <;> rfl
  · split at h
    · split at h
      · cases h; cases e <;> rfl
      · cases h
    · cases h; cases e <;> rfl

theorem serviceAll_uIndex (p : Platform) (es : List Irq) (m m1 : Machine)
    (h : serviceAll p es m = some m1) : m1.rxBuffer.uIndex = m.rxBuffer.uIndex := by
  induction es generalizing m with
  | nil => cases h; rfl
  | cons e es ih =>
    simp only [serviceAll] at h
    cases hs : service p e m with
    | none => simp [hs] at h
    | some m2 =>
      simp only [hs] at h
      rw [ih m2 h, service_uIndex p e m m2 hs]

theorem waitByte_uIndex (p : Platform) (start : Nat) (env : List (List Irq)) (m m1 : Machine)
    (b : Bool) (rest : List (List Irq)) (h : waitByte p start env m = some (b, m1, rest)) :
    m1.rxBuffer.uIndex = m.rxBuffer.uIndex ∧
      (b = true → m1.rxBuffer.rIndex ≠ m1.rxBuffer.uIndex) := by
  induction env generalizing m with
  | nil => simp [waitByte] at h
  | cons burst env ih =>
    simp only [waitByte] at h
    cases hs : serviceAll p burst m with
    | none => simp [hs] at h
    | some m2 =>
      have hu := serviceAll_uIndex p burst m m2 hs
      simp only [hs] at h
      split at h
      · split at h
        · simp only [Option.some.injEq, Prod.mk.injEq] at h
          obtain ⟨rfl, rfl, _⟩ := h
          exact ⟨hu, by simp⟩
        · obtain ⟨h1, h2⟩ := ih m2 h
          exact ⟨by rw [h1, hu], h2⟩
      · rename_i hne
        simp only [Option.some.injEq, Prod.mk.injEq] at h
        obtain ⟨rfl, rfl, _⟩ := h
        exact ⟨hu, fun _ => hne⟩

theorem waitByte_timeout (p : Platform) (start : Nat) (env : List (List Irq)) (m : Machine)
    (hrc : m.RCIF = false) (he : m.rxBuffer.rIndex = m.rxBuffer.uIndex) (hno : NoRx env)
    (hto : TimesOut p start 0 env m) :
    ∃ m1 rest, waitByte p start env m = some (false, m1, rest) ∧
      m1.rxBuffer = m.rxBuffer ∧ m1.RCIF = false := by
  induction env generalizing m with
  | nil =>
    obtain ⟨k, _, hk, _⟩ := hto
    simp at hk
  | cons burst env ih =>
    obtain ⟨m1, h1, h2, h3, _⟩ := serviceAll_timers p burst m (hno burst (by simp)) hrc
    have he1 : m1.rxBuffer.rIndex = m1.rxBuffer.uIndex := by rw [h2]; exact he
    by_cases ht : msSub p (millis m1) start > SERIAL_TIMEOUT
    · exact ⟨m1, env, by simp [waitByte, h1, he1, ht], h2, h3⟩
    · have hto' : TimesOut p start 0 env m1 := by
        obtain ⟨k, _, hk, mk, hs, hgt⟩ := hto
        cases k with
        | zero =>
          simp only [Nat.zero_add, List.take_succ_cons, List.take_zero, List.flatten_cons,
            List.flatten_nil, List.append_nil, h1, Option.some.injEq] at hs
          subst hs
          exact absurd hgt ht
        | succ k =>
          simp only [List.take_succ_cons, List.flatten_cons, serviceAll_append, h1,
            Option.some_bind] at hs
          exact ⟨k, Nat.zero_le _, by simpa using hk, mk, hs, hgt⟩
      obtain ⟨m2, rest, h4, h5, h6⟩ := ih m1 h3 he1 (fun b hb => hno b (by simp [hb])) hto'
      exact ⟨m2, rest, by simp [waitByte, h1, he1, ht, h4], by rw [h5, h2], h6⟩

/-- C5: If the receive buffer is empty, no byte arrives, and the clock is seen
to pass `start + SERIAL_TIMEOUT`, then `getByte` returns the timeout code 1 and
leaves `rxBuffer` (both indices and the contents) and `*v` unchanged. Whenever
`getByte` returns, it returns either 1 with `*v` and the read index untouched,
or 0 after advancing the read index by exactly one position and storing the
byte that was at the old read index to `*v`. -/
theorem getByte_timeout_nonconsuming (p : Platform) (env : List (List Irq)) (m : Machine)
    (v : Nat) :
    (m.RCIF = false → m.rxBuffer.rIndex = m.rxBuffer.uIndex → NoRx env →
      TimesOut p (millis m) 0 env m →
      ∃ r, getByte p env m v = some r ∧ r.ret = 1 ∧ r.m.rxBuffer = m.rxBuffer ∧ r.v = v) ∧
    (∀ r, getByte p env m v = some r →
      (r.ret = 1 ∧ r.v = v ∧ r.m.rxBuffer.uIndex = m.rxBuffer.uIndex) ∨
      (r.ret = 0 ∧ r.m.rxBuffer.uIndex = bump m.rxBuffer.uIndex ∧
        r.m.rxBuffer.buffer[m.rxBuffer.uIndex]? = some r.v ∧
        r.m.rxBuffer.rIndex ≠ m.rxBuffer.uIndex)) := by
  constructor
  · intro hrc he hno hto
    obtain ⟨m1, rest, h1, h2, _⟩ := waitByte_timeout p (millis m) env m hrc he hno hto
    exact ⟨⟨1, v, m1, rest⟩, by simp only [getByte, h1], rfl, h2, rfl⟩
  · intro r hr
    simp only [getByte] at hr
    cases hw : waitByte p (millis m) env m with
    | none => simp [hw] at hr
    | some t =>
      obtain ⟨b, m1, rest⟩ := t
      obtain ⟨hu, hb⟩ := waitByte_uIndex p (millis m) env m m1 b rest hw
      cases b with
      | false =>
        simp only [hw, Option.some.injEq] at hr
        subst hr
        exact Or.inl ⟨rfl, rfl, hu⟩
      | true =>
        simp only [hw] at hr
        cases ht : take m1 with
        | none => simp [ht] at hr
        | some t2 =>
          obtain ⟨x, m2⟩ := t2
          simp only [ht, Option.some.injEq] at hr
          subst hr
          simp only [take] at ht
          cases hx : m1.rxBuffer.buffer[m1.rxBuffer.uIndex]? with
          | none => simp [hx] at ht
          | some y =>
            simp only [hx, Option.some.injEq, Prod.mk.injEq] at ht
            obtain ⟨rfl, rfl⟩ := ht
            refine Or.inr ⟨rfl, ?_, ?_, ?_⟩
            · simp [hu]
            · rw [← hu]; exact hx
            · rw [← hu]; exact hb rfl

/-- An empty buffer with eight timer ticks times out; a buffer holding `0x41`
is read with return code 0 and the read index advanced from 0 to 1. -/
theorem getByte_timeout_nonconsuming_witness :
    (∃ r, getByte Platform.demo (List.replicate 8 [Irq.timer]) Machine.demo 0x55 = some r ∧
      r.ret = 1 ∧ r.m.rxBuffer = Machine.demo.rxBuffer ∧ r.v = 0x55) ∧
    ((0 = 1 ∧ 0x41 = 0x55 ∧ 1 = Machine.oneByte.rxBuffer.uIndex) ∨
      (0 = 0 ∧ 1 = bump Machine.oneByte.rxBuffer.uIndex ∧
        Machine.oneByte.rxBuffer.buffer[Machine.oneByte.rxBuffer.uIndex]? = some 0x41 ∧
        Machine.oneByte.rxBuffer.rIndex ≠ Machine.oneByte.rxBuffer.uIndex)) :=
  ⟨(getByte_timeout_nonconsuming Platform.demo (List.replicate 8 [Irq.timer]) Machine.demo 0x55).1
      (by decide) (by decide) (by decide) ⟨5, by decide, by decide, _, rfl, by decide⟩,
    (getByte_timeout_nonconsuming Platform.demo [[]] Machine.oneByte 0x55).2
      ⟨0, 0x41, { Machine.oneByte with
        rxBuffer := { Machine.oneByte.rxBuffer with uIndex := 1 } }, []⟩ (by decide)⟩

/-! ### C6: a short read that times out on its second byte -/

theorem service_timer_congr (p : Platform) (m : Machine) (rb : RingBuffer)
    (hrc : m.RCIF = false) :
    service p Irq.timer { m with rxBuffer := rb }
      = (service p Irq.timer m).map fun x => { x with rxBuffer := rb } := by
  unfold service isr raise
  by_cases h : m.TMR1IE = true <;> simp [h, hrc]

theorem serviceAll_timers_congr (p : Platform) (es : List Irq) (m : Machine) (rb : RingBuffer)
    (hb : ∀ e ∈ es, e = Irq.timer) (hrc : m.RCIF = false) :
    serviceAll p es { m with rxBuffer := rb }
      = (serviceAll p es m).map fun x => { x with rxBuffer := rb } := by
  induction es generalizing m with
  | nil => rfl
  | cons e es ih =>
    have he : e = Irq.timer := hb e (by simp)
    subst he
    obtain ⟨m1, h1, _, h3⟩ := service_timer_rxBuffer p m hrc
    simp only [serviceAll, service_timer_congr p m rb hrc, h1, Option.map_some']
    exact ih m1 (fun e he => hb e (by simp [he])) h3.2

theorem noRx_flatten_take (env : List (List Irq)) (h : NoRx env) (k : Nat) :
    ∀ e ∈ (env.take k).flatten, e = Irq.timer := by
  intro e he
  obtain ⟨b, hb, heb⟩ := List.mem_flatten.mp he
  exact h b (List.mem_of_mem_take hb) e heb

/-- C6: If exactly one byte is unread, no further byte arrives, and the clock
is seen to pass the entry-time `start + SERIAL_TIMEOUT` while waiting for the
second byte, `getShort` returns the timeout code 1 with the read index advanced
by exactly one position modulo `SER_BUFFER`: the first byte has been stored to
`*v`, the buffer now reads as empty, and the byte cannot be read again. If the
buffer is empty and no byte arrives at all, it returns 1 with `rxBuffer` and
`*v` unchanged. -/
theorem getShort_loses_first_byte (p : Platform) (env : List (List Irq)) (m : Machine)
    (v : Nat) :
    (m.RCIF = false → m.rxBuffer.buffer.length = SER_BUFFER →
      m.rxBuffer.uIndex < SER_BUFFER → m.rxBuffer.rIndex = bump m.rxBuffer.uIndex →
      NoRx env → TimesOut p (millis m) 1 env m →
      ∃ r, getShort p env m v = some r ∧ r.ret = 1 ∧
        r.m.rxBuffer.uIndex = (m.rxBuffer.uIndex + 1) % SER_BUFFER ∧
        r.m.rxBuffer.rIndex = m.rxBuffer.rIndex ∧
        r.m.rxBuffer.buffer = m.rxBuffer.buffer ∧
        m.rxBuffer.buffer[m.rxBuffer.uIndex]? = some r.v ∧
        byteAvail r.m = false) ∧
    (m.RCIF = false → m.rxBuffer.rIndex = m.rxBuffer.uIndex → NoRx env →
      TimesOut p (millis m) 0 env m →
      ∃ r, getShort p env m v = some r ∧ r.ret = 1 ∧ r.m.rxBuffer = m.rxBuffer ∧ r.v = v) := by
  constructor
  · intro hrc hl hu hr hno hto
    have hb := bump_of_lt hu
    have hne : m.rxBuffer.rIndex ≠ m.rxBuffer.uIndex := by
      rw [hr, hb]; simp only [SER_BUFFER] at *; omega
    cases env with
    | nil =>
      obtain ⟨k, _, hk, _⟩ := hto
      simp at hk
    | cons b0 rest =>
      obtain ⟨m1, h1, h2, h3, _⟩ :=
        waitByte_avail p (millis m) b0 rest m (hno b0 (by simp)) hrc hne
      have hs1 : serviceAll p b0 m = some m1 := by
        simp only [waitByte] at h1
        cases hs : serviceAll p b0 m with
        | none => simp [hs] at h1
        | some m' =>
          simp only [hs] at h1
          split at h1
          · rename_i heq
            obtain ⟨m'', hs', hrb, _⟩ := serviceAll_timers p b0 m (hno b0 (by simp)) hrc
            rw [hs] at hs'
            cases hs'
            rw [hrb] at heq
            exact absurd heq hne
          · simp only [Option.some.injEq, Prod.mk.injEq] at h1
            rw [h1.2.1]
      have hx : ∃ x, m1.rxBuffer.buffer[m1.rxBuffer.uIndex]? = some x := by
        rw [h2]
        exact ⟨_, List.getElem?_eq_getElem (by rw [hl]; exact hu)⟩
      obtain ⟨x, hx⟩ := hx
      obtain ⟨m2, hm2⟩ : ∃ m2 : Machine, m2 = { m1 with
          rxBuffer := { m1.rxBuffer with uIndex := bump m1.rxBuffer.uIndex } } := ⟨_, rfl⟩
      have ht : take m1 = some (x, m2) := by
        simp [take, hx, hm2]
      have hrc2 : m2.RCIF = false := by rw [hm2]; exact h3
      have hrb2 : m2.rxBuffer = { m.rxBuffer with uIndex := bump m.rxBuffer.uIndex } := by
        rw [hm2]; simp [h2]
      have he2 : m2.rxBuffer.rIndex = m2.rxBuffer.uIndex := by
        rw [hrb2]; exact hr
      have hno' : NoRx rest := fun b hb => hno b (by simp [hb])
      have hto' : TimesOut p (millis m) 0 rest m2 := by
        obtain ⟨k, hk1, hk, mk, hs, hgt⟩ := hto
        cases k with
        | zero => omega
        | succ k =>
          simp only [List.take_succ_cons, List.flatten_cons, serviceAll_append, hs1,
            Option.some_bind] at hs
          refine ⟨k, Nat.zero_le _, by simpa using hk,
            { mk with rxBuffer := { m1.rxBuffer with uIndex := bump m1.rxBuffer.uIndex } },
            ?_, hgt⟩
          rw [hm2, serviceAll_timers_congr p _ m1 _ (noRx_flatten_take rest hno' _) h3, hs]
          rfl
      obtain ⟨m3, rest3, h4, h5, _⟩ := waitByte_timeout p (millis m) rest m2 hrc2 he2 hno' hto'
      refine ⟨⟨1, x, m3, rest3⟩, by simp only [getShort, h1, ht, h4], rfl, ?_, ?_, ?_, ?_, ?_⟩
      · show m3.rxBuffer.uIndex = _
        rw [h5, hrb2, ← hb]
      · show m3.rxBuffer.rIndex = _
        rw [h5, hrb2]
      · show m3.rxBuffer.buffer = _
        rw [h5, hrb2]
      · rw [← h2]; exact hx
      · show byteAvail m3 = false
        simp [byteAvail, h5, he2]
  · intro hrc he hno hto
    obtain ⟨m1, rest, h1, h2, _⟩ := waitByte_timeout p (millis m) env m hrc he hno hto
    exact ⟨⟨1, v, m1, rest⟩, by simp only [getShort, h1], rfl, h2, rfl⟩

/-- One unread byte, then eight timer ticks; and an empty buffer with eight ticks. -/
theorem getShort_loses_first_byte_witness :
    (∃ r, getShort Platform.demo (List.replicate 8 [Irq.timer]) Machine.oneByte 0x77 = some r ∧
      r.ret = 1 ∧
      r.m.rxBuffer.uIndex = (Machine.oneByte.rxBuffer.uIndex + 1) % SER_BUFFER ∧
      r.m.rxBuffer.rIndex = Machine.oneByte.rxBuffer.rIndex ∧
      r.m.rxBuffer.buffer = Machine.oneByte.rxBuffer.buffer ∧
      Machine.oneByte.rxBuffer.buffer[Machine.oneByte.rxBuffer.uIndex]? = some r.v ∧
      byteAvail r.m = false) ∧
    (∃ r, getShort Platform.demo (List.replicate 8 [Irq.timer]) Machine.demo 0x77 = some r ∧
      r.ret = 1 ∧ r.m.rxBuffer = Machine.demo.rxBuffer ∧ r.v = 0x77) :=
  ⟨(getShort_loses_first_byte Platform.demo (List.replicate 8 [Irq.timer]) Machine.oneByte 0x77).1
      (by decide) (by decide) (by decide) (by decide) (by decide)
      ⟨5, by decide, by decide, _, rfl, by decide⟩,
    (getShort_loses_first_byte Platform.demo (List.replicate 8 [Irq.timer]) Machine.demo 0x77).2
      (by decide) (by decide) (by decide) ⟨5, by decide, by decide, _, rfl, by decide⟩⟩

/-! ### C7: mode transition table -/

/-- C7: For every mode value, `switchMode` stores exactly what the two
actuators return for the requests of the mode's row: red unlocked / green
locked for Normal, Night, Learn, Clear and for every unrecognized value (which
also forces `opMode` to Normal), both locked for Vet and Closed, both unlocked
for Open, the green latch being actuated after the red one. With actuators that
return the requested state, `(opMode, outLocked, inLocked)` is `(m, false, true)`,
`(m, true, true)`, `(Open, false, false)` and `(Normal, false, true)` in these
four cases. -/
theorem switchMode_table {σ : Type} (L : Latches σ) (mode : Nat) (g : Globals) (h : σ) :
    ((mode = MODE_NORMAL ∨ mode = MODE_NIGHT ∨ mode = MODE_LEARN ∨ mode = MODE_CLEAR) →
      (switchMode L mode g h).1.status =
        (mode, (L.lockRedLatch false h).1,
          (L.lockGreenLatch true (L.lockRedLatch false h).2).1)) ∧
    ((mode = MODE_VET ∨ mode = MODE_CLOSED) →
      (switchMode L mode g h).1.status =
        (mode, (L.lockRedLatch true h).1,
          (L.lockGreenLatch true (L.lockRedLatch true h).2).1)) ∧
    (mode = MODE_OPEN →
      (switchMode L mode g h).1.status =
        (MODE_OPEN, (L.lockRedLatch false h).1,
          (L.lockGreenLatch false (L.lockRedLatch false h).2).1)) ∧
    (MODE_OPEN < mode →
      (switchMode L mode g h).1.status =
        (MODE_NORMAL, (L.lockRedLatch false h).1,
          (L.lockGreenLatch true (L.lockRedLatch false h).2).1)) ∧
    ((∀ b s, (L.lockRedLatch b s).1 = b) → (∀ b s, (L.lockGreenLatch b s).1 = b) →
      ((mode = MODE_NORMAL ∨ mode = MODE_NIGHT ∨ mode = MODE_LEARN ∨ mode = MODE_CLEAR) →
        (switchMode L mode g h).1.status = (mode, false, true)) ∧
      ((mode = MODE_VET ∨ mode = MODE_CLOSED) →
        (switchMode L mode g h).1.status = (mode, true, true)) ∧
      (mode = MODE_OPEN → (switchMode L mode g h).1.status = (MODE_OPEN, false, false)) ∧
      (MODE_OPEN < mode → (switchMode L mode g h).1.status = (MODE_NORMAL, false, true))) := by
  have hA : (mode = MODE_NORMAL ∨ mode = MODE_NIGHT ∨ mode = MODE_LEARN ∨ mode = MODE_CLEAR) →
      (switchMode L mode g h).1.status =
        (mode, (L.lockRedLatch false h).1,
          (L.lockGreenLatch true (L.lockRedLatch false h).2).1) := by
    intro hm
    have hc : mode = MODE_NIGHT ∨ mode = MODE_NORMAL ∨ mode = MODE_LEARN ∨ mode = MODE_CLEAR := by
      simp only [ MODE_NORMAL, MODE_NIGHT, MODE_LEARN, MODE_CLEAR] at *; omega
    simp [switchMode, hc, setLatches, Globals.status]
  have hB : (mode = MODE_VET ∨ mode = MODE_CLOSED) →
      (switchMode L mode g h).1.status =
        (mode, (L.lockRedLatch true h).1,
          (L.lockGreenLatch true (L.lockRedLatch true h).2).1) := by
    intro hm
    have hc : ¬(mode = MODE_NIGHT ∨ mode = MODE_NORMAL ∨ mode = MODE_LEARN ∨ mode = MODE_CLEAR) := by
      simp only [ MODE_NORMAL, MODE_NIGHT, MODE_LEARN, MODE_CLEAR, MODE_VET, MODE_CLOSED] at *
      omega
    simp [switchMode, hc, hm, setLatches, Globals.status]
  have hC : mode = MODE_OPEN →
      (switchMode L mode g h).1.status =
        (MODE_OPEN, (L.lockRedLatch false h).1,
          (L.lockGreenLatch false (L.lockRedLatch false h).2).1) := by
    intro hm
    subst hm
    simp [switchMode, setLatches, Globals.status]
  have hD : MODE_OPEN < mode →
      (switchMode L mode g h).1.status =
        (MODE_NORMAL, (L.lockRedLatch false h).1,
          (L.lockGreenLatch true (L.lockRedLatch false h).2).1) := by
    intro hm
    have hc1 : ¬(mode = MODE_NIGHT ∨ mode = MODE_NORMAL ∨ mode = MODE_LEARN ∨ mode = MODE_CLEAR) := by
      simp only [ MODE_NORMAL, MODE_NIGHT, MODE_LEARN, MODE_CLEAR, MODE_OPEN] at *
      omega
    have hc2 : ¬(mode = MODE_VET ∨ mode = MODE_CLOSED) := by
      simp only [ MODE_VET, MODE_CLOSED, MODE_OPEN] at *
      omega
    have hc3 : ¬ mode = MODE_OPEN := by omega
    simp [switchMode, hc1, hc2, hc3, setLatches, Globals.status]
  refine ⟨hA, hB, hC, hD, ?_⟩
  intro hr hg
  refine ⟨?_, ?_, ?_, ?_⟩
  · intro hm; rw [hA hm, hr, hg]
  · intro hm; rw [hB hm, hr, hg]
  · intro hm; rw [hC hm, hr, hg]
  · intro hm; rw [hD hm, hr, hg]

/-- Vet, Open and the unrecognized value 200 on ideal latches; Night on jammed ones. -/
theorem switchMode_table_witness :
    (switchMode Latches.ideal MODE_VET Globals.reset (false, false)).1.status = (MODE_VET, true, true) ∧
    (switchMode Latches.ideal MODE_OPEN Globals.reset (true, true)).1.status
      = (MODE_OPEN, false, false) ∧
    (switchMode Latches.ideal 200 Globals.reset (true, false)).1.status
      = (MODE_NORMAL, false, true) ∧
    (switchMode Latches.jammed MODE_NIGHT Globals.reset (true, false)).1.status
      = (MODE_NIGHT, (Latches.jammed.lockRedLatch false (true, false)).1,
          (Latches.jammed.lockGreenLatch true
            (Latches.jammed.lockRedLatch false (true, false)).2).1) :=
  ⟨((switchMode_table Latches.ideal MODE_VET Globals.reset (false, false)).2.2.2.2
      (by decide) (by decide)).2.1 (by decide),
    ((switchMode_table Latches.ideal MODE_OPEN Globals.reset (true, true)).2.2.2.2
      (by decide) (by decide)).2.2.1 rfl,
    ((switchMode_table Latches.ideal 200 Globals.reset (true, false)).2.2.2.2
      (by decide) (by decide)).2.2.2 (by decide),
    (switchMode_table Latches.jammed MODE_NIGHT Globals.reset (true, false)).1 (by decide)⟩

/-! ### C8, C9, C10: button decoder -/

theorem polls_append (p : Platform) (s : Buttons) (a b : List Sample) :
    polls p s (a ++ b)
      = ((polls p (polls p s a).1 b).1, (polls p s a).2 ++ (polls p (polls p s a).1 b).2) := by
  induction a generalizing s with
  | nil => simp [polls]
  | cons i a ih => simp [polls, ih]

theorem polls_cons (p : Platform) (s : Buttons) (i : Sample) (rest : List Sample) :
    polls p s (i :: rest)
      = ((polls p (handleButtons p s i).2.2 rest).1,
          ((handleButtons p s i).1, (handleButtons p s i).2.1)
            :: (polls p (handleButtons p s i).2.2 rest).2) := rfl

theorem polls_nil (p : Platform) (s : Buttons) : polls p s [] = (s, []) := rfl

theorem handleButtons_no_change (p : Platform) (s : Buttons) (i : Sample)
    (hg : i.green = s.greenPrev) (hr : i.red = s.redPrev) : (handleButtons p s i).1 = 0 := by
  unfold handleButtons
  rw [hg, hr]
  cases s.greenPrev <;> cases s.redPrev <;> simp

theorem polls_idle (p : Platform) (s : Buttons) (idle : List Sample)
    (hs : s.greenPrev = true ∧ s.redPrev = true)
    (hidle : ∀ i ∈ idle, i.green = true ∧ i.red = true) :
    (polls p s idle).1 = s ∧ (polls p s idle).2.map Prod.fst = List.replicate idle.length 0 := by
  induction idle with
  | nil => simp [polls]
  | cons i idle ih =>
    obtain ⟨hg, hr⟩ := hidle i (by simp)
    have hst : handleButtons p s i = (0, msSub p i.now s.start, s) := by
      obtain ⟨g, r, st, b⟩ := s
      simp only at hs
      obtain ⟨rfl, rfl⟩ := hs
      simp [handleButtons, hg, hr]
    obtain ⟨h1, h2⟩ := ih (fun j hj => hidle j (by simp [hj]))
    simp only [polls, hst, h1, h2, List.map_cons, List.length_cons, List.replicate_succ,
      and_self]

theorem polls_hold (p : Platform) (s : Buttons) (hold : List Sample)
    (hs : s.greenPrev = false) (hh : ∀ i ∈ hold, i.green = false) :
    (polls p s hold).1.greenPrev = false ∧ (polls p s hold).1.start = s.start ∧
      (polls p s hold).1.bothPressed = (s.bothPressed || hold.any fun i => !i.red) ∧
      (polls p s hold).2.map Prod.fst = List.replicate hold.length 0 := by
  induction hold generalizing s with
  | nil => simp [polls, hs]
  | cons i hold ih =>
    have hg := hh i (by simp)
    have hst : handleButtons p s i = (0, msSub p i.now s.start,
        { greenPrev := false, redPrev := i.red, start := s.start,
          bothPressed := s.bothPressed || !i.red }) := by
      simp only [handleButtons, hg, hs]
      cases i.red <;> simp
    obtain ⟨h1, h2, h3, h4⟩ := ih
      { greenPrev := false, redPrev := i.red, start := s.start,
        bothPressed := s.bothPressed || !i.red } rfl (fun j hj => hh j (by simp [hj]))
    simp only [polls, hst, h1, h2, h3, h4, List.map_cons, List.length_cons,
      List.replicate_succ, List.any_cons, Bool.or_assoc, and_self]

theorem handleButtons_green_press (p : Platform) (s : Buttons) (i : Sample)
    (hs : s.greenPrev = true) (hg : i.green = false) :
    handleButtons p s i = (0, msSub p i.now s.start,
      { greenPrev := false, redPrev := i.red, start := i.now2, bothPressed := false }) := by
  simp [handleButtons, hg, hs]

theorem handleButtons_green_release (p : Platform) (s : Buttons) (i : Sample)
    (hs : s.greenPrev = false) (hg : i.green = true) :
    (handleButtons p s i).1 = (if s.bothPressed then BOTH_PRESS else GREEN_PRESS) ∧
      (handleButtons p s i).2.1 = msSub p i.now s.start := by
  simp [handleButtons, hg, hs]

theorem polls_press_hold_release (p : Platform) (s : Buttons) (press : Sample)
    (hold : List Sample) (release : Sample) (hs : s.greenPrev = true)
    (hp : press.green = false) (hh : ∀ i ∈ hold, i.green = false) (hr : release.green = true) :
    (polls p s (press :: hold ++ [release])).2.map Prod.fst
        = List.replicate (1 + hold.length) 0
          ++ [if (hold.any fun i => !i.red) then BOTH_PRESS else GREEN_PRESS] ∧
      (polls p s (press :: hold ++ [release])).2.getLast?.map Prod.snd
        = some (msSub p release.now press.now2) := by
  have hpr := handleButtons_green_press p s press hs hp
  obtain ⟨h1, h2, h3, h4⟩ := polls_hold p
    { greenPrev := false, redPrev := press.red, start := press.now2, bothPressed := false }
    hold rfl hh
  obtain ⟨h5, h6⟩ := handleButtons_green_release p _ release h1 hr
  rw [h3] at h5
  rw [h2] at h6
  rw [List.cons_append, polls_cons, hpr, polls_append, polls_cons, polls_nil]
  refine ⟨?_, ?_⟩
  · simp only [List.map_cons, List.map_append, h4, h5, List.map_nil, Bool.false_or]
    rw [Nat.add_comm 1, List.replicate_succ]
    rfl
  · rw [← List.cons_append, List.getLast?_concat, h6]
    rfl

/-- C8: From a decoder state in which both buttons were last sampled released,
for every poll sequence of idle polls (both released), then one or more
consecutive polls with green pressed and red released, then a poll with both
released: `handleButtons` returns 0 on every poll before the last and
`GREEN_PRESS` on the last one, with `*time` equal to the clock read at that
poll minus the clock stored by the poll that saw the press, modulo the `ms_t`
width. On any poll at which neither button changed state it returns 0. -/
theorem solitary_green_press (p : Platform) (s : Buttons) (idle : List Sample) (press : Sample)
    (hold : List Sample) (release : Sample)
    (hs : s.greenPrev = true ∧ s.redPrev = true)
    (hidle : ∀ i ∈ idle, i.green = true ∧ i.red = true)
    (hpress : press.green = false ∧ press.red = true)
    (hhold : ∀ i ∈ hold, i.green = false ∧ i.red = true)
    (hrel : release.green = true ∧ release.red = true) :
    (polls p s (idle ++ (press :: hold ++ [release]))).2.map Prod.fst
        = List.replicate (idle.length + (1 + hold.length)) 0 ++ [GREEN_PRESS] ∧
      (polls p s (idle ++ (press :: hold ++ [release]))).2.getLast?.map Prod.snd
        = some (msSub p release.now press.now2) ∧
      (∀ (s1 : Buttons) (i : Sample), i.green = s1.greenPrev → i.red = s1.redPrev →
        (handleButtons p s1 i).1 = 0) := by
  obtain ⟨hi1, hi2⟩ := polls_idle p s idle hs hidle
  obtain ⟨h1, h2⟩ := polls_press_hold_release p s press hold release hs.1 hpress.1
    (fun i hi => (hhold i hi).1) hrel.1
  have hany : (hold.any fun i => !i.red) = false := by
    rw [List.any_eq_false]
    intro i hi
    simp [(hhold i hi).2]
  rw [hany] at h1
  refine ⟨?_, ?_, fun s1 i => handleButtons_no_change p s1 i⟩
  · rw [polls_append, hi1]
    simp only [List.map_append, hi2, h1, List.replicate_add, List.append_assoc]
    rfl
  · rw [polls_append, hi1]
    have hne : (polls p s (press :: hold ++ [release])).2 ≠ [] := by
      rw [List.cons_append, polls_cons]; simp
    simp only [List.getLast?_append_of_ne_nil _ hne]
    exact h2

/-- Two idle polls, green pressed at 30, held, released at 12060. -/
theorem solitary_green_press_witness :
    (polls Platform.demo Buttons.reset
        ([⟨true, true, 10, 10⟩, ⟨true, true, 20, 20⟩]
          ++ ((⟨false, true, 30, 30⟩ : Sample) :: [⟨false, true, 40, 40⟩, ⟨false, true, 50, 50⟩]
            ++ [⟨true, true, 12060, 12060⟩]))).2.map Prod.fst
        = List.replicate (2 + (1 + 2)) 0 ++ [GREEN_PRESS] ∧
      (polls Platform.demo Buttons.reset
        ([⟨true, true, 10, 10⟩, ⟨true, true, 20, 20⟩]
          ++ ((⟨false, true, 30, 30⟩ : Sample) :: [⟨false, true, 40, 40⟩, ⟨false, true, 50, 50⟩]
            ++ [⟨true, true, 12060, 12060⟩]))).2.getLast?.map Prod.snd
        = some (msSub Platform.demo 12060 30) ∧
      (∀ (s1 : Buttons) (i : Sample), i.green = s1.greenPrev → i.red = s1.redPrev →
        (handleButtons Platform.demo s1 i).1 = 0) :=
  solitary_green_press Platform.demo Buttons.reset
    [⟨true, true, 10, 10⟩, ⟨true, true, 20, 20⟩] ⟨false, true, 30, 30⟩
    [⟨false, true, 40, 40⟩, ⟨false, true, 50, 50⟩] ⟨true, true, 12060, 12060⟩
    (by decide) (by decide) (by decide) (by decide) (by decide)

/-- C9: For every poll sequence in which green goes from released to pressed,
is held over any number of polls and is then released, every poll before the
release returns 0 and the poll that sees the release returns `BOTH_PRESS` if
red was sampled pressed on at least one poll of the hold (green pressed on the
previous and the current sample) and `GREEN_PRESS` otherwise; in both cases
`*time` is the clock read at that poll minus the clock stored at green's rising
edge, modulo the `ms_t` width. -/
theorem combined_press_on_green_release (p : Platform) (s : Buttons) (press : Sample)
    (hold : List Sample) (release : Sample) (hs : s.greenPrev = true)
    (hp : press.green = false) (hh : ∀ i ∈ hold, i.green = false) (hr : release.green = true) :
    (polls p s (press :: hold ++ [release])).2.map Prod.fst
        = List.replicate (1 + hold.length) 0
          ++ [if (hold.any fun i => !i.red) then BOTH_PRESS else GREEN_PRESS] ∧
      (polls p s (press :: hold ++ [release])).2.getLast?.map Prod.snd
        = some (msSub p release.now press.now2) ∧
      (polls p s (press :: hold)).1.start = press.now2 := by
  obtain ⟨h1, h2⟩ := polls_press_hold_release p s press hold release hs hp hh hr
  refine ⟨h1, h2, ?_⟩
  rw [polls_cons, handleButtons_green_press p s press hs hp]
  exact (polls_hold p _ hold rfl hh).2.1

/-- Green pressed at 101, red also pressed during the hold, green released at 31500. -/
theorem combined_press_on_green_release_witness :
    (polls Platform.demo Buttons.reset
        ((⟨false, true, 100, 101⟩ : Sample)
          :: [⟨false, true, 200, 200⟩, ⟨false, false, 300, 300⟩, ⟨false, true, 400, 400⟩]
          ++ [⟨true, true, 31500, 31500⟩])).2.map Prod.fst
        = List.replicate (1 + 3) 0
          ++ [if (([⟨false, true, 200, 200⟩, ⟨false, false, 300, 300⟩, ⟨false, true, 400, 400⟩]
                : List Sample).any fun i => !i.red) then BOTH_PRESS else GREEN_PRESS] ∧
      (polls Platform.demo Buttons.reset
        ((⟨false, true, 100, 101⟩ : Sample)
          :: [⟨false, true, 200, 200⟩, ⟨false, false, 300, 300⟩, ⟨false, true, 400, 400⟩]
          ++ [⟨true, true, 31500, 31500⟩])).2.getLast?.map Prod.snd
        = some (msSub Platform.demo 31500 101) ∧
      (polls Platform.demo Buttons.reset
        ((⟨false, true, 100, 101⟩ : Sample)
          :: [⟨false, true, 200, 200⟩, ⟨false, false, 300, 300⟩, ⟨false, true, 400, 400⟩])).1.start
        = 101 :=
  combined_press_on_green_release Platform.demo Buttons.reset ⟨false, true, 100, 101⟩
    [⟨false, true, 200, 200⟩, ⟨false, false, 300, 300⟩, ⟨false, true, 400, 400⟩]
    ⟨true, true, 31500, 31500⟩ (by decide) (by decide) (by decide) (by decide)

/-- C10 fails on the code: whenever green is sampled pressed, `handleButtons`
returns 0 whatever the red button does, because one of the two green branches
of the `else if` chain is taken first. With both buttons held since time 100,
the poll at 300 that sees red released while green is still held returns 0, not
`BOTH_PRESS`; the combined press is only reported at 500 when green is released.
A red release on the same poll as a green release is reported by the green
branch, here as `GREEN_PRESS`, not `RED_PRESS`. -/
theorem red_release_with_green_held_is_silent :
    (∀ (p : Platform) (s : Buttons) (red : Bool) (now now2 : Nat),
      (handleButtons p s ⟨false, red, now, now2⟩).1 = 0) ∧
    (handleButtons Platform.demo
      { greenPrev := false, redPrev := false, start := 100, bothPressed := true }
      ⟨false, true, 300, 300⟩).1 = 0 ∧
    (polls Platform.demo Buttons.reset
      [⟨true, true, 0, 0⟩, ⟨false, false, 100, 100⟩, ⟨false, false, 200, 200⟩,
        ⟨false, true, 300, 300⟩, ⟨false, true, 400, 400⟩, ⟨true, true, 500, 500⟩]).2
      = [(0, 0), (0, 100), (0, 100), (0, 200), (0, 300), (BOTH_PRESS, 400)] ∧
    (handleButtons Platform.demo
      { greenPrev := false, redPrev := false, start := 100, bothPressed := false }
      ⟨true, true, 300, 300⟩).1 = GREEN_PRESS := by
  refine ⟨?_, by decide, by decide, by decide⟩
  intro p s red now now2
  unfold handleButtons
  cases s.greenPrev <;> simp

/-! ### C19: clock tick count -/

theorem isr_timer (p : Platform) (m : Machine) (h : (m.TMR1IF && m.TMR1IE) = true) :
    isr p m = some { m with
      TMR1H := p.TMR1_H_PRES
      TMR1L := p.TMR1_L_PRES
      TMR1IF := false
      millisValue := (m.millisValue + 1) % 2 ^ p.msBits } := by
  simp [isr, h]

theorem serviceAll_ticks (p : Platform) (n : Nat) (m : Machine) (hie : m.TMR1IE = true) :
    ∃ m1, serviceAll p (List.replicate n Irq.timer) m = some m1 ∧
      (0 < n → millis m1 = (millis m + n) % 2 ^ p.msBits) ∧ (n = 0 → m1 = m) ∧
      m1.rxBuffer = m.rxBuffer ∧ m1.tx = m.tx ∧ m1.TMR1IE = true ∧
      m1.RCIF = m.RCIF := by
  induction n generalizing m with
  | zero => exact ⟨m, rfl, by simp, fun _ => rfl, rfl, rfl, hie, rfl⟩
  | succ n ih =>
    have h1 : service p Irq.timer m = some { m with
        TMR1H := p.TMR1_H_PRES
        TMR1L := p.TMR1_L_PRES
        TMR1IF := false
        millisValue := (m.millisValue + 1) % 2 ^ p.msBits } := by
      simp [service, raise, isr, hie]
    obtain ⟨m2, h2, h3, h4, h5, h6, h7, h8⟩ := ih _ (show ({ m with
        TMR1H := p.TMR1_H_PRES
        TMR1L := p.TMR1_L_PRES
        TMR1IF := false
        millisValue := (m.millisValue + 1) % 2 ^ p.msBits } : Machine).TMR1IE = true from hie)
    refine ⟨m2, by simp [List.replicate_succ, serviceAll, h1, h2], ?_, by simp, h5, h6, h7, h8⟩
    intro _
    cases n with
    | zero =>
      rw [h4 rfl]
      rfl
    | succ k =>
      rw [h3 (Nat.succ_pos k)]
      show ((m.millisValue + 1) % 2 ^ p.msBits + (k + 1)) % 2 ^ p.msBits
        = (m.millisValue + (k + 1 + 1)) % 2 ^ p.msBits
      rw [Nat.add_mod, Nat.mod_mod, ← Nat.add_mod]
      congr 1
      omega

/-- C19: For every `ms_t` counter value and every `N`, after `N` timer
interrupts (the overflow flag raised, the enable bit set, `isr` run) `millis()`
returns the initial value plus `N` modulo `2^msBits`, and the receive buffer is
as before. An `isr` run with the timer flag set and enabled increments the
counter and leaves the receive buffer unchanged; an `isr` run that takes the
receive branch leaves `millis()` unchanged. -/
theorem clock_tick_count (p : Platform) (m : Machine) (n : Nat) (hie : m.TMR1IE = true)
    (hlt : m.millisValue < 2 ^ p.msBits) :
    (∃ m1, serviceAll p (List.replicate n Irq.timer) m = some m1 ∧
      millis m1 = (millis m + n) % 2 ^ p.msBits ∧ m1.rxBuffer = m.rxBuffer) ∧
    (∀ m0 : Machine, (m0.TMR1IF && m0.TMR1IE) = true →
      ∃ m1, isr p m0 = some m1 ∧ millis m1 = (millis m0 + 1) % 2 ^ p.msBits ∧
        m1.rxBuffer = m0.rxBuffer) ∧
    (∀ m0 m1 : Machine, (m0.TMR1IF && m0.TMR1IE) = false → m0.RCIF = true →
      isr p m0 = some m1 → millis m1 = millis m0) := by
  refine ⟨?_, ?_, ?_⟩
  · obtain ⟨m1, h1, h2, h3, h4, _⟩ := serviceAll_ticks p n m hie
    refine ⟨m1, h1, ?_, h4⟩
    cases n with
    | zero =>
      rw [h3 rfl]
      exact (Nat.mod_eq_of_lt hlt).symm
    | succ k => exact h2 (Nat.succ_pos k)
  · intro m0 h0
    exact ⟨_, isr_timer p m0 h0, rfl, rfl⟩
  · intro m0 m1 h0 hrc hi
    simp only [isr, h0, hrc, Bool.false_eq_true, if_false, if_true] at hi
    split at hi
    · cases hi; rfl
    · cases hi

/-- A clock at `2^32 - 3` wraps to 2 after five ticks. -/
theorem clock_tick_count_witness :
    (∃ m1, serviceAll Platform.demo (List.replicate 5 Irq.timer)
        { Machine.demo with millisValue := 4294967293 } = some m1 ∧
      millis m1 = (millis { Machine.demo with millisValue := 4294967293 } + 5)
        % 2 ^ Platform.demo.msBits ∧
      m1.rxBuffer = ({ Machine.demo with millisValue := 4294967293 } : Machine).rxBuffer) ∧
    (∀ m0 : Machine, (m0.TMR1IF && m0.TMR1IE) = true →
      ∃ m1, isr Platform.demo m0 = some m1 ∧
        millis m1 = (millis m0 + 1) % 2 ^ Platform.demo.msBits ∧
        m1.rxBuffer = m0.rxBuffer) ∧
    (∀ m0 m1 : Machine, (m0.TMR1IF && m0.TMR1IE) = false → m0.RCIF = true →
      isr Platform.demo m0 = some m1 → millis m1 = millis m0) :=
  clock_tick_count Platform.demo { Machine.demo with millisValue := 4294967293 } 5
    (by decide) (by decide)

/-! ### C13: status report encoding -/

/-- C13: `printStatus` appends exactly thirteen bytes to what has been
transmitted: `'A'`, `'M'`, the mode byte, `'L'`, the low and high byte of
`light`, `'P'`, the low and high byte of the flap position (of 0 when `FLAP_POT`
is not defined), `'S'`, the low and high byte of `buildStatusBits()`, `'\n'`.
For mode Normal (0), light 300, the flap feature disabled and only the inbound
latch locked these are `41 4D 00 4C 2C 01 50 00 00 53 01 00 0A`. -/
theorem printStatus_bytes (p : Platform) (g : Globals) (m : Machine) :
    (printStatus p g m).tx = m.tx ++
      [0x41, 0x4D, g.opMode % 256, 0x4C, g.light % 256, g.light / 256 % 256, 0x50,
        (if p.FLAP_POT then g.flapPos else 0) % 256,
        (if p.FLAP_POT then g.flapPos else 0) / 256 % 256,
        0x53, buildStatusBits p g % 256, buildStatusBits p g / 256 % 256, 0x0A] ∧
    (printStatus p g m).rxBuffer = m.rxBuffer ∧
    (printStatus Platform.noFlap
      { Globals.reset with opMode := MODE_NORMAL, light := 300, inLocked := true,
                           outLocked := false } Machine.demo).tx
      = [0x41, 0x4D, 0x00, 0x4C, 0x2C, 0x01, 0x50, 0x00, 0x00, 0x53, 0x01, 0x00, 0x0A] := by
  refine ⟨?_, ?_, by decide⟩
  · cases hf : p.FLAP_POT <;>
      simp [printStatus, putShort, putch, hf, and_ff, Nat.shiftRight_eq_div_pow]
  · cases hf : p.FLAP_POT <;> simp [printStatus, putShort, putch, hf]

/-! ### C11, C12: button durations -/

theorem switchMode_opMode {σ : Type} (L : Latches σ) (mode : Nat) (g : Globals) (h : σ)
    (hm : mode ≤ MODE_OPEN) : (switchMode L mode g h).1.opMode = mode := by
  simp only [ MODE_OPEN] at hm
  unfold switchMode
  split
  · rfl
  · split
    · rfl
    · split
      · rfl
      · rename_i h1 h2 h3
        simp only [ MODE_NIGHT, MODE_NORMAL, MODE_LEARN, MODE_CLEAR, MODE_VET, MODE_CLOSED,
          MODE_OPEN] at h1 h2 h3
        omega

theorem handleButtons_red_press (p : Platform) (s : Buttons) (i : Sample)
    (hs : s.greenPrev = true ∧ s.redPrev = true) (hi : i.green = true ∧ i.red = false) :
    handleButtons p s i = (0, msSub p i.now s.start,
      { greenPrev := true, redPrev := false, start := i.now2, bothPressed := false }) := by
  simp [handleButtons, hs.1, hs.2, hi.1, hi.2]

theorem handleButtons_red_hold (p : Platform) (s : Buttons) (i : Sample)
    (hs : s.greenPrev = true ∧ s.redPrev = false) (hi : i.green = true ∧ i.red = false) :
    handleButtons p s i = (0, msSub p i.now s.start,
      { greenPrev := true, redPrev := false, start := s.start,
        bothPressed := s.bothPressed }) := by
  simp [handleButtons, hs.1, hs.2, hi.1, hi.2]

theorem handleButtons_red_release (p : Platform) (s : Buttons) (i : Sample)
    (hs : s.greenPrev = true ∧ s.redPrev = false) (hi : i.green = true ∧ i.red = true) :
    handleButtons p s i = (RED_PRESS, msSub p i.now s.start,
      { greenPrev := true, redPrev := true, start := s.start,
        bothPressed := s.bothPressed }) := by
  simp [handleButtons, hs.1, hs.2, hi.1, hi.2]

theorem dispatchButtons_none {σ : Type} (L : Latches σ) (d : Nat) (g : Globals) (h : σ) :
    dispatchButtons L 0 d g h = (g, h) := by
  simp [dispatchButtons]

theorem buttonSteps_append {σ : Type} (p : Platform) (L : Latches σ)
    (s : Buttons × Globals × σ) (a b : List Sample) :
    buttonSteps p L s (a ++ b) = buttonSteps p L (buttonSteps p L s a) b := by
  induction a generalizing s with
  | nil => rfl
  | cons i a ih => exact ih (buttonStep p L s i)

theorem buttonSteps_red_hold {σ : Type} (p : Platform) (L : Latches σ) (b : Buttons)
    (g : Globals) (h : σ) (hold : List Sample)
    (hb : b.greenPrev = true ∧ b.redPrev = false)
    (hh : ∀ i ∈ hold, i.green = true ∧ i.red = false) :
    ∃ b1 : Buttons, buttonSteps p L (b, g, h) hold = (b1, g, h) ∧
      b1.greenPrev = true ∧ b1.redPrev = false ∧ b1.start = b.start := by
  induction hold generalizing b with
  | nil => exact ⟨b, rfl, hb.1, hb.2, rfl⟩
  | cons i hold ih =>
    have h1 := handleButtons_red_hold p b i hb (hh i (by simp))
    obtain ⟨b1, h2, h3, h4, h5⟩ := ih
      { greenPrev := true, redPrev := false, start := b.start, bothPressed := b.bothPressed }
      ⟨rfl, rfl⟩ (fun j hj => hh j (by simp [hj]))
    refine ⟨b1, ?_, h3, h4, h5⟩
    simp only [buttonSteps, buttonStep, h1, dispatchButtons_none]
    exact h2

theorem buttonSteps_red_press {σ : Type} (p : Platform) (L : Latches σ) (b : Buttons)
    (g : Globals) (h : σ) (press : Sample) (hold : List Sample) (release : Sample)
    (hb : b.greenPrev = true ∧ b.redPrev = true)
    (hp : press.green = true ∧ press.red = false)
    (hh : ∀ i ∈ hold, i.green = true ∧ i.red = false)
    (hr : release.green = true ∧ release.red = true) :
    ∃ b1 : Buttons, buttonSteps p L (b, g, h) (press :: hold ++ [release])
        = (b1, dispatchButtons L RED_PRESS (msSub p release.now press.now2) g h) ∧
      b1.greenPrev = true ∧ b1.redPrev = true := by
  have h1 := handleButtons_red_press p b press hb hp
  obtain ⟨b1, h2, h3, h4, h5⟩ := buttonSteps_red_hold p L
    { greenPrev := true, redPrev := false, start := press.now2, bothPressed := false }
    g h hold ⟨rfl, rfl⟩ hh
  have h6 := handleButtons_red_release p b1 release ⟨h3, h4⟩ hr
  refine ⟨{ greenPrev := true, redPrev := true, start := b1.start,
            bothPressed := b1.bothPressed }, ?_, rfl, rfl⟩
  rw [List.cons_append]
  simp only [buttonSteps, buttonStep, h1, dispatchButtons_none]
  rw [buttonSteps_append, h2]
  simp only [buttonSteps, buttonStep, h6, h5]

/-- C11: When `handleButtons` reports `RED_PRESS` with duration `d`, the
dispatch calls `switchMode` so that for `d > 5000` the mode becomes Normal if it
was Vet and Vet if it was Normal, and for `d < 2000` the mode becomes Normal if
it was Night and Night if it was Normal. Consequently, from Normal with both
buttons released, two successive solitary red presses of more than 5000 ms
(6000 ms in particular) give Vet then Normal, and two of less than 2000 ms
(1500 ms in particular) give Night then Normal. -/
theorem red_press_duration_mapping {σ : Type} (p : Platform) (L : Latches σ) (g : Globals)
    (h : σ) (d : Nat) :
    (5000 < d → g.opMode = MODE_VET →
      dispatchButtons L RED_PRESS d g h = switchMode L MODE_NORMAL g h ∧
      (dispatchButtons L RED_PRESS d g h).1.opMode = MODE_NORMAL) ∧
    (5000 < d → g.opMode = MODE_NORMAL →
      dispatchButtons L RED_PRESS d g h = switchMode L MODE_VET g h ∧
      (dispatchButtons L RED_PRESS d g h).1.opMode = MODE_VET) ∧
    (d < 2000 → g.opMode = MODE_NIGHT →
      dispatchButtons L RED_PRESS d g h = switchMode L MODE_NORMAL g h ∧
      (dispatchButtons L RED_PRESS d g h).1.opMode = MODE_NORMAL) ∧
    (d < 2000 → g.opMode = MODE_NORMAL →
      dispatchButtons L RED_PRESS d g h = switchMode L MODE_NIGHT g h ∧
      (dispatchButtons L RED_PRESS d g h).1.opMode = MODE_NIGHT) ∧
    (∀ (b : Buttons) (press1 release1 press2 release2 : Sample) (hold1 hold2 : List Sample),
      b.greenPrev = true ∧ b.redPrev = true → g.opMode = MODE_NORMAL →
      press1.green = true ∧ press1.red = false →
      (∀ i ∈ hold1, i.green = true ∧ i.red = false) →
      release1.green = true ∧ release1.red = true →
      press2.green = true ∧ press2.red = false →
      (∀ i ∈ hold2, i.green = true ∧ i.red = false) →
      release2.green = true ∧ release2.red = true →
      (5000 < msSub p release1.now press1.now2 ∧ 5000 < msSub p release2.now press2.now2 →
        (buttonSteps p L (b, g, h) (press1 :: hold1 ++ [release1])).2.1.opMode = MODE_VET ∧
        (buttonSteps p L (buttonSteps p L (b, g, h) (press1 :: hold1 ++ [release1]))
          (press2 :: hold2 ++ [release2])).2.1.opMode = MODE_NORMAL) ∧
      (msSub p release1.now press1.now2 < 2000 ∧ msSub p release2.now press2.now2 < 2000 →
        (buttonSteps p L (b, g, h) (press1 :: hold1 ++ [release1])).2.1.opMode = MODE_NIGHT ∧
        (buttonSteps p L (buttonSteps p L (b, g, h) (press1 :: hold1 ++ [release1]))
          (press2 :: hold2 ++ [release2])).2.1.opMode = MODE_NORMAL)) := by
  have hA : 5000 < d → g.opMode = MODE_VET →
      dispatchButtons L RED_PRESS d g h = switchMode L MODE_NORMAL g h ∧
      (dispatchButtons L RED_PRESS d g h).1.opMode = MODE_NORMAL := by
    intro hd hm
    have he : dispatchButtons L RED_PRESS d g h = switchMode L MODE_NORMAL g h := by
      simp [dispatchButtons, hd, hm]
    exact ⟨he, by rw [he]; exact switchMode_opMode L _ g h (by decide)⟩
  have hB : ∀ g : Globals, ∀ h : σ, ∀ d, 5000 < d → g.opMode = MODE_NORMAL →
      dispatchButtons L RED_PRESS d g h = switchMode L MODE_VET g h ∧
      (dispatchButtons L RED_PRESS d g h).1.opMode = MODE_VET := by
    intro g h d hd hm
    have he : dispatchButtons L RED_PRESS d g h = switchMode L MODE_VET g h := by
      simp [dispatchButtons, hd, hm]
    exact ⟨he, by rw [he]; exact switchMode_opMode L _ g h (by decide)⟩
  have hA' : ∀ g : Globals, ∀ h : σ, ∀ d, 5000 < d → g.opMode = MODE_VET →
      (dispatchButtons L RED_PRESS d g h).1.opMode = MODE_NORMAL := by
    intro g h d hd hm
    have he : dispatchButtons L RED_PRESS d g h = switchMode L MODE_NORMAL g h := by
      simp [dispatchButtons, hd, hm]
    rw [he]; exact switchMode_opMode L _ g h (by decide)
  have hC : ∀ g : Globals, ∀ h : σ, ∀ d, d < 2000 → g.opMode = MODE_NIGHT →
      dispatchButtons L RED_PRESS d g h = switchMode L MODE_NORMAL g h ∧
      (dispatchButtons L RED_PRESS d g h).1.opMode = MODE_NORMAL := by
    intro g h d hd hm
    have hd' : ¬ 5000 < d := by omega
    have he : dispatchButtons L RED_PRESS d g h = switchMode L MODE_NORMAL g h := by
      simp [dispatchButtons, hd, hd', hm]
    exact ⟨he, by rw [he]; exact switchMode_opMode L _ g h (by decide)⟩
  have hD : ∀ g : Globals, ∀ h : σ, ∀ d, d < 2000 → g.opMode = MODE_NORMAL →
      dispatchButtons L RED_PRESS d g h = switchMode L MODE_NIGHT g h ∧
      (dispatchButtons L RED_PRESS d g h).1.opMode = MODE_NIGHT := by
    intro g h d hd hm
    have hd' : ¬ 5000 < d := by omega
    have he : dispatchButtons L RED_PRESS d g h = switchMode L MODE_NIGHT g h := by
      simp [dispatchButtons, hd, hd', hm]
    exact ⟨he, by rw [he]; exact switchMode_opMode L _ g h (by decide)⟩
  refine ⟨hA, hB g h d, hC g h d, hD g h d, ?_⟩
  intro b press1 release1 press2 release2 hold1 hold2 hb hm hp1 hh1 hr1 hp2 hh2 hr2
  obtain ⟨b1, e1, hb1⟩ := buttonSteps_red_press p L b g h press1 hold1 release1 hb hp1 hh1 hr1
  rw [e1]
  obtain ⟨b2, e2, _⟩ := buttonSteps_red_press p L b1
    (dispatchButtons L RED_PRESS (msSub p release1.now press1.now2) g h).1
    (dispatchButtons L RED_PRESS (msSub p release1.now press1.now2) g h).2
    press2 hold2 release2 hb1 hp2 hh2 hr2
  rw [e2]
  constructor
  · intro hd
    have h1 := (hB g h _ hd.1 hm).2
    exact ⟨h1, hA' _ _ _ hd.2 h1⟩
  · intro hd
    have h1 := (hD g h _ hd.1 hm).2
    exact ⟨h1, (hC _ _ _ hd.2 h1).2⟩

/-- Red held from 1000 to 7000 and again from 10000 to 16000 gives Vet then
Normal; held from 1000 to 2500 and again from 10000 to 11500 gives Night then
Normal. -/
theorem red_press_duration_mapping_witness :
    ((buttonSteps Platform.demo Latches.ideal (Buttons.reset, Globals.reset, (false, true))
        ((⟨true, false, 1000, 1000⟩ : Sample) :: [⟨true, false, 3000, 3000⟩]
          ++ [⟨true, true, 7000, 7000⟩])).2.1.opMode = MODE_VET ∧
      (buttonSteps Platform.demo Latches.ideal
        (buttonSteps Platform.demo Latches.ideal (Buttons.reset, Globals.reset, (false, true))
          ((⟨true, false, 1000, 1000⟩ : Sample) :: [⟨true, false, 3000, 3000⟩]
            ++ [⟨true, true, 7000, 7000⟩]))
        ((⟨true, false, 10000, 10000⟩ : Sample) :: [] ++ [⟨true, true, 16000, 16000⟩])).2.1.opMode
        = MODE_NORMAL) ∧
    ((buttonSteps Platform.demo Latches.ideal (Buttons.reset, Globals.reset, (false, true))
        ((⟨true, false, 1000, 1000⟩ : Sample) :: [⟨true, false, 2000, 2000⟩]
          ++ [⟨true, true, 2500, 2500⟩])).2.1.opMode = MODE_NIGHT ∧
      (buttonSteps Platform.demo Latches.ideal
        (buttonSteps Platform.demo Latches.ideal (Buttons.reset, Globals.reset, (false, true))
          ((⟨true, false, 1000, 1000⟩ : Sample) :: [⟨true, false, 2000, 2000⟩]
            ++ [⟨true, true, 2500, 2500⟩]))
        ((⟨true, false, 10000, 10000⟩ : Sample) :: [] ++ [⟨true, true, 11500, 11500⟩])).2.1.opMode
        = MODE_NORMAL) :=
  ⟨((red_press_duration_mapping Platform.demo Latches.ideal Globals.reset (false, true)
        6000).2.2.2.2 Buttons.reset ⟨true, false, 1000, 1000⟩ ⟨true, true, 7000, 7000⟩
        ⟨true, false, 10000, 10000⟩ ⟨true, true, 16000, 16000⟩ [⟨true, false, 3000, 3000⟩] []
        (by decide) (by decide) (by decide) (by decide) (by decide) (by decide) (by decide)
        (by decide)).1 (by decide),
    ((red_press_duration_mapping Platform.demo Latches.ideal Globals.reset (false, true)
        1500).2.2.2.2 Buttons.reset ⟨true, false, 1000, 1000⟩ ⟨true, true, 2500, 2500⟩
        ⟨true, false, 10000, 10000⟩ ⟨true, true, 11500, 11500⟩ [⟨true, false, 2000, 2000⟩] []
        (by decide) (by decide) (by decide) (by decide) (by decide) (by decide) (by decide)
        (by decide)).2 (by decide)⟩

/-- C12: For a button event and duration outside the action thresholds
(`GREEN_PRESS` with `d <= 10000`, `RED_PRESS` with `2000 <= d <= 5000`,
`BOTH_PRESS` with `d <= 30000`, or no event) the dispatch returns the globals
and the latch hardware exactly as they were, whatever the actuators are, so no
`switchMode` call is made. `GREEN_PRESS` with `d > 10000` is `switchMode(MODE_LEARN)`
and leaves `opMode` at Learn; `BOTH_PRESS` with `d > 30000` is
`switchMode(MODE_CLEAR)` and leaves `opMode` at Clear. -/
theorem ignored_durations_change_nothing {σ : Type} (L : Latches σ) (ev d : Nat)
    (g : Globals) (h : σ) :
    (ev = GREEN_PRESS → d ≤ 10000 → dispatchButtons L ev d g h = (g, h)) ∧
    (ev = RED_PRESS → 2000 ≤ d → d ≤ 5000 → dispatchButtons L ev d g h = (g, h)) ∧
    (ev = BOTH_PRESS → d ≤ 30000 → dispatchButtons L ev d g h = (g, h)) ∧
    (ev = 0 → dispatchButtons L ev d g h = (g, h)) ∧
    (ev = GREEN_PRESS → 10000 < d →
      dispatchButtons L ev d g h = switchMode L MODE_LEARN g h ∧
      (dispatchButtons L ev d g h).1.opMode = MODE_LEARN) ∧
    (ev = BOTH_PRESS → 30000 < d →
      dispatchButtons L ev d g h = switchMode L MODE_CLEAR g h ∧
      (dispatchButtons L ev d g h).1.opMode = MODE_CLEAR) := by
  refine ⟨?_, ?_, ?_, ?_, ?_, ?_⟩
  · intro he hd
    subst he
    have : ¬ 10000 < d := by omega
    simp [dispatchButtons, this]
  · intro he h1 h2
    subst he
    have h3 : ¬ 5000 < d := by omega
    have h4 : ¬ d < 2000 := by omega
    simp [dispatchButtons, h3, h4]
  · intro he hd
    subst he
    have : ¬ 30000 < d := by omega
    simp [dispatchButtons, this]
  · intro he
    subst he
    exact dispatchButtons_none L d g h
  · intro he hd
    subst he
    have e : dispatchButtons L GREEN_PRESS d g h = switchMode L MODE_LEARN g h := by
      simp [dispatchButtons, hd]
    exact ⟨e, by rw [e]; exact switchMode_opMode L _ g h (by decide)⟩
  · intro he hd
    subst he
    have e : dispatchButtons L BOTH_PRESS d g h = switchMode L MODE_CLEAR g h := by
      simp [dispatchButtons, hd]
    exact ⟨e, by rw [e]; exact switchMode_opMode L _ g h (by decide)⟩

/-- A 5000 ms red press on jammed latches in Vet changes nothing; a 10001 ms
green press enters Learn and a 30001 ms combined press enters Clear. -/
theorem ignored_durations_change_nothing_witness :
    dispatchButtons Latches.jammed RED_PRESS 5000 { Globals.reset with opMode := MODE_VET }
        (true, false)
      = ({ Globals.reset with opMode := MODE_VET }, (true, false)) ∧
    (dispatchButtons Latches.ideal GREEN_PRESS 10001 Globals.reset (false, true)
        = switchMode Latches.ideal MODE_LEARN Globals.reset (false, true) ∧
      (dispatchButtons Latches.ideal GREEN_PRESS 10001 Globals.reset (false, true)).1.opMode
        = MODE_LEARN) ∧
    (dispatchButtons Latches.ideal BOTH_PRESS 30001 Globals.reset (false, true)
        = switchMode Latches.ideal MODE_CLEAR Globals.reset (false, true) ∧
      (dispatchButtons Latches.ideal BOTH_PRESS 30001 Globals.reset (false, true)).1.opMode
        = MODE_CLEAR) :=
  ⟨(ignored_durations_change_nothing Latches.jammed RED_PRESS 5000
      { Globals.reset with opMode := MODE_VET } (true, false)).2.1 rfl (by decide) (by decide),
    (ignored_durations_change_nothing Latches.ideal GREEN_PRESS 10001 Globals.reset
      (false, true)).2.2.2.2.1 rfl (by decide),
    (ignored_durations_change_nothing Latches.ideal BOTH_PRESS 30001 Globals.reset
      (false, true)).2.2.2.2.2 rfl (by decide)⟩

/-! ### C18: night-mode hysteresis -/

theorem u16sub_of_le {a b : Nat} (ha : a < 65536) (hb : b ≤ a) : u16sub a b = a - b := by
  unfold u16sub
  have : b % 65536 = b := Nat.mod_eq_of_lt (by omega)
  rw [this]
  omega

theorem u16sub_of_lt {a b : Nat} (hb : b < 65536) (hab : a < b) :
    u16sub a b = a + 65536 - b := by
  unfold u16sub
  have : b % 65536 = b := Nat.mod_eq_of_lt hb
  rw [this]
  omega

/-- With a threshold of at least 5 the deadband works: after one tick with
latches that succeed, a second tick at the same light level changes nothing. -/
theorem nightTick_stable {σ : Type} (L : Latches σ) (g : Globals) (h : σ)
    (hr : ∀ b s, (L.lockRedLatch b s).1 = b) (ht : g.lightThd < 65536)
    (h5 : 5 ≤ g.lightThd) :
    (nightTick L (nightTick L g h).1 (nightTick L g h).2).1.outLocked
      = (nightTick L g h).1.outLocked := by
  have hs := u16sub_of_le ht h5
  unfold nightTick
  rw [hs]
  by_cases h1 : g.light > g.lightThd <;> by_cases h2 : g.light < g.lightThd - 5 <;>
    cases ho : g.outLocked <;> simp [h1, h2, ho, hr, hs] <;> omega

/-- C18 fails on the code for thresholds below 5. The subtraction `lightThd-5`
is done in 16-bit unsigned arithmetic and wraps to `65531 + lightThd`. With
`lightThd = 0` and a constant `light = 300`, on latches that succeed, the first
Night-mode tick locks the outbound latch, the second unlocks it although the
light is above the threshold, the third locks it again. For every threshold
below 5 and every light level above it and below the wrapped bound, each tick
inverts `outLocked`. -/
theorem night_tick_chatters_below_five :
    (nightTick Latches.ideal { Globals.reset with light := 300, lightThd := 0 }
        (false, true)).1.outLocked = true ∧
    (nightTick Latches.ideal
        { Globals.reset with light := 300, lightThd := 0, outLocked := true }
        (true, true)).1.outLocked = false ∧
    (∀ (g : Globals) (s : Bool × Bool), g.lightThd < 5 → g.lightThd < g.light →
      g.light < 65531 + g.lightThd →
      (nightTick Latches.ideal g s).1.outLocked = !g.outLocked) := by
  refine ⟨by decide, by decide, ?_⟩
  intro g s h5 h1 h2
  have hs : u16sub g.lightThd 5 = g.lightThd + 65536 - 5 := u16sub_of_lt (by decide) h5
  have h3 : g.light < g.lightThd + 65536 - 5 := by omega
  have h4 : g.light < g.lightThd + 65531 := by omega
  unfold nightTick
  rw [hs]
  cases ho : g.outLocked <;> simp [h1, h3, h4, ho, Latches.ideal]

/-! ### C20: flap classification -/

theorem u16add_of_lt {a b : Nat} (h : a + b < 65536) : u16add a b = a + b :=
  Nat.mod_eq_of_lt h

/-- When `idle + tolerance` and `idle - tolerance` do not leave the 16-bit
range and the two flags are not both set, the flap step classifies against the
mathematical `idle ± tolerance` and reports exactly on a change of
classification. -/
theorem flapStep_classifies (p : Platform) (pos : Nat) (g : Globals) (m : Machine)
    (hp : pos < 65536) (hadd : g.flapPosIdle + g.flapPosTol < 65536)
    (hsub : g.flapPosTol ≤ g.flapPosIdle)
    (hinv : ¬(g.flapInner = true ∧ g.flapOuter = true)) :
    ((flapStep p pos g m).1.flapInner = true ↔ g.flapPosIdle + g.flapPosTol < pos) ∧
    ((flapStep p pos g m).1.flapOuter = true ↔ pos + g.flapPosTol < g.flapPosIdle) ∧
    ((flapStep p pos g m).2.2 = true ↔
      ((flapStep p pos g m).1.flapInner, (flapStep p pos g m).1.flapOuter)
        ≠ (g.flapInner, g.flapOuter)) ∧
    (flapStep p pos g m).2.1
      = (if (flapStep p pos g m).2.2 then printStatus p (flapStep p pos g m).1 m else m) := by
  have h1 := u16add_of_lt hadd
  have h2 := u16sub_of_le (by omega : g.flapPosIdle < 65536) hsub
  have h3 : pos % 65536 = pos := Nat.mod_eq_of_lt hp
  unfold flapStep
  simp only [h1, h2, h3]
  by_cases c1 : pos > g.flapPosIdle + g.flapPosTol
  · have c2 : ¬ pos + g.flapPosTol < g.flapPosIdle := by omega
    simp only [c1, if_true]
    cases hi : g.flapInner <;> cases ho : g.flapOuter <;> simp_all
  · by_cases c2 : pos < g.flapPosIdle - g.flapPosTol
    · have c2' : pos + g.flapPosTol < g.flapPosIdle := by omega
      have c1' : ¬ g.flapPosIdle + g.flapPosTol < pos := c1
      simp only [c1, c2, if_true, if_false]
      cases hi : g.flapInner <;> cases ho : g.flapOuter <;> simp_all
    · have c2' : ¬ pos + g.flapPosTol < g.flapPosIdle := by omega
      have c1' : ¬ g.flapPosIdle + g.flapPosTol < pos := c1
      simp only [c1, c2, if_false]
      cases hi : g.flapInner <;> cases ho : g.flapOuter <;> simp_all

/-- C20 fails on the code when `idle ± tolerance` leaves the 16-bit range. The
sum `flapPosIdle+flapPosTol` and the difference `flapPosIdle-flapPosTol` are
computed in 16-bit unsigned arithmetic. With idle 65000 and tolerance 1000 the
sum wraps to 464, and the position 65000, equal to idle, is classified
displaced inward. With idle 100 and tolerance 200 the difference wraps to 65436,
and the position 100, equal to idle, is classified displaced outward. In both
cases a status report is sent. -/
theorem flap_at_idle_misclassified_on_wrap :
    (flapStep Platform.demo 65000
        { Globals.reset with flapPosIdle := 65000, flapPosTol := 1000 }
        Machine.demo).1.flapInner = true ∧
    (flapStep Platform.demo 65000
        { Globals.reset with flapPosIdle := 65000, flapPosTol := 1000 }
        Machine.demo).2.2 = true ∧
    (flapStep Platform.demo 100
        { Globals.reset with flapPosIdle := 100, flapPosTol := 200 }
        Machine.demo).1.flapOuter = true ∧
    (flapStep Platform.demo 100
        { Globals.reset with flapPosIdle := 100, flapPosTol := 200 }
        Machine.demo).2.2 = true := by
  decide

/-! ### Serial commands: what the reads leave untouched -/

theorem service_tx (p : Platform) (e : Irq) (m m1 : Machine) (h : service p e m = some m1) :
    m1.tx = m.tx := by
  unfold service isr at h
  split at h
  · cases h; cases e <;> rfl
  · split at h
    · split at h
      · cases h; cases e <;> rfl
      · cases h
    · cases h; cases e <;> rfl

theorem serviceAll_tx (p : Platform) (es : List Irq) (m m1 : Machine)
    (h : serviceAll p es m = some m1) : m1.tx = m.tx := by
  induction es generalizing m with
  | nil => cases h; rfl
  | cons e es ih =>
    simp only [serviceAll] at h
    cases hs : service p e m with
    | none => simp [hs] at h
    | some m2 =>
      simp only [hs] at h
      rw [ih m2 h, service_tx p e m m2 hs]

theorem waitByte_tx (p : Platform) (start : Nat) (env : List (List Irq)) (m m1 : Machine)
    (b : Bool) (rest : List (List Irq)) (h : waitByte p start env m = some (b, m1, rest)) :
    m1.tx = m.tx := by
  induction env generalizing m with
  | nil => simp [waitByte] at h
  | cons burst env ih =>
    simp only [waitByte] at h
    cases hs : serviceAll p burst m with
    | none => simp [hs] at h
    | some m2 =>
      have ht := serviceAll_tx p burst m m2 hs
      simp only [hs] at h
      split at h
      · split at h
        · simp only [Option.some.injEq, Prod.mk.injEq] at h
          obtain ⟨_, rfl, _⟩ := h
          exact ht
        · rw [ih m2 h, ht]
      · simp only [Option.some.injEq, Prod.mk.injEq] at h
        obtain ⟨_, rfl, _⟩ := h
        exact ht

theorem take_tx (m m1 : Machine) (x : Nat) (h : take m = some (x, m1)) : m1.tx = m.tx := by
  simp only [take] at h
  split at h
  · cases h
  · simp only [Option.some.injEq, Prod.mk.injEq] at h
    rw [← h.2]

theorem getByte_tx (p : Platform) (env : List (List Irq)) (m : Machine) (v : Nat) (r : Rd)
    (h : getByte p env m v = some r) : r.m.tx = m.tx := by
  simp only [getByte] at h
  cases hw : waitByte p (millis m) env m with
  | none => simp [hw] at h
  | some t =>
    obtain ⟨b, m1, rest⟩ := t
    have h1 := waitByte_tx p (millis m) env m m1 b rest hw
    cases b with
    | false =>
      simp only [hw, Option.some.injEq] at h
      subst h
      exact h1
    | true =>
      simp only [hw] at h
      cases ht : take m1 with
      | none => simp [ht] at h
      | some t2 =>
        obtain ⟨x, m2⟩ := t2
        simp only [ht, Option.some.injEq] at h
        subst h
        exact (take_tx m1 m2 x ht).trans h1

theorem getShort_tx (p : Platform) (env : List (List Irq)) (m : Machine) (v : Nat) (r : Rd)
    (h : getShort p env m v = some r) : r.m.tx = m.tx := by
  simp only [getShort] at h
  cases hw : waitByte p (millis m) env m with
  | none => simp [hw] at h
  | some t =>
    obtain ⟨b, m1, rest⟩ := t
    have h1 := waitByte_tx p (millis m) env m m1 b rest hw
    cases b with
    | false =>
      simp only [hw, Option.some.injEq] at h
      subst h
      exact h1
    | true =>
      simp only [hw] at h
      cases ht : take m1 with
      | none => simp [ht] at h
      | some t2 =>
        obtain ⟨x, m2⟩ := t2
        have h2 := take_tx m1 m2 x ht
        simp only [ht] at h
        cases hw2 : waitByte p (millis m) rest m2 with
        | none => simp [hw2] at h
        | some t3 =>
          obtain ⟨b3, m3, rest3⟩ := t3
          have h3 := waitByte_tx p (millis m) rest m2 m3 b3 rest3 hw2
          cases b3 with
          | false =>
            simp only [hw2, Option.some.injEq] at h
            subst h
            exact h3.trans (h2.trans h1)
          | true =>
            simp only [hw2] at h
            cases ht4 : take m3 with
            | none => simp [ht4] at h
            | some t4 =>
              obtain ⟨y, m4⟩ := t4
              simp only [ht4, Option.some.injEq] at h
              subst h
              exact (take_tx m3 m4 y ht4).trans (h3.trans (h2.trans h1))

theorem replyConfig_tx (i v : Nat) (m : Machine) (hi : i < 256) (hv : v < 65536) :
    (replyConfig i v m).tx = m.tx ++ [0x41, 0x43, i, 0x56, v % 256, v / 256, 0x0A] := by
  have h1 : i % 256 = i := Nat.mod_eq_of_lt hi
  have h2 : v / 256 % 256 = v / 256 := Nat.mod_eq_of_lt (by omega)
  simp [replyConfig, putShort, putch, and_ff, Nat.shiftRight_eq_div_pow, h1, h2]

theorem replyConfig_rxBuffer (i v : Nat) (m : Machine) :
    (replyConfig i v m).rxBuffer = m.rxBuffer := by
  simp [replyConfig, putShort, putch]
/-! ### C15, C16: configuration write and mode command -/

theorem byteAvail_of_holds {m : Machine} {x : Nat} {q : List Nat}
    (h : Holds m.rxBuffer (x :: q)) : byteAvail m = true := by
  rw [byteAvail_iff]
  intro he
  have := (holds_nil_iff_eq h).mp he
  simp at this

/-- C15: For every index byte `i` and 16-bit value `v`, when the unread bytes
start with `'C'`, `'S'`, `i`, the low byte of `v`, the high byte of `v`, and no
further byte arrives during the call, `handleSerial` makes exactly the call
`setConfiguration(i, v)` on the outside world, transmits exactly `'A'`, `'C'`,
`i`, `'V'`, low byte, high byte, `'\n'`, consumes exactly those five bytes, and
afterwards the cached parameter selected by `i` (`lightThd`, `flapPosIdle` or
`flapPosTol`) equals `v` while every other global, `opMode` and the latch flags
included, is unchanged; for an index that selects no cached parameter all
globals are unchanged. -/
theorem config_write {σ : Type} (p : Platform) (W : Periph σ) (g : Globals) (m : Machine)
    (h : σ) (env : List (List Irq)) (i v : Nat) (rest : List Nat)
    (hi : i < 256) (hv : v < 65536)
    (hbuf : Holds m.rxBuffer (0x43 :: 0x53 :: i :: v % 256 :: v / 256 :: rest))
    (hrc : m.RCIF = false) (hno : NoRx env) (hlen : 5 ≤ env.length)
    (hd : p.LIGHT_CFG ≠ p.FLAP_POS_IDLE ∧ p.LIGHT_CFG ≠ p.FLAP_POS_MARGIN ∧
      p.FLAP_POS_IDLE ≠ p.FLAP_POS_MARGIN) :
    ∃ r, handleSerial p W g m h env = some r ∧
      r.hw = W.setConfiguration i v h ∧
      r.m.tx = m.tx ++ [0x41, 0x43, i, 0x56, v % 256, v / 256, 0x0A] ∧
      Holds r.m.rxBuffer rest ∧
      (i = p.LIGHT_CFG → r.g = { g with lightThd := v }) ∧
      (i = p.FLAP_POS_IDLE → r.g = { g with flapPosIdle := v }) ∧
      (i = p.FLAP_POS_MARGIN → r.g = { g with flapPosTol := v }) ∧
      (i ≠ p.LIGHT_CFG ∧ i ≠ p.FLAP_POS_IDLE ∧ i ≠ p.FLAP_POS_MARGIN → r.g = g) := by
  match env, hlen, hno with
  | b0 :: b1 :: b2 :: b3 :: b4 :: rest', _, hno =>
    have hba := byteAvail_of_holds hbuf
    obtain ⟨rc, c1, c2, c3, c4, c5, c6, _⟩ := getByte_holds p b0 (b1 :: b2 :: b3 :: b4 :: rest')
      m 0 _ _ hbuf (hno b0 (by simp)) hrc
    obtain ⟨rb, d1, d2, d3, d4, d5, d6, _⟩ := getByte_holds p b1 (b2 :: b3 :: b4 :: rest')
      rc.m 0 _ _ c5 (hno b1 (by simp)) c6
    obtain ⟨ri, e1, e2, e3, e4, e5, e6, _⟩ := getByte_holds p b2 (b3 :: b4 :: rest')
      rb.m 0 _ _ d5 (hno b2 (by simp)) d6
    obtain ⟨rv, f1, f2, f3, f4, f5, _⟩ := getShort_holds p b3 b4 rest' ri.m 0 _ _ rest e5
      (hno b3 (by simp)) (hno b4 (by simp)) e6
    have hval : rv.v = v := by
      rw [f3]
      have hm : v / 256 = v / 256 % 256 := (Nat.mod_eq_of_lt (by omega)).symm
      rw [hm]
      exact short_bits v hv
    have htx : rv.m.tx = m.tx := by
      rw [getShort_tx p _ _ _ _ f1, getByte_tx p _ _ _ _ e1, getByte_tx p _ _ _ _ d1,
        getByte_tx p _ _ _ _ c1]
    have hs : handleSerial p W g m h (b0 :: b1 :: b2 :: b3 :: b4 :: rest')
        = some ⟨cacheConfig p i v g, replyConfig i v rv.m, W.setConfiguration i v h, rv.env⟩ := by
      simp [handleSerial, hba, c1, c2, c3, c4, d1, d2, d3, d4, e1, e2, e3, e4, f1, f2, hval]
    refine ⟨_, hs, rfl, ?_, ?_, ?_, ?_, ?_, ?_⟩
    · show (replyConfig i v rv.m).tx = _
      rw [replyConfig_tx i v rv.m hi hv, htx]
    · show Holds (replyConfig i v rv.m).rxBuffer rest
      rw [replyConfig_rxBuffer]
      exact f5
    · intro he
      show cacheConfig p i v g = _
      simp [cacheConfig, he]
    · intro he
      show cacheConfig p i v g = _
      have : ¬ p.FLAP_POS_IDLE = p.LIGHT_CFG := fun e => hd.1 e.symm
      simp [cacheConfig, he, this]
    · intro he
      show cacheConfig p i v g = _
      have h1 : ¬ p.FLAP_POS_MARGIN = p.LIGHT_CFG := fun e => hd.2.1 e.symm
      have h2 : ¬ p.FLAP_POS_MARGIN = p.FLAP_POS_IDLE := fun e => hd.2.2 e.symm
      simp [cacheConfig, he, h1, h2]
    · intro he
      show cacheConfig p i v g = _
      simp [cacheConfig, he.1, he.2.1, he.2.2]

/-- The write `'C' 'S' 0 0x58 0x02` of 600 to the light threshold: the reply
ends `58 02 0A`, `lightThd` is 600 and `setConfiguration(0, 600)` was called. -/
theorem config_write_witness :
    ∃ r, handleSerial Platform.demo Periph.demo Globals.reset
        (Machine.holding [0x43, 0x53, 0, 600 % 256, 600 / 256]) ((false, true), [])
        [[], [], [], [], []] = some r ∧
      r.hw = Periph.demo.setConfiguration 0 600 ((false, true), []) ∧
      r.m.tx = (Machine.holding [0x43, 0x53, 0, 600 % 256, 600 / 256]).tx
        ++ [0x41, 0x43, 0, 0x56, 600 % 256, 600 / 256, 0x0A] ∧
      Holds r.m.rxBuffer [] ∧
      (0 = Platform.demo.LIGHT_CFG → r.g = { Globals.reset with lightThd := 600 }) ∧
      (0 = Platform.demo.FLAP_POS_IDLE → r.g = { Globals.reset with flapPosIdle := 600 }) ∧
      (0 = Platform.demo.FLAP_POS_MARGIN → r.g = { Globals.reset with flapPosTol := 600 }) ∧
      (0 ≠ Platform.demo.LIGHT_CFG ∧ 0 ≠ Platform.demo.FLAP_POS_IDLE ∧
        0 ≠ Platform.demo.FLAP_POS_MARGIN → r.g = Globals.reset) :=
  config_write Platform.demo Periph.demo Globals.reset
    (Machine.holding [0x43, 0x53, 0, 600 % 256, 600 / 256]) ((false, true), [])
    [[], [], [], [], []] 0 600 [] (by decide) (by decide) (by decide) (by decide) (by decide)
    (by decide) (by decide)

/-- C16: When the unread bytes start with `'M'` and a byte `b`, and no further
byte arrives during the call, `handleSerial` consumes exactly those two bytes.
For `b <= 6` it performs `switchMode(b)` and transmits exactly `'A'`, `'M'`, the
resulting `opMode` (which is `b`), `'\n'`. For `b > 6` it transmits nothing and
leaves the globals and the outside world, latches included, as they were. -/
theorem mode_command {σ : Type} (p : Platform) (W : Periph σ) (g : Globals) (m : Machine)
    (h : σ) (env : List (List Irq)) (b : Nat) (rest : List Nat)
    (hbuf : Holds m.rxBuffer (0x4D :: b :: rest))
    (hrc : m.RCIF = false) (hno : NoRx env) (hlen : 2 ≤ env.length) :
    ∃ r, handleSerial p W g m h env = some r ∧
      Holds r.m.rxBuffer rest ∧
      r.m.rxBuffer.uIndex = (m.rxBuffer.uIndex + 2) % SER_BUFFER ∧
      (b ≤ MODE_OPEN → (r.g, r.hw) = switchMode W.toLatches b g h ∧ r.g.opMode = b ∧
        r.m.tx = m.tx ++ [0x41, 0x4D, r.g.opMode, 0x0A]) ∧
      (MODE_OPEN < b → r.g = g ∧ r.hw = h ∧ r.m.tx = m.tx) := by
  match env, hlen, hno with
  | b0 :: b1 :: rest', _, hno =>
    have hba := byteAvail_of_holds hbuf
    obtain ⟨rc, c1, c2, c3, c4, c5, c6, c7, _⟩ := getByte_holds p b0 (b1 :: rest')
      m 0 _ _ hbuf (hno b0 (by simp)) hrc
    obtain ⟨rb, d1, d2, d3, d4, d5, d6, d7, _⟩ := getByte_holds p b1 rest'
      rc.m 0 _ _ c5 (hno b1 (by simp)) c6
    have htx : rb.m.tx = m.tx := by
      rw [getByte_tx p _ _ _ _ d1, getByte_tx p _ _ _ _ c1]
    have hu : rb.m.rxBuffer.uIndex = (m.rxBuffer.uIndex + 2) % SER_BUFFER := by
      rw [d7, c7]
      show bump (bump m.rxBuffer.uIndex) = _
      have hlt := hbuf.2.1
      rw [bump_of_lt hlt, bump_of_lt (Nat.mod_lt _ (by decide))]
      simp only [SER_BUFFER]
      omega
    by_cases hb : b ≤ MODE_OPEN
    · have hs : handleSerial p W g m h (b0 :: b1 :: rest')
          = some ⟨(switchMode W.toLatches b g h).1,
              putch '\n'.toNat (putch (switchMode W.toLatches b g h).1.opMode
                (putch 'M'.toNat (putch 'A'.toNat rb.m))),
              (switchMode W.toLatches b g h).2, rb.env⟩ := by
        simp [handleSerial, hba, c1, c2, c3, c4, d1, d2, d3, hb]
      have hop := switchMode_opMode W.toLatches b g h hb
      refine ⟨_, hs, ?_, ?_, ?_, ?_⟩
      · exact d5
      · exact hu
      · intro _
        refine ⟨rfl, hop, ?_⟩
        have hb' : b % 256 = b := Nat.mod_eq_of_lt (by simp only [ MODE_OPEN] at hb; omega)
        simp [putch, htx, hop, hb']
      · intro hgt
        omega
    · have hs : handleSerial p W g m h (b0 :: b1 :: rest') = some ⟨g, rb.m, h, rb.env⟩ := by
        simp [handleSerial, hba, c1, c2, c3, c4, d1, d2, d3, hb]
      refine ⟨_, hs, d5, hu, fun hle => absurd hle hb, fun _ => ⟨rfl, rfl, htx⟩⟩

/-- The command `'M' 6` opens both latches and is answered `41 4D 06 0A`; the
command `'M' 7` is ignored. -/
theorem mode_command_witness :
    (∃ r, handleSerial Platform.demo Periph.demo Globals.reset (Machine.holding [0x4D, 6])
        ((false, true), []) [[], []] = some r ∧
      (r.g, r.hw) = switchMode Periph.demo.toLatches 6 Globals.reset ((false, true), []) ∧
      r.g.opMode = 6 ∧
      r.m.tx = (Machine.holding [0x4D, 6]).tx ++ [0x41, 0x4D, r.g.opMode, 0x0A]) ∧
    (∃ r, handleSerial Platform.demo Periph.demo Globals.reset (Machine.holding [0x4D, 7])
        ((false, true), []) [[], []] = some r ∧
      r.g = Globals.reset ∧ r.hw = ((false, true), []) ∧
      r.m.tx = (Machine.holding [0x4D, 7]).tx) :=
  ⟨(mode_command Platform.demo Periph.demo Globals.reset (Machine.holding [0x4D, 6])
      ((false, true), []) [[], []] 6 [] (by decide) (by decide) (by decide) (by decide)).imp
      fun _ hr => ⟨hr.1, hr.2.2.2.1 (by decide)⟩,
    (mode_command Platform.demo Periph.demo Globals.reset (Machine.holding [0x4D, 7])
      ((false, true), []) [[], []] 7 [] (by decide) (by decide) (by decide) (by decide)).imp
      fun _ hr => ⟨hr.1, hr.2.2.2.2 (by decide)⟩⟩

/-! ### C17: truncated commands -/

theorem sameBut_refl (m : Machine) : SameBut m m := ⟨m.rxBuffer, rfl⟩

theorem timesOut_congr (p : Platform) (start first : Nat) (env : List (List Irq))
    (a s : Machine) (hs : SameBut a s) (hno : NoRx env) (hrc : s.RCIF = false)
    (h : TimesOut p start first env s) : TimesOut p start first env a := by
  obtain ⟨rb, rfl⟩ := hs
  obtain ⟨k, hk1, hk2, mk, hsv, hgt⟩ := h
  refine ⟨k, hk1, hk2, { mk with rxBuffer := rb }, ?_, hgt⟩
  rw [serviceAll_timers_congr p _ s rb (noRx_flatten_take env hno _) hrc, hsv]
  rfl

theorem getByte_shadow (p : Platform) (burst : List Irq) (rest : List (List Irq))
    (a s : Machine) (v x : Nat) (q : List Nat) (hs : SameBut a s)
    (hq : Holds a.rxBuffer (x :: q)) (hb : ∀ e ∈ burst, e = Irq.timer)
    (hrc : s.RCIF = false) :
    ∃ r s1, getByte p (burst :: rest) a v = some r ∧ serviceAll p burst s = some s1 ∧
      s1.RCIF = false ∧ r.ret = 0 ∧ r.v = x ∧ r.env = rest ∧ Holds r.m.rxBuffer q ∧
      SameBut r.m s1 := by
  obtain ⟨rb, rfl⟩ := hs
  obtain ⟨s1, h1, _, h3, _⟩ := serviceAll_timers p burst s hb hrc
  have ha : serviceAll p burst { s with rxBuffer := rb } = some { s1 with rxBuffer := rb } := by
    rw [serviceAll_timers_congr p burst s rb hb hrc, h1]
    rfl
  have hne : rb.rIndex ≠ rb.uIndex := by
    intro he
    have := (holds_nil_iff_eq hq).mp he
    simp at this
  obtain ⟨ht, hh⟩ := take_holds { s1 with rxBuffer := rb } x q hq
  have hg : getByte p (burst :: rest) { s with rxBuffer := rb } v
      = some ⟨0, x, { s1 with rxBuffer := { rb with uIndex := bump rb.uIndex } }, rest⟩ := by
    simp only [getByte, waitByte, ha, hne, if_false, ht]
  exact ⟨_, s1, hg, h1, h3, rfl, rfl, rfl, hh, ⟨_, rfl⟩⟩

theorem sameBut_facts {a s : Machine} (hs : SameBut a s) :
    millis a = millis s ∧ a.RCIF = s.RCIF ∧ a.tx = s.tx := by
  obtain ⟨rb, rfl⟩ := hs
  exact ⟨rfl, rfl, rfl⟩

theorem getByte_timesOut_shadow (p : Platform) (env : List (List Irq)) (a s : Machine)
    (v : Nat) (hs : SameBut a s) (hrc : s.RCIF = false)
    (he : a.rxBuffer.rIndex = a.rxBuffer.uIndex) (hno : NoRx env)
    (hto : TimesOut p (millis s) 0 env s) :
    ∃ r, getByte p env a v = some r ∧ r.ret = 1 ∧ r.v = v ∧ r.m.tx = a.tx := by
  have hto' := timesOut_congr p (millis s) 0 env a s hs hno hrc hto
  obtain ⟨hm, hr, _⟩ := sameBut_facts hs
  rw [← hm] at hto'
  obtain ⟨m1, rest, h1, _, _⟩ := waitByte_timeout p (millis a) env a (hr.trans hrc) he hno hto'
  have hg : getByte p env a v = some ⟨1, v, m1, rest⟩ := by
    simp only [getByte, h1]
  exact ⟨_, hg, rfl, rfl, getByte_tx p _ _ _ _ hg⟩

theorem getShort_timesOut_shadow (p : Platform) (env : List (List Irq)) (a s : Machine)
    (v : Nat) (hs : SameBut a s) (hrc : s.RCIF = false)
    (he : a.rxBuffer.rIndex = a.rxBuffer.uIndex) (hno : NoRx env)
    (hto : TimesOut p (millis s) 0 env s) :
    ∃ r, getShort p env a v = some r ∧ r.ret = 1 ∧ r.m.tx = a.tx := by
  have hto' := timesOut_congr p (millis s) 0 env a s hs hno hrc hto
  obtain ⟨hm, hr, _⟩ := sameBut_facts hs
  rw [← hm] at hto'
  obtain ⟨m1, rest, h1, _, _⟩ := waitByte_timeout p (millis a) env a (hr.trans hrc) he hno hto'
  have hg : getShort p env a v = some ⟨1, v, m1, rest⟩ := by
    simp only [getShort, h1]
  exact ⟨_, hg, rfl, getShort_tx p _ _ _ _ hg⟩

theorem getShort_half_timesOut_shadow (p : Platform) (env : List (List Irq)) (a s : Machine)
    (v x : Nat) (hs : SameBut a s) (hrc : s.RCIF = false)
    (hq : Holds a.rxBuffer [x]) (hno : NoRx env)
    (hto : TimesOut p (millis s) 1 env s) :
    ∃ r, getShort p env a v = some r ∧ r.ret = 1 ∧ r.m.tx = a.tx := by
  have hto' := timesOut_congr p (millis s) 1 env a s hs hno hrc hto
  obtain ⟨hm, hr, _⟩ := sameBut_facts hs
  rw [← hm] at hto'
  have hrca : a.RCIF = false := hr.trans hrc
  cases env with
  | nil =>
    obtain ⟨k, _, hk, _⟩ := hto
    simp at hk
  | cons b0 rest =>
    have hb0 : ∀ e ∈ b0, e = Irq.timer := hno b0 (by simp)
    have hno' : NoRx rest := fun b hb => hno b (by simp [hb])
    have hne : a.rxBuffer.rIndex ≠ a.rxBuffer.uIndex := by
      intro he
      have := (holds_nil_iff_eq hq).mp he
      simp at this
    obtain ⟨a1, h1, h2, h3, _⟩ := waitByte_avail p (millis a) b0 rest a hb0 hrca hne
    obtain ⟨t1, ht1, _, _⟩ := serviceAll_timers p b0 a hb0 hrca
    have hs1 : serviceAll p b0 a = some a1 := by
      simp only [waitByte, ht1] at h1
      split at h1
      · split at h1
        · simp at h1
        · rename_i heq _
          exact absurd (by simpa using heq) (by
            obtain ⟨_, hx, hy, _⟩ := serviceAll_timers p b0 a hb0 hrca
            rw [ht1] at hx
            cases hx
            rw [hy]
            exact hne)
      · simp only [Option.some.injEq, Prod.mk.injEq] at h1
        rw [← h1.2.1]
        exact ht1
    have hq1 : Holds a1.rxBuffer [x] := by rw [h2]; exact hq
    obtain ⟨ht, hh⟩ := take_holds a1 x [] hq1
    obtain ⟨a2, ha2⟩ : ∃ a2 : Machine, a2 = { a1 with
        rxBuffer := { a1.rxBuffer with uIndex := bump a1.rxBuffer.uIndex } } := ⟨_, rfl⟩
    rw [← ha2] at ht
    have hrc2 : a2.RCIF = false := by rw [ha2]; exact h3
    have hh2 : Holds a2.rxBuffer [] := by rw [ha2]; exact hh
    have he2 : a2.rxBuffer.rIndex = a2.rxBuffer.uIndex := (holds_nil_iff_eq hh2).mpr rfl
    have hto2 : TimesOut p (millis a) 0 rest a2 := by
      obtain ⟨k, hk1, hk, mk, hsv, hgt⟩ := hto'
      cases k with
      | zero => omega
      | succ k =>
        simp only [List.take_succ_cons, List.flatten_cons, serviceAll_append, hs1,
          Option.some_bind] at hsv
        refine ⟨k, Nat.zero_le _, by simpa using hk,
          { mk with rxBuffer := { a1.rxBuffer with uIndex := bump a1.rxBuffer.uIndex } },
          ?_, hgt⟩
        rw [ha2, serviceAll_timers_congr p _ a1 _ (noRx_flatten_take rest hno' _) h3, hsv]
        rfl
    obtain ⟨m3, rest3, h4, _, _⟩ := waitByte_timeout p (millis a) rest a2 hrc2 he2 hno' hto2
    have hg : getShort p (b0 :: rest) a v = some ⟨1, x, m3, rest3⟩ := by
      simp only [getShort, h1, ht, h4]
    exact ⟨_, hg, rfl, getShort_tx p _ _ _ _ hg⟩

theorem timesOutAfter_nil (p : Platform) (n first : Nat) (m : Machine)
    (h : TimesOutAfter p n first [] m) : False := by
  obtain ⟨_, _, k, _, hk, _⟩ := h
  simp at hk

theorem timesOutAfter_zero (p : Platform) (first : Nat) (env : List (List Irq)) (m : Machine)
    (h : TimesOutAfter p 0 first env m) : TimesOut p (millis m) first env m := by
  obtain ⟨m1, h1, h2⟩ := h
  simp only [List.take_zero, List.flatten_nil, serviceAll, Option.some.injEq] at h1
  subst h1
  simpa using h2

theorem timesOutAfter_cons (p : Platform) (n first : Nat) (b : List Irq)
    (env : List (List Irq)) (m s1 : Machine) (h : TimesOutAfter p (n + 1) first (b :: env) m)
    (hs : serviceAll p b m = some s1) : TimesOutAfter p n first env s1 := by
  obtain ⟨m1, h1, h2⟩ := h
  simp only [List.take_succ_cons, List.flatten_cons, serviceAll_append, hs,
    Option.some_bind] at h1
  exact ⟨m1, h1, by simpa using h2⟩

/-- C17 (amended): With no byte arriving during the call and each read's
timeout being seen, `handleSerial` transmits exactly `"AE\n"` when `'C'` and a
selector byte (`'S'` or any other) are unread but the index byte is missing. It
transmits no bytes at all when only `'C'` is unread, when `'C' 'S' index` is
unread and the value is missing, when `'C' 'S' index` and one value byte are
unread and the second value byte is missing, and when only `'M'` is unread. In
all five cases the globals (cached configuration, mode, latch flags) and the
outside world (stored configuration, latches) are left as they were. -/
theorem malformed_commands {σ : Type} (p : Platform) (W : Periph σ) (g : Globals)
    (m : Machine) (h : σ) (env : List (List Irq)) (hrc : m.RCIF = false) (hno : NoRx env) :
    (∀ sel, Holds m.rxBuffer [0x43, sel] → TimesOutAfter p 2 0 env m →
      ∃ r, handleSerial p W g m h env = some r ∧ r.m.tx = m.tx ++ [0x41, 0x45, 0x0A] ∧
        r.g = g ∧ r.hw = h) ∧
    (Holds m.rxBuffer [0x43] → TimesOutAfter p 1 0 env m →
      ∃ r, handleSerial p W g m h env = some r ∧ r.m.tx = m.tx ∧ r.g = g ∧ r.hw = h) ∧
    (∀ i, Holds m.rxBuffer [0x43, 0x53, i] → TimesOutAfter p 3 0 env m →
      ∃ r, handleSerial p W g m h env = some r ∧ r.m.tx = m.tx ∧ r.g = g ∧ r.hw = h) ∧
    (∀ i lo, Holds m.rxBuffer [0x43, 0x53, i, lo] → TimesOutAfter p 3 1 env m →
      ∃ r, handleSerial p W g m h env = some r ∧ r.m.tx = m.tx ∧ r.g = g ∧ r.hw = h) ∧
    (Holds m.rxBuffer [0x4D] → TimesOutAfter p 1 0 env m →
      ∃ r, handleSerial p W g m h env = some r ∧ r.m.tx = m.tx ∧ r.g = g ∧ r.hw = h) := by
  have one : ∀ c, Holds m.rxBuffer [c] → TimesOutAfter p 1 0 env m →
      ∃ r1 r2, getByte p env m 0 = some r1 ∧ r1.ret = 0 ∧ r1.v = c ∧
        getByte p r1.env r1.m 0 = some r2 ∧ r2.ret = 1 ∧ r2.m.tx = m.tx := by
    intro c hb hto
    cases env with
    | nil => exact (timesOutAfter_nil p _ _ m hto).elim
    | cons b0 rest =>
      have hno' : NoRx rest := fun b hb => hno b (by simp [hb])
      obtain ⟨r1, s1, a1, a2, a3, a4, a5, a6, a7, a8⟩ := getByte_shadow p b0 rest m m 0 c []
        (sameBut_refl m) hb (hno b0 (by simp)) hrc
      have ht := timesOutAfter_zero p 0 rest s1 (timesOutAfter_cons p 0 0 b0 rest m s1 hto a2)
      obtain ⟨r2, b1, b2, _, b4⟩ := getByte_timesOut_shadow p rest r1.m s1 0 a8 a3
        ((holds_nil_iff_eq a7).mpr rfl) hno' ht
      rw [← a6] at b1
      exact ⟨r1, r2, a1, a4, a5, b1, b2, b4.trans (getByte_tx p _ _ _ _ a1)⟩
  refine ⟨?_, ?_, ?_, ?_, ?_⟩
  · intro sel hb hto
    match env, hno, hto with
    | [], _, hto => exact (timesOutAfter_nil p _ _ m hto).elim
    | b0 :: rest0, hno, hto =>
      obtain ⟨r1, s1, a1, a2, a3, a4, a5, a6, a7, a8⟩ := getByte_shadow p b0 rest0 m m 0 _ _
        (sameBut_refl m) hb (hno b0 (by simp)) hrc
      have hto1 := timesOutAfter_cons p 1 0 b0 rest0 m s1 hto a2
      have hno0 : NoRx rest0 := fun b hb => hno b (by simp [hb])
      match rest0, hno0, hto1, a1, a6 with
      | [], _, hto1, _, _ => exact (timesOutAfter_nil p _ _ s1 hto1).elim
      | b1 :: rest1, hno0, hto1, a1, a6 =>
        obtain ⟨r2, s2, c1, c2, c3, c4, c5, c6, c7, c8⟩ := getByte_shadow p b1 rest1 r1.m s1 0
          _ _ a8 a7 (hno0 b1 (by simp)) a3
        have ht := timesOutAfter_zero p 0 rest1 s2
          (timesOutAfter_cons p 0 0 b1 rest1 s1 s2 hto1 c2)
        have hno1 : NoRx rest1 := fun b hb => hno0 b (by simp [hb])
        obtain ⟨r3, d1, d2, _, d4⟩ := getByte_timesOut_shadow p rest1 r2.m s2 0 c8 c3
          ((holds_nil_iff_eq c7).mpr rfl) hno1 ht
        have htx : r3.m.tx = m.tx := by
          rw [d4, getByte_tx p _ _ _ _ c1, getByte_tx p _ _ _ _ a1]
        have hs : handleSerial p W g m h (b0 :: b1 :: rest1)
            = some ⟨g, putch '\n'.toNat (putch 'E'.toNat (putch 'A'.toNat r3.m)), h, r3.env⟩ := by
          simp [handleSerial, byteAvail_of_holds hb, a1, a4, a5, a6, c1, c4, c6, d1, d2]
        exact ⟨_, hs, by simp [putch, htx], rfl, rfl⟩
  · intro hb hto
    obtain ⟨r1, r2, a1, a2, a3, a4, a5, a6⟩ := one _ hb hto
    have hs : handleSerial p W g m h env = some ⟨g, r2.m, h, r2.env⟩ := by
      simp [handleSerial, byteAvail_of_holds hb, a1, a2, a3, a4, a5]
    exact ⟨_, hs, a6, rfl, rfl⟩
  · intro i hb hto
    match env, hno, hto with
    | [], _, hto => exact (timesOutAfter_nil p _ _ m hto).elim
    | b0 :: rest0, hno, hto =>
      obtain ⟨r1, s1, a1, a2, a3, a4, a5, a6, a7, a8⟩ := getByte_shadow p b0 rest0 m m 0 _ _
        (sameBut_refl m) hb (hno b0 (by simp)) hrc
      have hto1 := timesOutAfter_cons p 2 0 b0 rest0 m s1 hto a2
      have hno0 : NoRx rest0 := fun b hb => hno b (by simp [hb])
      match rest0, hno0, hto1, a1, a6 with
      | [], _, hto1, _, _ => exact (timesOutAfter_nil p _ _ s1 hto1).elim
      | b1 :: rest1, hno0, hto1, a1, a6 =>
        obtain ⟨r2, s2, c1, c2, c3, c4, c5, c6, c7, c8⟩ := getByte_shadow p b1 rest1 r1.m s1 0
          _ _ a8 a7 (hno0 b1 (by simp)) a3
        have hto2 := timesOutAfter_cons p 1 0 b1 rest1 s1 s2 hto1 c2
        have hno1 : NoRx rest1 := fun b hb => hno0 b (by simp [hb])
        match rest1, hno1, hto2, c1, c6 with
        | [], _, hto2, _, _ => exact (timesOutAfter_nil p _ _ s2 hto2).elim
        | b2 :: rest2, hno1, hto2, c1, c6 =>
          obtain ⟨r3, s3, e1, e2, e3, e4, e5, e6, e7, e8⟩ := getByte_shadow p b2 rest2 r2.m s2
            0 _ _ c8 c7 (hno1 b2 (by simp)) c3
          have ht := timesOutAfter_zero p 0 rest2 s3
            (timesOutAfter_cons p 0 0 b2 rest2 s2 s3 hto2 e2)
          have hno2 : NoRx rest2 := fun b hb => hno1 b (by simp [hb])
          obtain ⟨r4, f1, f2, f4⟩ := getShort_timesOut_shadow p rest2 r3.m s3 0 e8 e3
            ((holds_nil_iff_eq e7).mpr rfl) hno2 ht
          have htx : r4.m.tx = m.tx := by
            rw [f4, getByte_tx p _ _ _ _ e1, getByte_tx p _ _ _ _ c1,
              getByte_tx p _ _ _ _ a1]
          have hs : handleSerial p W g m h (b0 :: b1 :: b2 :: rest2)
              = some ⟨g, r4.m, h, r4.env⟩ := by
            simp [handleSerial, byteAvail_of_holds hb, a1, a4, a5, a6, c1, c4, c5, c6, e1, e4,
              e6, f1, f2]
          exact ⟨_, hs, htx, rfl, rfl⟩
  · intro i lo hb hto
    match env, hno, hto with
    | [], _, hto => exact (timesOutAfter_nil p _ _ m hto).elim
    | b0 :: rest0, hno, hto =>
      obtain ⟨r1, s1, a1, a2, a3, a4, a5, a6, a7, a8⟩ := getByte_shadow p b0 rest0 m m 0 _ _
        (sameBut_refl m) hb (hno b0 (by simp)) hrc
      have hto1 := timesOutAfter_cons p 2 1 b0 rest0 m s1 hto a2
      have hno0 : NoRx rest0 := fun b hb => hno b (by simp [hb])
      match rest0, hno0, hto1, a1, a6 with
      | [], _, hto1, _, _ => exact (timesOutAfter_nil p _ _ s1 hto1).elim
      | b1 :: rest1, hno0, hto1, a1, a6 =>
        obtain ⟨r2, s2, c1, c2, c3, c4, c5, c6, c7, c8⟩ := getByte_shadow p b1 rest1 r1.m s1 0
          _ _ a8 a7 (hno0 b1 (by simp)) a3
        have hto2 := timesOutAfter_cons p 1 1 b1 rest1 s1 s2 hto1 c2
        have hno1 : NoRx rest1 := fun b hb => hno0 b (by simp [hb])
        match rest1, hno1, hto2, c1, c6 with
        | [], _, hto2, _, _ => exact (timesOutAfter_nil p _ _ s2 hto2).elim
        | b2 :: rest2, hno1, hto2, c1, c6 =>
          obtain ⟨r3, s3, e1, e2, e3, e4, e5, e6, e7, e8⟩ := getByte_shadow p b2 rest2 r2.m s2
            0 _ _ c8 c7 (hno1 b2 (by simp)) c3
          have ht := timesOutAfter_zero p 1 rest2 s3
            (timesOutAfter_cons p 0 1 b2 rest2 s2 s3 hto2 e2)
          have hno2 : NoRx rest2 := fun b hb => hno1 b (by simp [hb])
          obtain ⟨r4, f1, f2, f4⟩ := getShort_half_timesOut_shadow p rest2 r3.m s3 0 lo e8 e3
            e7 hno2 ht
          have htx : r4.m.tx = m.tx := by
            rw [f4, getByte_tx p _ _ _ _ e1, getByte_tx p _ _ _ _ c1,
              getByte_tx p _ _ _ _ a1]
          have hs : handleSerial p W g m h (b0 :: b1 :: b2 :: rest2)
              = some ⟨g, r4.m, h, r4.env⟩ := by
            simp [handleSerial, byteAvail_of_holds hb, a1, a4, a5, a6, c1, c4, c5, c6, e1, e4,
              e6, f1, f2]
          exact ⟨_, hs, htx, rfl, rfl⟩
  · intro hb hto
    obtain ⟨r1, r2, a1, a2, a3, a4, a5, a6⟩ := one _ hb hto
    have hs : handleSerial p W g m h env = some ⟨g, r2.m, h, r2.env⟩ := by
      simp [handleSerial, byteAvail_of_holds hb, a1, a2, a3, a4, a5]
    exact ⟨_, hs, a6, rfl, rfl⟩

/-- A configuration read `'C' 'R'` with no index byte is answered `"AE\n"`; a
configuration write `'C' 'S' 1` with only one value byte is dropped silently. -/
theorem malformed_commands_witness :
    (∃ r, handleSerial Platform.demo Periph.demo Globals.reset (Machine.holding [0x43, 0x52])
        ((false, true), []) ([[], []] ++ List.replicate 6 [Irq.timer]) = some r ∧
      r.m.tx = (Machine.holding [0x43, 0x52]).tx ++ [0x41, 0x45, 0x0A] ∧
      r.g = Globals.reset ∧ r.hw = ((false, true), [])) ∧
    (∃ r, handleSerial Platform.demo Periph.demo Globals.reset
        (Machine.holding [0x43, 0x53, 1, 0x58]) ((false, true), [])
        ([[], [], [], []] ++ List.replicate 6 [Irq.timer]) = some r ∧
      r.m.tx = (Machine.holding [0x43, 0x53, 1, 0x58]).tx ∧
      r.g = Globals.reset ∧ r.hw = ((false, true), [])) :=
  ⟨(malformed_commands Platform.demo Periph.demo Globals.reset (Machine.holding [0x43, 0x52])
      ((false, true), []) ([[], []] ++ List.replicate 6 [Irq.timer])
      (by decide) (by decide)).1 0x52 (by decide)
      ⟨_, rfl, 5, by decide, by decide, _, rfl, by decide⟩,
    (malformed_commands Platform.demo Periph.demo Globals.reset
      (Machine.holding [0x43, 0x53, 1, 0x58]) ((false, true), [])
      ([[], [], [], []] ++ List.replicate 6 [Irq.timer])
      (by decide) (by decide)).2.2.2.1 1 0x58 (by decide)
      ⟨_, rfl, 6, by decide, by decide, _, rfl, by decide⟩⟩

/-- C17 as stated fails for a truncated configuration write: with `'C' 'S'`
unread and no index byte arriving, the index read times out and `handleSerial`
transmits `"AE\n"` (41 45 0A), where the claim says it transmits nothing. The
`else` branch that prints `"AE\n"` belongs to the index read, which comes before
the test of the selector byte. -/
theorem write_missing_index_replies_AE :
    (handleSerial Platform.demo Periph.demo Globals.reset (Machine.holding [0x43, 0x53])
        ((false, true), []) ([[], []] ++ List.replicate 6 [Irq.timer])).map
      (fun r => (r.m.tx, r.g, r.hw))
      = some ([0x41, 0x45, 0x0A], Globals.reset, ((false, true), [])) := by
  decide

/-! ### C14: status bits in reachable states -/

theorem switchMode_flags {σ : Type} (L : Latches σ) (mode : Nat) (g : Globals) (h : σ) :
    (switchMode L mode g h).1.flags = g.flags := by
  unfold switchMode setLatches
  split
  · rfl
  · split
    · rfl
    · split <;> rfl

theorem nightTick_flags {σ : Type} (L : Latches σ) (g : Globals) (h : σ) :
    (nightTick L g h).1.flags = g.flags := by
  unfold nightTick
  split
  · rfl
  · split <;> rfl

theorem dispatchButtons_flags {σ : Type} (L : Latches σ) (ev d : Nat) (g : Globals) (h : σ) :
    (dispatchButtons L ev d g h).1.flags = g.flags := by
  unfold dispatchButtons
  repeat' split
  all_goals rfl

theorem cacheConfig_flags (p : Platform) (i v : Nat) (g : Globals) :
    (cacheConfig p i v g).flags = g.flags := by
  unfold cacheConfig
  repeat' split
  all_goals rfl

theorem flapStep_flags (p : Platform) (pos : Nat) (g : Globals) (m : Machine)
    (h : g.flags ≠ (true, true)) : (flapStep p pos g m).1.flags ≠ (true, true) := by
  unfold flapStep
  simp only [Globals.flags] at *
  repeat' split
  all_goals simp_all

theorem handleSerial_flags {σ : Type} (p : Platform) (W : Periph σ) (g : Globals) (m : Machine)
    (h : σ) (env : List (List Irq)) (r : Served σ)
    (hr : handleSerial p W g m h env = some r) : r.g.flags = g.flags := by
  unfold handleSerial at hr
  repeat' split at hr
  all_goals first
    | (cases hr; done)
    | (simp only [Option.some.injEq] at hr; subst hr
       first | rfl | exact cacheConfig_flags p _ _ g | exact switchMode_flags _ _ g h)

theorem sensorStep_flags {σ : Type} (p : Platform) (W : Periph σ) (ms : Nat) (s : Loop σ)
    (h : s.g.flags ≠ (true, true)) : (sensorStep p W ms s).g.flags ≠ (true, true) := by
  have h1 : (lightStep p W ms s).g.flags ≠ (true, true) := by
    unfold lightStep
    split
    · exact h
    · exact h
  unfold sensorStep flapRead
  split
  · exact flapStep_flags p _ _ (lightStep p W ms s).m h1
  · exact h1

theorem modeStep_flags {σ : Type} (p : Platform) (W : Periph σ) (junk : Cat × Nat) (ms : Nat)
    (s s1 : Loop σ) (env env1 : List (List Irq)) (d : Bool)
    (h : modeStep p W junk ms s env = some (s1, d, env1)) : s1.g.flags = s.g.flags := by
  unfold modeStep at h
  repeat' split at h
  all_goals first
    | (cases h; done)
    | (simp only [Option.some.injEq, Prod.mk.injEq] at h
       obtain ⟨rfl, _, _⟩ := h
       first | rfl | exact switchMode_flags _ _ _ _ | exact nightTick_flags _ _ _)

theorem relax_flags {σ : Type} (p : Platform) (s s1 : Loop σ) (env env1 : List (List Irq))
    (h : relax p s env = some (s1, env1)) : s1.g.flags = s.g.flags := by
  unfold relax at h
  split at h
  · cases h
  · simp only [Option.some.injEq, Prod.mk.injEq] at h
    obtain ⟨rfl, _⟩ := h
    rfl

theorem openDoor_flags {σ : Type} (p : Platform) (W : Periph σ) (s s1 : Loop σ) (h0 : σ)
    (env env1 : List (List Irq)) (h : openDoor p W s h0 env = some (s1, env1)) :
    s1.g.flags = s.g.flags := by
  unfold openDoor at h
  split at h
  · cases h
  · simp only [Option.some.injEq, Prod.mk.injEq] at h
    obtain ⟨rfl, _⟩ := h
    rfl

theorem doorAct_flags {σ : Type} (p : Platform) (W : Periph σ) (s s1 : Loop σ)
    (known : Bool × σ) (env env1 : List (List Irq))
    (h : doorAct p W s known env = some (s1, env1)) : s1.g.flags = s.g.flags := by
  unfold doorAct at h
  split at h
  · split at h
    · cases h
    · rename_i s2 env2 ho
      rw [relax_flags p s2 s1 env2 env1 h, openDoor_flags p W _ s2 _ env env2 ho]
  · rw [relax_flags p _ s1 env env1 h]

theorem doorStep_flags {σ : Type} (p : Platform) (W : Periph σ) (s s1 : Loop σ)
    (env env1 : List (List Irq)) (h : doorStep p W s env = some (s1, env1)) :
    s1.g.flags = s.g.flags := by
  unfold doorStep at h
  have h2 := doorAct_flags p W _ _ _ _ _ h
  exact h2

theorem doorPhase_flags {σ : Type} (p : Platform) (W : Periph σ) (d : Bool) (s s1 : Loop σ)
    (env env1 : List (List Irq)) (h : doorPhase p W d s env = some (s1, env1)) :
    s1.g.flags = s.g.flags := by
  unfold doorPhase at h
  split at h
  · exact doorStep_flags p W s s1 env env1 h
  · simp only [Option.some.injEq, Prod.mk.injEq] at h
    rw [← h.1]

theorem buttonsStep_flags {σ : Type} (p : Platform) (W : Periph σ) (s s1 : Loop σ)
    (env env1 : List (List Irq)) (h : buttonsStep p W s env = some (s1, env1)) :
    s1.g.flags = s.g.flags := by
  unfold buttonsStep at h
  repeat' split at h
  all_goals first
    | (cases h; done)
    | (simp only [Option.some.injEq, Prod.mk.injEq] at h
       obtain ⟨rfl, _⟩ := h
       exact dispatchButtons_flags _ _ _ _ _)

theorem loopIter_flags {σ : Type} (p : Platform) (W : Periph σ) (junk : Cat × Nat)
    (s s1 : Loop σ) (env env1 : List (List Irq))
    (h : loopIter p W junk s env = some (s1, env1)) (hs : s.g.flags ≠ (true, true)) :
    s1.g.flags ≠ (true, true) := by
  unfold loopIter at h
  split at h
  · cases h
  · rename_i m0 env0 _
    dsimp only at h
    split at h
    · cases h
    · rename_i s2 doOpen env2 hm
      have h2 : s2.g.flags ≠ (true, true) := by
        rw [modeStep_flags p W junk _ _ s2 _ env2 doOpen hm]
        exact sensorStep_flags p W _ _ hs
      split at h
      · cases h
      · rename_i s3 env3 hd
        have h3 : s3.g.flags ≠ (true, true) := by
          rw [doorPhase_flags p W doOpen s2 s3 env2 env3 hd]
          exact h2
        split at h
        · cases h
        · rename_i s4 env4 hb
          have h4 : s4.g.flags ≠ (true, true) := by
            rw [buttonsStep_flags p W s3 s4 env3 env4 hb]
            exact h3
          split at h
          · cases h
          · rename_i r hser
            simp only [Option.some.injEq, Prod.mk.injEq] at h
            rw [← h.1]
            show r.g.flags ≠ (true, true)
            rw [handleSerial_flags p W _ _ _ _ r hser]
            exact h4

theorem mainInit_flags {σ : Type} (p : Platform) (W : Periph σ) (b : Boot σ) :
    (mainInit p W b).g.flags = (false, false) := by
  unfold mainInit
  simp only
  split
  · show ((switchMode W.toLatches MODE_NORMAL _ _).1).flags = _
    rw [switchMode_flags]
    rfl
  · rw [switchMode_flags]
    rfl

theorem reachable_flags {σ : Type} (p : Platform) (W : Periph σ) (s : Loop σ)
    (h : Reachable p W s) : s.g.flags ≠ (true, true) := by
  induction h with
  | boot b =>
    rw [mainInit_flags]
    decide
  | iter s s1 junk env env1 _ hstep ih => exact loopIter_flags p W junk s s1 env env1 hstep ih

theorem buildStatusBits_lt (p : Platform) (g : Globals) : buildStatusBits p g < 16 := by
  unfold buildStatusBits
  cases p.FLAP_POT <;> cases g.inLocked <;> cases g.outLocked <;> cases g.flapInner <;>
    cases g.flapOuter <;> decide

theorem buildStatusBits_bits (p : Platform) (g : Globals) (hf : p.FLAP_POT = true)
    (hinv : g.flags ≠ (true, true)) :
    (buildStatusBits p g).testBit 0 = g.inLocked ∧
    (buildStatusBits p g).testBit 1 = g.outLocked ∧
    (buildStatusBits p g).testBit 2 = g.flapInner ∧
    (buildStatusBits p g).testBit 3 = g.flapOuter := by
  unfold buildStatusBits
  unfold Globals.flags at hinv
  rw [hf]
  cases hi : g.inLocked <;> cases ho : g.outLocked <;> cases h1 : g.flapInner <;>
    cases h2 : g.flapOuter <;> simp [h1, h2] at hinv <;> decide

theorem visited_flags {σ : Type} (p : Platform) (W : Periph σ) (s : Loop σ)
    (h : Visited p W s) : s.g.flags ≠ (true, true) := by
  induction h with
  | head s hr => exact reachable_flags p W s hr
  | clock s env env0 m0 _ _ ih => exact ih
  | light s ms _ ih =>
    unfold lightStep
    split
    · exact ih
    · exact ih
  | flapCall s _ ih => exact flapStep_flags p _ s.g s.m ih
  | flap s ms _ ih =>
    unfold flapRead
    split
    · exact flapStep_flags p _ s.g s.m ih
    · exact ih
  | mode s s2 junk ms d env env2 _ hm ih =>
    rw [modeStep_flags p W junk ms s s2 env env2 d hm]
    exact ih
  | door s s3 d env env3 _ hd ih =>
    rw [doorPhase_flags p W d s s3 env env3 hd]
    exact ih
  | buttons s s4 env env4 _ hb ih =>
    rw [buttonsStep_flags p W s s4 env env4 hb]
    exact ih
  | serial s env r _ hs ih =>
    show r.g.flags ≠ (true, true)
    rw [handleSerial_flags p W s.g s.m s.hw env r hs]
    exact ih

theorem flapStep_report (p : Platform) (pos : Nat) (g : Globals) (m : Machine) :
    (flapStep p pos g m).2.1 = m ∨
      (flapStep p pos g m).2.1 = printStatus p (flapStep p pos g m).1 m := by
  have h : (flapStep p pos g m).2.1
      = if (flapStep p pos g m).2.2 then printStatus p (flapStep p pos g m).1 m else m := rfl
  by_cases hd : (flapStep p pos g m).2.2 = true
  · right
    rw [h, if_pos hd]
  · left
    rw [h, if_neg hd]

theorem flapRead_report {σ : Type} (p : Platform) (W : Periph σ) (ms : Nat) (s : Loop σ) :
    (flapRead p W ms s).m = s.m ∨
      (flapRead p W ms s).m = printStatus p (flapRead p W ms s).g s.m := by
  unfold flapRead
  split
  · exact flapStep_report p _ s.g s.m
  · exact Or.inl rfl

theorem handleSerial_status {σ : Type} (p : Platform) (W : Periph σ) (g : Globals)
    (m : Machine) (h : σ) (env : List (List Irq)) (rc : Rd) (ha : byteAvail m = true)
    (hg : getByte p env m 0 = some rc) (hret : rc.ret = 0) (hv : rc.v = 'S'.toNat) :
    handleSerial p W g m h env = some ⟨g, printStatus p g rc.m, h, rc.env⟩ := by
  unfold handleSerial
  simp only [ha, hg, hret, hv, if_true]

/-- C14: In every state `main` passes through in `while(1)`, with the flap
feature compiled in, the two flap flags are never both set, and the value
returned by `buildStatusBits` has bit 0 set iff `inLocked`, bit 1 set iff
`outLocked`, bit 2 set iff `flapInner`, bit 3 set iff `flapOuter`, and every
higher bit clear. These states include the top of every iteration and the
states in which `buildStatusBits` runs: the report the flap read sends is
`printStatus` on the globals of the state after the flap read, and the report
`handleSerial` sends on the command `'S'` is `printStatus` on the globals it
is entered with. -/
theorem status_bits_in_reachable_states {σ : Type} (p : Platform) (W : Periph σ) (s : Loop σ)
    (hr : Visited p W s) (hf : p.FLAP_POT = true) :
    ¬(s.g.flapInner = true ∧ s.g.flapOuter = true) ∧
    (buildStatusBits p s.g).testBit 0 = s.g.inLocked ∧
    (buildStatusBits p s.g).testBit 1 = s.g.outLocked ∧
    (buildStatusBits p s.g).testBit 2 = s.g.flapInner ∧
    (buildStatusBits p s.g).testBit 3 = s.g.flapOuter ∧
    (∀ k, 4 ≤ k → (buildStatusBits p s.g).testBit k = false) ∧
    (∀ ms, Visited p W (flapRead p W ms s) ∧
      ((flapRead p W ms s).m = s.m ∨
        (flapRead p W ms s).m = printStatus p (flapRead p W ms s).g s.m)) ∧
    (∀ (env : List (List Irq)) (rc : Rd), byteAvail s.m = true →
      getByte p env s.m 0 = some rc → rc.ret = 0 → rc.v = 'S'.toNat →
      handleSerial p W s.g s.m s.hw env = some ⟨s.g, printStatus p s.g rc.m, s.hw, rc.env⟩) := by
  have hinv := visited_flags p W s hr
  obtain ⟨h0, h1, h2, h3⟩ := buildStatusBits_bits p s.g hf hinv
  refine ⟨?_, h0, h1, h2, h3, ?_, ?_, ?_⟩
  · intro hb
    apply hinv
    unfold Globals.flags
    rw [hb.1, hb.2]
  · intro k hk
    apply Nat.testBit_lt_two_pow
    calc buildStatusBits p s.g < 16 := buildStatusBits_lt p s.g
      _ = 2 ^ 4 := by decide
      _ ≤ 2 ^ k := Nat.pow_le_pow_right (by decide) hk
  · intro ms
    exact ⟨Visited.flap s ms hr, flapRead_report p W ms s⟩
  · intro env rc ha hg hret hv
    exact handleSerial_status p W s.g s.m s.hw env rc ha hg hret hv

set_option maxRecDepth 100000 in
/-- Two iterations in a world where the flap is first pushed inwards and then
outwards. The first iteration ends with `flapInner` set and status bits 5. In
the second, the state after the flap read, in which the status report has just
been sent, has `flapOuter` set and `flapInner` clear, and status bits 9. -/
theorem status_bits_in_reachable_states_witness :
    ∃ (s1 s2 : Loop (List Call)) (env1 env0 : List (List Irq)) (m0 : Machine),
      loopIter Platform.demo Periph.swinging (⟨[], 0⟩, 0)
          (mainInit Platform.demo Periph.swinging Boot.quiet) Irq.twoRounds = some (s1, env1) ∧
      s1.g.flags = (true, false) ∧ buildStatusBits Platform.demo s1.g = 5 ∧
      sync Platform.demo s1.m env1 = some (m0, env0) ∧
      s2 = sensorStep Platform.demo Periph.swinging (millis m0) { s1 with m := m0 } ∧
      s2.g.flags = (false, true) ∧ s2.g.inLocked = true ∧ s2.g.outLocked = false ∧
      buildStatusBits Platform.demo s2.g = 9 ∧
      s2.m.tx = s1.m.tx ++ [65, 77, 0, 76, 0, 0, 80, 100, 0, 83, 9, 0, 10] ∧
      Visited Platform.demo Periph.swinging s2 ∧ Platform.demo.FLAP_POT = true ∧
      ¬(s2.g.flapInner = true ∧ s2.g.flapOuter = true) ∧
      (buildStatusBits Platform.demo s2.g).testBit 0 = s2.g.inLocked ∧
      (buildStatusBits Platform.demo s2.g).testBit 1 = s2.g.outLocked ∧
      (buildStatusBits Platform.demo s2.g).testBit 2 = s2.g.flapInner ∧
      (buildStatusBits Platform.demo s2.g).testBit 3 = s2.g.flapOuter ∧
      (∀ k, 4 ≤ k → (buildStatusBits Platform.demo s2.g).testBit k = false) := by
  have hx : (loopIter Platform.demo Periph.swinging (⟨[], 0⟩, 0)
      (mainInit Platform.demo Periph.swinging Boot.quiet) Irq.twoRounds).isSome = true := by
    decide
  have e1 : (loopIter Platform.demo Periph.swinging (⟨[], 0⟩, 0)
      (mainInit Platform.demo Periph.swinging Boot.quiet) Irq.twoRounds).map
        (fun r => (r.1.g.flags, buildStatusBits Platform.demo r.1.g, r.1.m.tx))
      = some ((true, false), 5, [65, 77, 0, 76, 0, 0, 80, 132, 3, 83, 5, 0, 10]) := by
    decide
  have e2 : (loopIter Platform.demo Periph.swinging (⟨[], 0⟩, 0)
      (mainInit Platform.demo Periph.swinging Boot.quiet) Irq.twoRounds).bind
        (fun r => (sync Platform.demo r.1.m r.2).map fun q =>
          ((sensorStep Platform.demo Periph.swinging (millis q.1) { r.1 with m := q.1 }).g.flags,
            (sensorStep Platform.demo Periph.swinging (millis q.1)
              { r.1 with m := q.1 }).g.inLocked,
            (sensorStep Platform.demo Periph.swinging (millis q.1)
              { r.1 with m := q.1 }).g.outLocked,
            buildStatusBits Platform.demo
              (sensorStep Platform.demo Periph.swinging (millis q.1) { r.1 with m := q.1 }).g,
            (sensorStep Platform.demo Periph.swinging (millis q.1) { r.1 with m := q.1 }).m.tx))
      = some ((false, true), true, false, 9,
          [65, 77, 0, 76, 0, 0, 80, 132, 3, 83, 5, 0, 10,
            65, 77, 0, 76, 0, 0, 80, 100, 0, 83, 9, 0, 10]) := by
    decide
  obtain ⟨⟨s1, env1⟩, h1⟩ := Option.isSome_iff_exists.1 hx
  rw [h1] at e1 e2
  simp only [Option.map_some', Option.some.injEq, Prod.mk.injEq, Option.some_bind] at e1 e2
  obtain ⟨f1, b1, t1⟩ := e1
  cases hsy : sync Platform.demo s1.m env1 with
  | none => simp [hsy] at e2
  | some q =>
    obtain ⟨m0, env0⟩ := q
    simp only [hsy, Option.map_some', Option.some.injEq, Prod.mk.injEq] at e2
    obtain ⟨f2, i2, o2, b2, t2⟩ := e2
    have hv : Visited Platform.demo Periph.swinging
        (sensorStep Platform.demo Periph.swinging (millis m0) { s1 with m := m0 }) :=
      Visited.flap _ _ (Visited.light _ _ (Visited.clock s1 env1 env0 m0
        (Visited.head s1 (Reachable.iter _ s1 _ _ env1 (Reachable.boot Boot.quiet) h1)) hsy))
    obtain ⟨c0, c1, c2, c3, c4, c5, _, _⟩ :=
      status_bits_in_reachable_states Platform.demo Periph.swinging _ hv rfl
    exact ⟨s1, _, env1, env0, m0, h1, f1, b1, hsy, rfl, f2, i2, o2, b2,
      by rw [t2, t1]; rfl, hv, rfl, c0, c1, c2, c3, c4, c5⟩

/-! ### C22: the red release that trails a combined press -/

theorem handleButtons_green_release_state (p : Platform) (s : Buttons) (i : Sample)
    (hs : s.greenPrev = false) (hg : i.green = true) :
    handleButtons p s i = (if s.bothPressed then BOTH_PRESS else GREEN_PRESS,
      msSub p i.now s.start,
      { greenPrev := true, redPrev := i.red, start := s.start, bothPressed := s.bothPressed }) := by
  simp [handleButtons, hg, hs]

theorem handleButtons_both_iff (p : Platform) (s : Buttons) (i : Sample) :
    (handleButtons p s i).1 = BOTH_PRESS
      ↔ i.green = true ∧ s.greenPrev = false ∧ s.bothPressed = true := by
  rcases s with ⟨gp, rp, st, bp⟩
  rcases i with ⟨g, r, n, n2⟩
  cases g <;> cases gp <;> cases r <;> cases rp <;> cases bp <;> simp [handleButtons]

theorem polls_red_hold (p : Platform) (s : Buttons) (trail : List Sample)
    (hs : s.greenPrev = true ∧ s.redPrev = false)
    (ht : ∀ i ∈ trail, i.green = true ∧ i.red = false) :
    polls p s trail = (s, trail.map fun i => (0, msSub p i.now s.start)) := by
  induction trail with
  | nil => rfl
  | cons i trail ih =>
    have hst : handleButtons p s i = (0, msSub p i.now s.start, s) := by
      rw [handleButtons_red_hold p s i hs (ht i (by simp))]
      rcases s with ⟨gp, rp, st, bp⟩
      simp only at hs
      simp [hs.1, hs.2]
    rw [polls_cons, hst]
    simp only
    rw [ih (fun j hj => ht j (by simp [hj]))]
    simp

theorem msSub_lt (p : Platform) (a b : Nat) : msSub p a b < 2 ^ p.msBits :=
  Nat.mod_lt _ (by positivity)

theorem msSub_chain (p : Platform) (a b c : Nat) :
    msSub p c a = (msSub p b a + msSub p c b) % 2 ^ p.msBits := by
  unfold msSub
  have hM : 0 < 2 ^ p.msBits := by positivity
  generalize 2 ^ p.msBits = M at *
  have ha : a % M < M := Nat.mod_lt _ hM
  have hb : b % M < M := Nat.mod_lt _ hM
  have hbb : (b + (M - b % M)) % M = 0 := by
    have : b + (M - b % M) = M * (b / M + 1) := by
      have := Nat.div_add_mod b M
      have h2 : M * (b / M + 1) = M * (b / M) + M := by ring
      omega
    rw [this]
    exact Nat.mul_mod_right _ _
  rw [← Nat.add_mod]
  have e : b + (M - a % M) + (c + (M - b % M)) = (c + (M - a % M)) + (b + (M - b % M)) := by
    ring
  rw [e, Nat.add_mod _ (b + (M - b % M)), hbb, Nat.add_zero, Nat.mod_mod]

/-- C22 fails on the code in two places. Both buttons are held from time 100 and
released between the same two polls: the poll at 500 sees a red falling edge
(red released now, pressed on the previous poll) and returns `BOTH_PRESS`, since
the green falling-edge branch comes first in the chain. And with a 32-bit clock
that wraps while red is still held after a combined press of 1000 ms (green
pressed at 1000, released at 2000), the red release read at clock value 1500
is reported as a `RED_PRESS` of 500 ms, shorter than the combined press. -/
theorem both_press_on_poll_with_red_falling_edge :
    (handleButtons Platform.demo
        { greenPrev := false, redPrev := false, start := 100, bothPressed := true }
        ⟨true, true, 500, 500⟩).1 = BOTH_PRESS ∧
    (polls Platform.demo Buttons.reset
        [⟨false, false, 100, 100⟩, ⟨false, false, 200, 200⟩, ⟨true, true, 500, 500⟩]).2
      = [(0, 100), (0, 100), (BOTH_PRESS, 400)] ∧
    (polls Platform.demo Buttons.reset
        [⟨false, false, 1000, 1000⟩, ⟨false, false, 1500, 1500⟩, ⟨true, false, 2000, 2000⟩,
          ⟨true, false, 4294967000, 4294967000⟩, ⟨true, true, 1500, 1500⟩]).2
      = [(0, 1000), (0, 500), (BOTH_PRESS, 1000), (0, 4294966000), (RED_PRESS, 500)] := by
  decide

/-- C22, amended: `handleButtons` returns `BOTH_PRESS` exactly on a poll that
sees a green falling edge with the combined flag set, so never on a poll whose
only falling edge is red's. When green is pressed, held with red sampled pressed
on at least one poll of the hold, and released while red is still pressed, that
poll returns `BOTH_PRESS`; every later poll with green released and red still
held returns 0, and the poll that then sees red released returns `RED_PRESS`.
Both durations are measured from the clock stored at green's rising edge, and
the red one is the combined one plus the time since green's release, modulo the
`ms_t` width; it is at least the combined one when that sum does not wrap. -/
theorem trailing_red_press_after_combined (p : Platform) (s : Buttons) (press : Sample)
    (hold : List Sample) (release : Sample) (trail : List Sample) (redUp : Sample)
    (hs : s.greenPrev = true) (hp : press.green = false)
    (hh : ∀ i ∈ hold, i.green = false) (hb : (hold.any fun i => !i.red) = true)
    (hr : release.green = true ∧ release.red = false)
    (ht : ∀ i ∈ trail, i.green = true ∧ i.red = false)
    (hu : redUp.green = true ∧ redUp.red = true) :
    (∀ (t : Buttons) (i : Sample), (handleButtons p t i).1 = BOTH_PRESS
        ↔ i.green = true ∧ t.greenPrev = false ∧ t.bothPressed = true) ∧
      (polls p s ((press :: hold) ++ (release :: trail) ++ [redUp])).2
        = (polls p s (press :: hold)).2
          ++ (BOTH_PRESS, msSub p release.now press.now2)
            :: (trail.map fun i => (0, msSub p i.now press.now2))
          ++ [(RED_PRESS, msSub p redUp.now press.now2)] ∧
      (polls p s (press :: hold)).2.map Prod.fst = List.replicate (1 + hold.length) 0 ∧
      msSub p redUp.now press.now2
        = (msSub p release.now press.now2 + msSub p redUp.now release.now) % 2 ^ p.msBits ∧
      (msSub p release.now press.now2 + msSub p redUp.now release.now < 2 ^ p.msBits →
        msSub p release.now press.now2 ≤ msSub p redUp.now press.now2) := by
  have hpr := handleButtons_green_press p s press hs hp
  obtain ⟨t0, ht0⟩ : ∃ t0 : Buttons, t0 =
      { greenPrev := false, redPrev := press.red, start := press.now2, bothPressed := false } :=
    ⟨_, rfl⟩
  rw [← ht0] at hpr
  obtain ⟨h1, h2, h3, h4⟩ := polls_hold p t0 hold (by rw [ht0]) hh
  have hfst : (polls p s (press :: hold)).2.map Prod.fst = List.replicate (1 + hold.length) 0 := by
    rw [polls_cons, hpr]
    simp only [List.map_cons, h4]
    rw [Nat.add_comm, List.replicate_succ]
  refine ⟨handleButtons_both_iff p, ?_, hfst, msSub_chain p _ _ _, ?_⟩
  · have hheld : (polls p s (press :: hold)).1 = (polls p t0 hold).1 := by
      rw [polls_cons, hpr]
    rw [polls_append, polls_append, hheld]
    generalize polls p t0 hold = ph at h1 h2 h3 h4 ⊢
    rw [hb, ht0] at h3
    rw [ht0] at h2
    simp only [Bool.false_or] at h2 h3
    have hrel := handleButtons_green_release_state p ph.1 release h1 hr.1
    rw [h2, h3, hr.2] at hrel
    simp only [if_true] at hrel
    obtain ⟨t1, ht1⟩ : ∃ t1 : Buttons, t1 =
        { greenPrev := true, redPrev := false, start := press.now2, bothPressed := true } :=
      ⟨_, rfl⟩
    rw [← ht1] at hrel
    have htr := polls_red_hold p t1 trail (by rw [ht1]; exact ⟨rfl, rfl⟩) ht
    have hup := handleButtons_red_release p t1 redUp (by rw [ht1]; exact ⟨rfl, rfl⟩) hu
    have hst : t1.start = press.now2 := by rw [ht1]
    rw [hst] at htr hup
    have hA : polls p ph.1 (release :: trail)
        = (t1, (BOTH_PRESS, msSub p release.now press.now2)
            :: trail.map fun i => (0, msSub p i.now press.now2)) := by
      rw [polls_cons, hrel]
      simp only [htr]
    have hB : (polls p t1 [redUp]).2 = [(RED_PRESS, msSub p redUp.now press.now2)] := by
      rw [polls_cons, hup, polls_nil]
    simp only [hA, hB, List.append_assoc]
  · intro hlt
    rw [msSub_chain p press.now2 release.now redUp.now, Nat.mod_eq_of_lt hlt]
    exact Nat.le_add_right _ _

/-- Green and red pressed at 101, green released at 31500 (`BOTH_PRESS` after
31399 ms), red released at 33000: `RED_PRESS` after 32899 ms. -/
theorem trailing_red_press_after_combined_witness :
    (polls Platform.demo Buttons.reset
        (((⟨false, false, 100, 101⟩ : Sample) :: [⟨false, false, 200, 200⟩])
          ++ (⟨true, false, 31500, 31500⟩ :: [⟨true, false, 32000, 32000⟩])
          ++ [⟨true, true, 33000, 33000⟩])).2
      = [(0, 100), (0, 99), (BOTH_PRESS, 31399), (0, 31899), (RED_PRESS, 32899)] ∧
    msSub Platform.demo 31500 101 ≤ msSub Platform.demo 33000 101 :=
  have h := trailing_red_press_after_combined Platform.demo Buttons.reset
    ⟨false, false, 100, 101⟩ [⟨false, false, 200, 200⟩] ⟨true, false, 31500, 31500⟩
    [⟨true, false, 32000, 32000⟩] ⟨true, true, 33000, 33000⟩
    (by decide) (by decide) (by decide) (by decide) (by decide) (by decide) (by decide)
  ⟨h.2.1.trans (by decide), h.2.2.2.2 (by decide)⟩

/-! ### C21: tag admission is gated by the operating mode -/

theorem service_sound (p : Platform) (e : Irq) (m : Machine) (h : Sound m) :
    ∃ m1, service p e m = some m1 ∧ Sound m1 ∧ m1.tx = m.tx := by
  obtain ⟨hl, hr⟩ := h
  have hb : bump m.rxBuffer.rIndex < SER_BUFFER := by
    rw [bump_of_lt hr]
    exact Nat.mod_lt _ (by decide)
  have hlt : m.rxBuffer.rIndex < m.rxBuffer.buffer.length := by
    rw [hl]
    exact hr
  have key : ∀ m0 : Machine, m0.rxBuffer = m.rxBuffer → m0.tx = m.tx →
      ∃ m1, isr p m0 = some m1 ∧ Sound m1 ∧ m1.tx = m.tx := by
    intro m0 h0 ht
    unfold isr
    split
    · exact ⟨_, rfl, ⟨by rw [← hl, ← h0], by rw [← h0] at hr; exact hr⟩, ht⟩
    · split
      · rw [h0, if_pos hlt]
        exact ⟨_, rfl, ⟨by simpa using hl, hb⟩, ht⟩
      · exact ⟨_, rfl, ⟨by rw [h0]; exact hl, by rw [h0]; exact hr⟩, ht⟩
  cases e with
  | timer => exact key _ rfl rfl
  | rx b => exact key _ rfl rfl

theorem serviceAll_sound (p : Platform) (es : List Irq) (m : Machine) (h : Sound m) :
    ∃ m1, serviceAll p es m = some m1 ∧ Sound m1 ∧ m1.tx = m.tx := by
  induction es generalizing m with
  | nil => exact ⟨m, rfl, h, rfl⟩
  | cons e es ih =>
    obtain ⟨m1, h1, s1, t1⟩ := service_sound p e m h
    obtain ⟨m2, h2, s2, t2⟩ := ih m1 s1
    refine ⟨m2, ?_, s2, t2.trans t1⟩
    simp only [serviceAll, h1, h2]

theorem sync_sound (p : Platform) (m : Machine) (env : List (List Irq)) (h : Sound m) :
    ∃ m1 env1, sync p m env = some (m1, env1) ∧ Sound m1 ∧ m1.tx = m.tx := by
  cases env with
  | nil => exact ⟨m, [], rfl, h, rfl⟩
  | cons b rest =>
    obtain ⟨m1, h1, s1, t1⟩ := serviceAll_sound p b m h
    exact ⟨m1, rest, by simp only [sync, h1], s1, t1⟩

theorem printCat_tx (c : Cat) (m : Machine) : (printCat c m).tx = m.tx ++ catBytes c := by
  simp [printCat, catBytes, putch, List.range, List.range.loop]

theorem printCat_rxBuffer (c : Cat) (m : Machine) : (printCat c m).rxBuffer = m.rxBuffer := by
  simp [printCat, putch, List.range, List.range.loop]

theorem catBytes_ne_nil (c : Cat) : catBytes c ≠ [] := by
  simp [catBytes]

theorem relax_spec {σ : Type} (p : Platform) (s : Loop σ) (env : List (List Irq))
    (hs : Sound s.m) :
    ∃ m1 env1, relax p s env = some ({ s with c := { s.c with crc := 0 }, m := m1 }, env1) ∧
      Sound m1 ∧ m1.tx = s.m.tx := by
  obtain ⟨m1, env1, h1, s1, t1⟩ := sync_sound p s.m env hs
  exact ⟨m1, env1, by simp only [relax, h1], s1, t1⟩

theorem openDoor_spec {σ : Type} (p : Platform) (W : Periph σ) (s : Loop σ) (h : σ)
    (env : List (List Irq)) (hs : Sound s.m) :
    ∃ m1 env1, openDoor p W s h env
        = some ({ s with
            g := { s.g with
              inLocked := (W.lockGreenLatch true (W.lockGreenLatch false (W.beep h)).2).1 }
            m := m1
            hw := (W.lockGreenLatch true (W.lockGreenLatch false (W.beep h)).2).2 }, env1) ∧
      Sound m1 ∧ m1.tx = s.m.tx ++ catBytes s.c := by
  have hp : Sound (printCat s.c s.m) := by
    unfold Sound
    rw [printCat_rxBuffer]
    exact hs
  obtain ⟨m1, env1, h1, s1, t1⟩ := sync_sound p (printCat s.c s.m) env hp
  refine ⟨m1, env1, by simp only [openDoor, h1], s1, ?_⟩
  rw [t1, printCat_tx]

theorem doorStep_spec {σ : Type} (p : Platform) (W : Periph σ) (s : Loop σ)
    (env : List (List Irq)) (hs : Sound s.m) (rr : (Nat × Cat × Nat) × σ) (ce lk : Bool × σ)
    (hrr : rr = W.readRFID s.c s.crcRead s.hw)
    (hce : ce = W.catExists rr.1.2.1 (rr.1.2.2 % 65536) rr.2)
    (hlk : lk = W.lockGreenLatch true (W.lockGreenLatch false (W.beep ce.2)).2) :
    ∃ s3 env3, doorStep p W s env = some (s3, env3) ∧ Sound s3.m ∧
      (rr.1.1 % 256 = 0 ∧ ce.1 = true →
        s3.m.tx = s.m.tx ++ catBytes rr.1.2.1 ∧ s3.hw = lk.2 ∧
          s3.g = { s.g with inLocked := lk.1 }) ∧
      (¬ (rr.1.1 % 256 = 0 ∧ ce.1 = true) →
        s3.m.tx = s.m.tx ∧ s3.g = s.g ∧ s3.hw = if rr.1.1 % 256 = 0 then ce.2 else rr.2) := by
  unfold doorStep
  simp only [← hrr]
  by_cases hr0 : rr.1.1 % 256 = 0
  · simp only [hr0, if_true, ← hce]
    by_cases hk : ce.1 = true
    · unfold doorAct
      simp only [hk, if_true]
      obtain ⟨m1, env1, h1, s1, t1⟩ := openDoor_spec p W
        { s with r := 0, c := rr.1.2.1, crcRead := rr.1.2.2 % 65536, hw := rr.2 } ce.2 env hs
      rw [h1]
      simp only
      obtain ⟨m2, env2, h2, s2, t2⟩ := relax_spec p
        { s with r := 0, c := rr.1.2.1, crcRead := rr.1.2.2 % 65536,
                 g := { s.g with
                   inLocked := (W.lockGreenLatch true (W.lockGreenLatch false (W.beep ce.2)).2).1 }
                 m := m1
                 hw := (W.lockGreenLatch true (W.lockGreenLatch false (W.beep ce.2)).2).2 }
        env1 s1
      refine ⟨_, _, h2, s2, ?_, ?_⟩
      · intro _
        exact ⟨t2.trans t1, by rw [hlk], by rw [hlk]⟩
      · intro hn
        exact (hn ⟨trivial, trivial⟩).elim
    · unfold doorAct
      simp only [hk, if_false, Bool.false_eq_true]
      obtain ⟨m2, env2, h2, s2, t2⟩ := relax_spec p
        { s with r := 0, c := rr.1.2.1, crcRead := rr.1.2.2 % 65536, hw := ce.2 } env hs
      refine ⟨_, _, h2, s2, ?_, ?_⟩
      · intro hc
        exact hc.2.elim
      · intro _
        exact ⟨t2, rfl, rfl⟩
  · simp only [hr0, if_false]
    unfold doorAct
    simp only [if_false, Bool.false_eq_true]
    obtain ⟨m2, env2, h2, s2, t2⟩ := relax_spec p
      { s with r := rr.1.1 % 256, c := rr.1.2.1, crcRead := rr.1.2.2 % 65536, hw := rr.2 } env hs
    refine ⟨_, _, h2, s2, ?_, ?_⟩
    · intro hc
      exact hc.1.elim
    · intro _
      exact ⟨t2, rfl, rfl⟩

theorem learnLoop_tx {σ : Type} (p : Platform) (W : Periph σ) (t : Nat)
    (env env1 : List (List Irq)) (st st1 : LearnSt σ)
    (h : learnLoop p W t env st = some (st1, env1)) : st1.m.tx = st.m.tx := by
  induction env generalizing st with
  | nil =>
    unfold learnLoop at h
    dsimp only at h
    generalize W.readRFID st.cat st.crcRead st.hw = rr at h
    generalize (if rr.1.1 % 256 = 0 ∧ rr.1.2.1.crc = rr.1.2.2 % 65536 ∧ rr.1.2.2 % 65536 ≠ 0 then
        if (W.saveCat rr.1.2.1 rr.2).1 % 256 > 0 then (true, W.beep (W.saveCat rr.1.2.1 rr.2).2)
        else (false, (W.saveCat rr.1.2.1 rr.2).2)
      else (false, rr.2) : Bool × σ) = tried at h
    split at h
    · cases h
      rfl
    · cases h
  | cons b rest ih =>
    unfold learnLoop at h
    dsimp only at h
    generalize W.readRFID st.cat st.crcRead st.hw = rr at h
    generalize (if rr.1.1 % 256 = 0 ∧ rr.1.2.1.crc = rr.1.2.2 % 65536 ∧ rr.1.2.2 % 65536 ≠ 0 then
        if (W.saveCat rr.1.2.1 rr.2).1 % 256 > 0 then (true, W.beep (W.saveCat rr.1.2.1 rr.2).2)
        else (false, (W.saveCat rr.1.2.1 rr.2).2)
      else (false, rr.2) : Bool × σ) = tried at h
    split at h
    · cases h
      rfl
    · cases hb : serviceAll p b st.m with
      | none => simp [hb] at h
      | some m1 =>
        simp only [hb] at h
        have ht := serviceAll_tx p b st.m m1 hb
        split at h
        · rw [ih _ h]
          exact ht
        · cases h
          exact ht

theorem learnCat_tx {σ : Type} (p : Platform) (W : Periph σ) (junk : Cat × Nat) (h0 : σ)
    (m m1 : Machine) (led led1 : Bool) (env env1 : List (List Irq)) (h1 : σ)
    (h : learnCat p W junk h0 m led env = some (h1, m1, led1, env1)) : m1.tx = m.tx := by
  unfold learnCat at h
  split at h
  · cases h
  · rename_i st env2 hl
    cases h
    exact learnLoop_tx p W _ _ _ _ _ hl

theorem lightStep_opMode {σ : Type} (p : Platform) (W : Periph σ) (ms : Nat) (s : Loop σ) :
    (lightStep p W ms s).g.opMode = s.g.opMode := by
  unfold lightStep
  split <;> rfl

theorem flapStep_opMode (p : Platform) (pos : Nat) (g : Globals) (m : Machine) :
    (flapStep p pos g m).1.opMode = g.opMode := by
  unfold flapStep
  dsimp only
  repeat' split
  all_goals rfl

theorem flapRead_opMode {σ : Type} (p : Platform) (W : Periph σ) (ms : Nat) (s : Loop σ) :
    (flapRead p W ms s).g.opMode = s.g.opMode := by
  unfold flapRead
  split
  · exact flapStep_opMode p _ s.g s.m
  · rfl

theorem sensorStep_opMode {σ : Type} (p : Platform) (W : Periph σ) (ms : Nat) (s : Loop σ) :
    (sensorStep p W ms s).g.opMode = s.g.opMode := by
  unfold sensorStep
  rw [flapRead_opMode, lightStep_opMode]

theorem loopIter_modeAndDoor {σ : Type} (p : Platform) (W : Periph σ) (junk : Cat × Nat)
    (s0 : Loop σ) (env0 env : List (List Irq)) (m0 : Machine)
    (h : sync p s0.m env0 = some (m0, env)) :
    loopIter p W junk s0 env0
      = (modeAndDoor p W junk (millis m0) (sensorStep p W (millis m0) { s0 with m := m0 }) env).bind
          fun r => buttonsAndSerial p W r.1 r.2 := by
  unfold loopIter modeAndDoor
  simp only [h]
  cases modeStep p W junk (millis m0) (sensorStep p W (millis m0) { s0 with m := m0 }) env with
  | none => rfl
  | some r =>
    obtain ⟨s2, d, env2⟩ := r
    simp only
    cases doorPhase p W d s2 env2 with
    | none => rfl
    | some r3 =>
      obtain ⟨s3, env3⟩ := r3
      simp only [Option.bind, buttonsAndSerial]

theorem modeStep_total {σ : Type} (p : Platform) (W : Periph σ) (junk : Cat × Nat) (ms : Nat)
    (s : Loop σ) (env : List (List Irq)) (h : s.g.opMode ≠ MODE_LEARN) :
    ∃ s2 d, modeStep p W junk ms s env = some (s2, d, env) := by
  unfold modeStep
  simp only [h, if_false]
  repeat' split
  all_goals exact ⟨_, _, rfl⟩

theorem modeStep_spec {σ : Type} (p : Platform) (W : Periph σ) (junk : Cat × Nat) (ms : Nat)
    (s s2 : Loop σ) (d : Bool) (env env2 : List (List Irq))
    (h : modeStep p W junk ms s env = some (s2, d, env2)) :
    (d = true ↔ s.g.opMode = MODE_NORMAL ∨ s.g.opMode = MODE_VET ∨ s.g.opMode = MODE_NIGHT) ∧
      s2.m.tx = s.m.tx ∧ (d = true → s2.m = s.m) ∧ s2.c = s.c ∧ s2.crcRead = s.crcRead ∧
      (s.g.opMode = MODE_NORMAL ∨ s.g.opMode = MODE_VET ∨ s.g.opMode = MODE_CLOSED ∨
          s.g.opMode = MODE_OPEN → s2.g = s.g ∧ s2.hw = s.hw ∧ s2.m = s.m) ∧
      (s.g.opMode = MODE_NIGHT → (s2.g, s2.hw) = nightTick W.toLatches s.g s.hw) ∧
      (s.g.opMode = MODE_CLEAR →
        (s2.g, s2.hw) = switchMode W.toLatches MODE_NORMAL s.g (W.clearCats s.hw) ∧
          s2.m = s.m) ∧
      (s.g.opMode = MODE_LEARN →
        ∃ h1 m1 led, learnCat p W junk s.hw s.m s.GREEN_LED env = some (h1, m1, led, env2) ∧
          (s2.g, s2.hw) = switchMode W.toLatches MODE_NORMAL s.g h1) := by
  unfold modeStep at h
  split at h
  · rename_i hm
    cases h
    simp [hm]
  · split at h
    · rename_i hm
      cases h
      simp [hm]
    · split at h
      · rename_i hm
        cases h
        simp [hm]
      · split at h
        · rename_i hm
          split at h
          · cases h
          · rename_i h1 m1 led env1 hl
            cases h
            have ht := learnCat_tx p W junk _ _ _ _ _ _ _ _ hl
            simp [hm, ht, hl]
        · split at h
          · rename_i hm
            cases h
            simp [hm]
          · split at h
            · rename_i hm
              cases h
              simp [hm]
            · split at h
              · rename_i hm
                cases h
                simp [hm]
              · rename_i h0 h1 h2 h3 h4 h5 h6
                cases h
                simp [h0, h1, h2, h3, h4, h5, h6]

/-- C21 fails on the code in mode Learn: `learnCat` reads tags. With the mode
Learn at the `switch`, a world in which every tag read succeeds is asked for a
tag by `learnCat`, which saves it and beeps, before `switchMode(MODE_NORMAL)`
sets the latches; the door-open sequence does not run and nothing is sent. -/
theorem learn_mode_reads_a_tag :
    (modeAndDoor Platform.demo Periph.logging (⟨[], 0⟩, 0) 0 (Loop.inMode MODE_LEARN) []).map
        (fun r => (r.1.hw, r.1.m.tx, r.1.g.opMode))
      = some ([Call.readRFID, Call.saveCat, Call.beep, Call.lockRedLatch false,
          Call.lockGreenLatch true], [], MODE_NORMAL) := by
  decide

/-- C21, amended: let the `switch(opMode)` statement of one loop iteration be
reached in state `s` with the receive buffer sound. The statement returns in
every mode but Learn, where it returns when `learnCat` does. When it returns
state `s2` and `doOpen = d`, then `d` is true exactly when the mode is Normal,
Vet or Night; in Normal, Vet, Closed and Open the outside world is not touched,
in Night only by the hysteresis statement, in Clear only by `clearCats` and
`switchMode(MODE_NORMAL)`, and in Learn only by `learnCat`, which reads tags,
and `switchMode(MODE_NORMAL)`; nothing is sent. The `if(doOpen)` statement then
returns as well. With `d` false it does nothing at all. With `d` true it calls
`readRFID` once (`rr`), `catExists` (`ce`) only when that returned 0, and runs
the door-open sequence exactly when both succeed: `beep`, `lockGreenLatch(false)`,
the bytes `'E'`, six id bytes, `'\n'` sent, then `lockGreenLatch(true)` (`lk`)
whose return value is stored in `inLocked`. So the door-open sequence runs if
and only if the mode is Normal, Vet or Night, `readRFID` returns 0 and
`catExists` returns true; otherwise nothing is sent and `inLocked` is unchanged.
Whenever `s` is the state in which an iteration started in `s0` reaches the
`switch`, the mode of `s` is that of `s0` and the iteration is these two
statements followed by the button and serial parts. -/
theorem tag_admission_gated_by_mode {σ : Type} (p : Platform) (W : Periph σ)
    (junk : Cat × Nat) (ms : Nat) (s : Loop σ) (env : List (List Irq)) (hs : Sound s.m) :
    (s.g.opMode ≠ MODE_LEARN → ∃ s2 d, modeStep p W junk ms s env = some (s2, d, env)) ∧
    (∀ (s2 : Loop σ) (d : Bool) (env2 : List (List Irq)) (rr : (Nat × Cat × Nat) × σ)
        (ce lk : Bool × σ),
      modeStep p W junk ms s env = some (s2, d, env2) →
      rr = W.readRFID s2.c s2.crcRead s2.hw →
      ce = W.catExists rr.1.2.1 (rr.1.2.2 % 65536) rr.2 →
      lk = W.lockGreenLatch true (W.lockGreenLatch false (W.beep ce.2)).2 →
      (d = true ↔ s.g.opMode = MODE_NORMAL ∨ s.g.opMode = MODE_VET ∨ s.g.opMode = MODE_NIGHT) ∧
      s2.m.tx = s.m.tx ∧ s2.c = s.c ∧ s2.crcRead = s.crcRead ∧
      (s.g.opMode = MODE_NORMAL ∨ s.g.opMode = MODE_VET ∨ s.g.opMode = MODE_CLOSED ∨
          s.g.opMode = MODE_OPEN → s2.g = s.g ∧ s2.hw = s.hw ∧ s2.m = s.m) ∧
      (s.g.opMode = MODE_NIGHT → (s2.g, s2.hw) = nightTick W.toLatches s.g s.hw) ∧
      (s.g.opMode = MODE_CLEAR →
        (s2.g, s2.hw) = switchMode W.toLatches MODE_NORMAL s.g (W.clearCats s.hw) ∧
          s2.m = s.m) ∧
      (s.g.opMode = MODE_LEARN →
        ∃ h1 m1 led, learnCat p W junk s.hw s.m s.GREEN_LED env = some (h1, m1, led, env2) ∧
          (s2.g, s2.hw) = switchMode W.toLatches MODE_NORMAL s.g h1) ∧
      ∃ s3 env3, modeAndDoor p W junk ms s env = some (s3, env3) ∧
        (d = false → s3 = s2 ∧ env3 = env2) ∧
        (d = true → ¬ (rr.1.1 % 256 = 0 ∧ ce.1 = true) →
          s3.m.tx = s2.m.tx ∧ s3.g = s2.g ∧
            s3.hw = if rr.1.1 % 256 = 0 then ce.2 else rr.2) ∧
        ((s3.m.tx = s2.m.tx ++ catBytes rr.1.2.1 ∧ s3.hw = lk.2 ∧
            s3.g = { s2.g with inLocked := lk.1 })
          ↔ (s.g.opMode = MODE_NORMAL ∨ s.g.opMode = MODE_VET ∨ s.g.opMode = MODE_NIGHT) ∧
              rr.1.1 % 256 = 0 ∧ ce.1 = true)) ∧
    (∀ (s0 : Loop σ) (env0 : List (List Irq)) (m0 : Machine),
      sync p s0.m env0 = some (m0, env) → ms = millis m0 →
      s = sensorStep p W ms { s0 with m := m0 } →
      s.g.opMode = s0.g.opMode ∧
        loopIter p W junk s0 env0
          = (modeAndDoor p W junk ms s env).bind fun r => buttonsAndSerial p W r.1 r.2) := by
  refine ⟨modeStep_total p W junk ms s env, ?_, ?_⟩
  · intro s2 d env2 rr ce lk hm hrr hce hlk
    obtain ⟨h1, h2, h3, h4, h5, h6, h7, h8, h9⟩ := modeStep_spec p W junk ms s s2 d env env2 hm
    refine ⟨h1, h2, h4, h5, h6, h7, h8, h9, ?_⟩
    have hmd : modeAndDoor p W junk ms s env = doorPhase p W d s2 env2 := by
      simp only [modeAndDoor, hm]
    rw [hmd]
    cases d with
    | false =>
      have hno : ¬ (s.g.opMode = MODE_NORMAL ∨ s.g.opMode = MODE_VET ∨ s.g.opMode = MODE_NIGHT) :=
        fun hc => Bool.false_ne_true (h1.2 hc)
      refine ⟨s2, env2, rfl, fun _ => ⟨rfl, rfl⟩, fun hc => (Bool.false_ne_true hc).elim, ?_⟩
      constructor
      · intro hc
        have := hc.1
        have hne := catBytes_ne_nil rr.1.2.1
        simp at this
        exact (hne this).elim
      · intro hc
        exact (hno hc.1).elim
    | true =>
      have hsm : Sound s2.m := by
        rw [h3 rfl]
        exact hs
      obtain ⟨s3, env3, hd, _, hyes, hnot⟩ := doorStep_spec p W s2 env2 hsm rr ce lk hrr hce hlk
      refine ⟨s3, env3, ?_, fun hc => (Bool.false_ne_true hc.symm).elim, fun _ hn => hnot hn, ?_⟩
      · simp only [doorPhase, if_true]
        exact hd
      · constructor
        · intro hc
          refine ⟨h1.1 rfl, ?_⟩
          by_contra hn
          have := (hnot hn).1
          rw [hc.1] at this
          have hne := catBytes_ne_nil rr.1.2.1
          simp at this
          exact hne this
        · intro hc
          exact hyes hc.2
  · intro s0 env0 m0 hsy hms hs0
    subst hms
    subst hs0
    exact ⟨sensorStep_opMode p W _ _, loopIter_modeAndDoor p W junk s0 env0 env m0 hsy⟩

/-- Mode Normal, a tag that is read and known, interrupts arriving during both
delays: the world sees the tag read, the lookup, the beep, the unlock and the
re-lock, and `'E' 01 02 03 04 05 06 '\n'` is sent. -/
theorem tag_admission_gated_by_mode_witness :
    Sound (Loop.inMode MODE_NORMAL).m ∧
    ∃ s3 env3,
      modeAndDoor Platform.demo Periph.logging (⟨[], 0⟩, 0) 0 (Loop.inMode MODE_NORMAL)
          [[Irq.timer, Irq.rx 5], [Irq.timer]] = some (s3, env3) ∧
        s3.m.tx = [69, 1, 2, 3, 4, 5, 6, 10] ∧
        s3.hw = [Call.readRFID, Call.catExists, Call.beep, Call.lockGreenLatch false,
          Call.lockGreenLatch true] ∧
        s3.g.inLocked = true := by
  refine ⟨by decide, ?_⟩
  obtain ⟨_, _, _, _, _, _, _, _, s3, env3, h, _, _, hiff⟩ :=
    (tag_admission_gated_by_mode Platform.demo Periph.logging (⟨[], 0⟩, 0) 0
      (Loop.inMode MODE_NORMAL) [[Irq.timer, Irq.rx 5], [Irq.timer]] (by decide)).2.1
      { Loop.inMode MODE_NORMAL with RED_LED := false, GREEN_LED := false } true
      [[Irq.timer, Irq.rx 5], [Irq.timer]] _ _ _ rfl rfl rfl rfl
  obtain ⟨htx, hhw, hg⟩ := hiff.2 ⟨Or.inl rfl, rfl, rfl⟩
  exact ⟨s3, env3, h, htx, hhw, by rw [hg]; rfl⟩

end CatFlap
